import Mathlib

/-!
# VCBackend: the cross-device credential exchange

A shallow embedding of the exchange handlers of `main.go` (the session
reservation pages, `VerifierAPIPoll`, `VerifierAPIAuthenticationResponse`,
`VerifierPageReceiveCredential`, `generateNonce`) together with the
properties of the exchange that hold on them.

Conventions of the embedding

* Go `string` and `[]byte` values are both embedded as `String`: the
  conversions `[]byte(s)` and `string(b)` keep the content, and `len(b) == 0`
  is `b = ""`. Only where the bytes themselves matter (the `raw` column of a
  credential, the body of an upstream response) a `[]byte` is a `List Byte`.
* `time.Duration` and instants are natural numbers of nanoseconds.
* A handler is a function from the server state, the instant of the call and
  the request context to the new server state and the response.
* Collaborators that live outside `main.go` (JSON parsing, QR rendering, the
  vault's `CreateAccessToken`) are fields of `Env`; those of the handlers that
  call the signing service are fields of `Backend`.
-/

namespace VCBackend

/-! ## Time -/

/-- A `time.Duration`: a count of nanoseconds. -/
abbrev Duration := Nat

/-- An instant, in nanoseconds since the epoch. -/
abbrev Time := Nat

/-- Go `time.Second`. -/
def Second : Duration := 1000000000

/-- Go `time.Minute`. -/
def Minute : Duration := 60 * Second

/-- Go `time.Hour`. -/
def Hour : Duration := 60 * Minute

/-! ## `generateNonce` and `base64.RawURLEncoding` -/

/-- One byte. -/
abbrev Byte := Fin 256

/-- The alphabet of `base64.URLEncoding` (`encodeURL` in `encoding/base64`). -/
def encodeURL : List Char :=
  "ABCDEFGHIJKLMNOPQRSTUVWXYZabcdefghijklmnopqrstuvwxyz0123456789-_".toList

/-- The table lookup `enc.encode[i]`. -/
def encChar (i : Nat) : Char := encodeURL.getD i 'A'

/-- The body of `Encoding.Encode` without padding: full groups of three
bytes give four characters, a remainder of two bytes gives three characters
and a remainder of one byte gives two. -/
def RawURLEncode : List Byte → List Char
  | a :: b :: c :: rest =>
      let val := a.val <<< 16 ||| b.val <<< 8 ||| c.val
      encChar (val >>> 18 &&& 0x3F) :: encChar (val >>> 12 &&& 0x3F) ::
        encChar (val >>> 6 &&& 0x3F) :: encChar (val &&& 0x3F) :: RawURLEncode rest
  | [a, b] =>
      let val := a.val <<< 16 ||| b.val <<< 8
      [encChar (val >>> 18 &&& 0x3F), encChar (val >>> 12 &&& 0x3F),
        encChar (val >>> 6 &&& 0x3F)]
  | [a] =>
      let val := a.val <<< 16
      [encChar (val >>> 18 &&& 0x3F), encChar (val >>> 12 &&& 0x3F)]
  | [] => []

/-- The buffer `b` of `generateNonce` after `io.ReadFull(rand.Reader, b)`:
`make([]byte, 16)` gives sixteen zero bytes and the read overwrites as many
leading bytes as the source delivered (`read`); the error of a short read is
dropped by the code. -/
def nonceBuffer (read : List Byte) : List Byte :=
  (read ++ List.replicate 16 (0 : Byte)).take 16

/-- Function `generateNonce`, with the bytes delivered by `rand.Reader` as
its input. -/
def generateNonce (read : List Byte) : String :=
  let b := nonceBuffer read
  let nonce := String.mk (RawURLEncode b)
  nonce

/-! ## The session store -/

/-- Modelled from the spec: one entry of the Session Store of section 4.2 (the
type `memory.Storage` of package `github.com/gofiber/storage/memory` is not part
of the sources): the status value of a correlation token and the instant at
which it expires. -/
structure SessionEntry where
  value : String
  deadline : Time
deriving DecidableEq, Repr

/-- Modelled from the spec: the Session Store, a mapping from correlation
tokens to entries (the field `Server.storage`, a `*memory.Storage`, whose
package is not part of the sources). -/
structure Storage where
  db : String → Option SessionEntry

/-- Modelled from the spec: `memory.New()`, the empty store. -/
def Storage.New : Storage := ⟨fun _ => none⟩

/-- Modelled from the spec: `Put(token, value, ttl)` "inserts or overwrites;
starts (or restarts) the expiration timer for that token" (`Storage.Set` of the
store package, which is not part of the sources). The spec does not say what the
store does with an empty key or an empty value; the properties of deliveries
below are stated for non-empty tokens and payloads, so that they do not depend
on it. -/
def Storage.Set (st : Storage) (now : Time) (key val : String) (exp : Duration) : Storage :=
  ⟨fun k => if k = key then some ⟨val, now + exp⟩ else st.db k⟩

/-- Modelled from the spec: `Get(token) -> (value, found)` "returns
`found=false` once the TTL has elapsed, even if internal cleanup is lazy"
(`Storage.Get` of the store package, which is not part of the sources). A
missing value is the nil slice, embedded as `""`. -/
def Storage.Get (st : Storage) (now : Time) (key : String) : String × Bool :=
  match st.db key with
  | some e => if now < e.deadline then (e.value, true) else ("", false)
  | none => ("", false)

/-- Modelled from the spec: `Delete(token)`, "explicit early eviction". -/
def Storage.Delete (st : Storage) (key : String) : Storage :=
  ⟨fun k => if k = key then none else st.db k⟩

/-- Modelled from the spec: the optional periodic sweep of section 5, which
purges every entry whose TTL has elapsed ("purely as a memory-reclamation
optimization"). -/
def Storage.sweep (st : Storage) (now : Time) : Storage :=
  ⟨fun k => match st.db k with
    | some e => if now < e.deadline then some e else none
    | none => none⟩

/-! ## Requests, responses and collaborators -/

/-- The part of `yaml.YAML` that the handlers read: the string-valued
top-level fields of a parsed JSON document. -/
structure YAML where
  data : List (String × String)
deriving DecidableEq, Repr

/-- The accessor `(*yaml.YAML).String(key)`: the string stored under `key`, or
the empty string when the field is missing. -/
def YAML.String (y : YAML) (key : String) : String :=
  (y.data.lookup key).getD ""

/-- The request context `*fiber.Ctx`, as far as the handlers read it. -/
structure Ctx where
  Params : String → String
  Query : String → String
  Body : String
  Protocol : String
  Hostname : String

/-- A `fiber.Cookie` with the fields the handlers set. -/
structure Cookie where
  Name : String
  Value : String
  Expires : Time
deriving DecidableEq, Repr

/-- What a handler answers: a text body (`c.SendString`), a rendered template
with its bindings (`c.Render`), a redirect (`c.Redirect`) or the returned
error. -/
inductive Reply where
  | SendString (body : String)
  | Render (name : String) (bind : List (String × String))
  | Redirect (location : String)
  | Err (err : String)
deriving DecidableEq, Repr

/-- The response: the reply, the cookies set with `c.Cookie` and the headers
set with `c.Set`. -/
structure Response where
  reply : Reply
  cookies : List Cookie
  headers : List (String × String)
deriving DecidableEq, Repr

/-- Collaborators of the handlers that are defined outside `main.go`. -/
structure Env where
  /-- Function `yaml.ParseJson`. -/
  ParseJson : String → Except String YAML
  /-- The call `qrcode.Encode(str, qrcode.Medium, 256)` followed by
  `base64.StdEncoding.EncodeToString`. -/
  qrcodeEncode : String → Except String String
  /-- Method `(*vault.Vault).CreateAccessToken` of the issuer vault. -/
  CreateAccessToken : String → String → Except String String
  /-- The package-level variable `sameDevice`. -/
  sameDevice : Bool

/-- The state of the server (`Server`), as far as the exchange handlers use
it. -/
structure Server where
  cfg : String → String
  verifierDID : String
  storage : Storage

def issuerPrefix : String := "/issuer/api/v1"
def verifierPrefix : String := "/verifier/api/v1"
def walletPrefix : String := "/wallet/api/v1"

/-- The three prefixes that every rendered page binds. -/
def prefixBindings : List (String × String) :=
  [("issuerPrefix", issuerPrefix), ("verifierPrefix", verifierPrefix),
    ("walletPrefix", walletPrefix)]

/-- A response that carries only a reply. -/
def Response.plain (r : Reply) : Response := ⟨r, [], []⟩

/-! ## The handlers -/

/-- The authentication request that `VerifierPageDisplayQRSIOP`,
`VerifierPageStartSIOPSameDevice` and `VerifierAPIStartSIOP` build from their
template, after the base address `base`. -/
def siopRequest (base client_id redirect_uri state nonce : String) : String :=
  base ++ "?scope=" ++ "dsba.credentials.presentation.PacketDeliveryService" ++
    "&response_type=" ++ "vp_token" ++
    "&response_mode=post" ++
    "&client_id=" ++ client_id ++
    "&redirect_uri=" ++ redirect_uri ++
    "&state=" ++ state ++
    "&nonce=" ++ nonce

/-- Handler `IssuerPageDisplayQRURL`; `rnd` is what `rand.Reader` delivers to
`generateNonce`. -/
def IssuerPageDisplayQRURL (env : Env) (s : Server) (now : Time) (c : Ctx)
    (rnd : List Byte) : Server × Response :=
  let id := c.Params "id"
  let state := generateNonce rnd
  let s := { s with storage := s.storage.Set now state "pending" (40 * Second) }
  let str := c.Protocol ++ "://" ++ c.Hostname ++ issuerPrefix ++ "/credential/" ++ id ++
    "?state=" ++ state
  match env.qrcodeEncode str with
  | .error err => (s, Response.plain (.Err err))
  | .ok png =>
    let base64Img := "data:image/png;base64," ++ png
    (s, Response.plain (.Render "issuer_present_qr"
      (prefixBindings ++ [("qrcode", base64Img), ("state", state)])))

/-- Handler `VerifierPageStartSIOPSameDevice`. -/
def VerifierPageStartSIOPSameDevice (s : Server) (c : Ctx) (rnd : List Byte) :
    Server × Response :=
  let state := c.Query "state"
  let redirect_uri := c.Protocol ++ "://" ++ c.Hostname ++ verifierPrefix ++
    "/authenticationresponse"
  let walletUri := c.Protocol ++ "://" ++ c.Hostname ++ walletPrefix ++ "/selectcredential"
  let str := siopRequest (walletUri ++ "/") s.verifierDID redirect_uri state (generateNonce rnd)
  (s, Response.plain (.Redirect str))

/-- Function `qrCode`. -/
def qrCode (env : Env) (protocol hostname pfx state : String) : Except String String :=
  let str := protocol ++ "://" ++ hostname ++ pfx ++ "/startsiop?state=" ++ state
  match env.qrcodeEncode str with
  | .error err => .error err
  | .ok png => .ok ("data:image/png;base64," ++ png)

/-- Handler `VerifierPageDisplayQR`. -/
def VerifierPageDisplayQR (env : Env) (s : Server) (now : Time) (c : Ctx)
    (rnd : List Byte) : Server × Response :=
  if env.sameDevice then
    VerifierPageStartSIOPSameDevice s c rnd
  else
    let state := generateNonce rnd
    let s := { s with storage := s.storage.Set now state "pending" (40 * Second) }
    match qrCode env c.Protocol c.Hostname verifierPrefix state with
    | .error err => (s, Response.plain (.Err err))
    | .ok qrCode1 =>
      (s, Response.plain (.Render "verifier_present_qr"
        (prefixBindings ++ [("qrcode", qrCode1), ("prefix", verifierPrefix), ("state", state)])))

/-- Handler `VerifierPageDisplayQRSIOP`; `rnd` feeds the nonce of the state and
`rnd2` the nonce of the authentication request. -/
def VerifierPageDisplayQRSIOP (env : Env) (s : Server) (now : Time) (c : Ctx)
    (rnd rnd2 : List Byte) : Server × Response :=
  let state := generateNonce rnd
  let s := { s with storage := s.storage.Set now state "pending" (200 * Second) }
  let redirect_uri := c.Protocol ++ "://" ++ c.Hostname ++ verifierPrefix ++
    "/authenticationresponse"
  let str := siopRequest "openid://" s.verifierDID redirect_uri state (generateNonce rnd2)
  match env.qrcodeEncode str with
  | .error err => (s, Response.plain (.Err err))
  | .ok png =>
    let base64Img := "data:image/png;base64," ++ png
    (s, Response.plain (.Render "verifier_present_qr"
      (prefixBindings ++ [("qrcode", base64Img), ("prefix", verifierPrefix), ("state", state)])))

/-- Handler `VerifierAPIPoll`. -/
def VerifierAPIPoll (s : Server) (now : Time) (c : Ctx) : Server × Response :=
  let state := c.Params "state"
  let (status, _) := s.storage.Get now state
  if status.length = 0 then
    (s, Response.plain (.SendString "expired"))
  else
    (s, Response.plain (.SendString status))

/-- Handler `VerifierAPIAuthenticationResponse`. -/
def VerifierAPIAuthenticationResponse (env : Env) (s : Server) (now : Time) (c : Ctx) :
    Server × Response :=
  let state := c.Query "state"
  let body := c.Body
  match env.ParseJson body with
  | .error err => (s, Response.plain (.Err err))
  | .ok cred =>
    let credential := cred.String "credential"
    let s := { s with storage := s.storage.Set now state credential (10 * Second) }
    (s, Response.plain (.SendString "ok"))

/-- Handler `VerifierPageReceiveCredential`; `now` is also the value of
`time.Now()` when the cookie is built. -/
def VerifierPageReceiveCredential (env : Env) (s : Server) (now : Time) (c : Ctx) :
    Server × Response :=
  let state := c.Params "state"
  let (rawCred, _) := s.storage.Get now state
  if rawCred.length = 0 then
    (s, Response.plain (.Render "displayerror" [("error", "No credential found")]))
  else
    let claims := rawCred
    match env.CreateAccessToken claims (s.cfg "issuer.id") with
    | .error err => (s, Response.plain (.Err err))
    | .ok accessToken =>
      let cookie : Cookie := ⟨"dbsamvf", accessToken, now + 1 * Hour⟩
      let bearer := "Bearer " ++ accessToken
      (s, ⟨.Render "verifier_receivedcredential"
        (prefixBindings ++ [("claims", claims), ("prefix", verifierPrefix)]),
        [cookie], [("Authorization", bearer)]⟩)

/-! ## Runs of the exchange -/

/-- What can happen to the server between two observations: one of the
exchange requests, or a sweep of the session store. -/
inductive Event where
  | issuerDisplayQRURL (c : Ctx) (rnd : List Byte)
  | verifierDisplayQR (c : Ctx) (rnd : List Byte)
  | verifierDisplayQRSIOP (c : Ctx) (rnd rnd2 : List Byte)
  | poll (c : Ctx)
  | authenticationResponse (c : Ctx)
  | receiveCredential (c : Ctx)
  | sweep

/-- One event at instant `now`. -/
def step (env : Env) (s : Server) (now : Time) : Event → Server × Response
  | .issuerDisplayQRURL c rnd => IssuerPageDisplayQRURL env s now c rnd
  | .verifierDisplayQR c rnd => VerifierPageDisplayQR env s now c rnd
  | .verifierDisplayQRSIOP c rnd rnd2 => VerifierPageDisplayQRSIOP env s now c rnd rnd2
  | .poll c => VerifierAPIPoll s now c
  | .authenticationResponse c => VerifierAPIAuthenticationResponse env s now c
  | .receiveCredential c => VerifierPageReceiveCredential env s now c
  | .sweep => ({ s with storage := s.storage.sweep now }, Response.plain (.SendString ""))

/-- The server after a sequence of timed events. -/
def run (env : Env) (s : Server) : List (Time × Event) → Server
  | [] => s
  | (now, e) :: rest => run env (step env s now e).1 rest

/-- The token an event may write in the session store: the state it reserves
or the state it delivers to. -/
def Event.token (env : Env) : Event → Option String
  | .issuerDisplayQRURL _ rnd => some (generateNonce rnd)
  | .verifierDisplayQR _ rnd => if env.sameDevice then none else some (generateNonce rnd)
  | .verifierDisplayQRSIOP _ rnd _ => some (generateNonce rnd)
  | .authenticationResponse c => some (c.Query "state")
  | .poll _ => none
  | .receiveCredential _ => none
  | .sweep => none

/-- A request context whose path parameter and query parameter `state` are
both `t` and whose body is `body`. -/
def Ctx.forState (t body : String) : Ctx :=
  ⟨fun _ => t, fun _ => t, body, "https", "verifier.example"⟩

/-- The responses of a sequence of timed events, in order. -/
def trace (env : Env) (s : Server) : List (Time × Event) → List Response
  | [] => []
  | (now, e) :: rest => (step env s now e).2 :: trace env (step env s now e).1 rest

/-! ## A concrete deployment for the examples -/

/-- The JSON bodies of the examples with the document `yaml.ParseJson` reads
from each; any other body is taken as malformed. -/
def exampleParseJson (body : String) : Except String YAML :=
  if body = "\x7b\"credential\": \"VC-A\"\x7d" then .ok ⟨[("credential", "VC-A")]⟩
  else if body = "\x7b\"credential\": \"VC-B\"\x7d" then .ok ⟨[("credential", "VC-B")]⟩
  else if body = "\x7b\"credential\": \"\"\x7d" then .ok ⟨[("credential", "")]⟩
  else if body = "\x7b\x7d" then .ok ⟨[]⟩
  else .error "invalid character looking for beginning of value"

/-- Collaborators for the examples: QR rendering and token minting succeed. -/
def exampleEnv : Env :=
  ⟨exampleParseJson, fun str => .ok ("png:" ++ str),
    fun claims issuer => .ok ("jwt:" ++ issuer ++ ":" ++ claims), false⟩

/-- A server that has just started: the session store is empty. -/
def exampleServer : Server :=
  ⟨fun key => if key = "issuer.id" then "issuer-1" else "", "did:key:verifier", Storage.New⟩

/-- The random bytes `0, 1, ..., 15`. -/
def exampleRnd : List Byte := [0, 1, 2, 3, 4, 5, 6, 7, 8, 9, 10, 11, 12, 13, 14, 15]

/-- The token `generateNonce` makes of `exampleRnd`. -/
def exampleToken : String := "AAECAwQFBgcICQoLDA0ODw"

/-- The example server after `IssuerPageDisplayQRURL` has reserved
`exampleToken` at instant 0. -/
def exampleReserved : Server :=
  (IssuerPageDisplayQRURL exampleEnv exampleServer 0 (Ctx.forState "id-1" "") exampleRnd).1

/-- A delivery request for the state `t` that carries the credential `VC-A`. -/
def deliverA (t : String) : Ctx := Ctx.forState t "\x7b\"credential\": \"VC-A\"\x7d"

/-- A delivery request for the state `t` that carries the credential `VC-B`. -/
def deliverB (t : String) : Ctx := Ctx.forState t "\x7b\"credential\": \"VC-B\"\x7d"

/-- A run that leaves `exampleToken` alone: a poll of another token, a sweep of
the store and a delivery to another token. -/
def exampleQuietRun : List (Time × Event) :=
  [(5 * Second, .poll (Ctx.forState "other" "")), (10 * Second, .sweep),
    (20 * Second, .authenticationResponse (deliverA "other"))]

/-- A run that leaves `exampleToken` alone and sweeps the store after the
token has expired. -/
def exampleLateRun : List (Time × Event) :=
  [(5 * Second, .poll (Ctx.forState "other" "")), (250 * Second, .sweep)]

/-- The JSON bodies whose credential is one of the status texts of the poll,
with the document `yaml.ParseJson` reads from each. -/
def exampleStatusParseJson (body : String) : Except String YAML :=
  if body = "\x7b\"credential\": \"pending\"\x7d" then .ok ⟨[("credential", "pending")]⟩
  else if body = "\x7b\"credential\": \"expired\"\x7d" then .ok ⟨[("credential", "expired")]⟩
  else .error "invalid character looking for beginning of value"

/-- The collaborators of `exampleEnv` with `exampleStatusParseJson` as the
parser. -/
def exampleStatusEnv : Env :=
  ⟨exampleStatusParseJson, fun str => .ok ("png:" ++ str),
    fun claims issuer => .ok ("jwt:" ++ issuer ++ ":" ++ claims), false⟩

/-! ## Byte slices and their JSON encoding

Where the bytes themselves matter (the `raw` column of a credential and the body
of an upstream response) a `[]byte` is a list of bytes, and the conversions
between `string` and `[]byte` are `bytesToString` and `stringToBytes`: a Go
string is embedded as the string whose characters are its bytes. -/

/-- The conversion `string(b)`. -/
def bytesToString (b : List Byte) : String :=
  String.mk (b.map fun x => Char.ofNat x.val)

/-- The conversion `[]byte(s)`. -/
def stringToBytes (s : String) : List Byte :=
  s.data.map fun ch => Fin.ofNat ch.toNat

/-- The alphabet of `base64.StdEncoding` (`encodeStd` in `encoding/base64`). -/
def encodeStd : List Byte :=
  stringToBytes "ABCDEFGHIJKLMNOPQRSTUVWXYZabcdefghijklmnopqrstuvwxyz0123456789+/"

/-- The table lookup `enc.encode[i]` of the standard encoding. -/
def encStd (i : Nat) : Byte := encodeStd.getD i 65

/-- The padding character `=` (`StdPadding`). -/
def StdPadding : Byte := 61

/-- The body of `Encoding.Encode` for `base64.StdEncoding`: as `RawURLEncode`,
with the standard alphabet and with the last group padded to four characters. -/
def StdEncode : List Byte → List Byte
  | a :: b :: c :: rest =>
      let val := a.val <<< 16 ||| b.val <<< 8 ||| c.val
      encStd (val >>> 18 &&& 0x3F) :: encStd (val >>> 12 &&& 0x3F) ::
        encStd (val >>> 6 &&& 0x3F) :: encStd (val &&& 0x3F) :: StdEncode rest
  | [a, b] =>
      let val := a.val <<< 16 ||| b.val <<< 8
      [encStd (val >>> 18 &&& 0x3F), encStd (val >>> 12 &&& 0x3F),
        encStd (val >>> 6 &&& 0x3F), StdPadding]
  | [a] =>
      let val := a.val <<< 16
      [encStd (val >>> 18 &&& 0x3F), encStd (val >>> 12 &&& 0x3F), StdPadding, StdPadding]
  | [] => []

/-- The position of a character in the standard alphabet, if it has one (the
table `decodeMap`). -/
def decStd (ch : Byte) : Option Nat :=
  if ch ∈ encodeStd then some (encodeStd.indexOf ch) else none

/-- The loop `for si < len(src) && (src[si] == '\n' || src[si] == '\r')` of
`decodeQuantum`: the input that is left and the index reached. -/
def skipNewlines : List Byte → Nat → List Byte × Nat
  | [], si => ([], si)
  | c :: rest, si =>
    if c.val = 10 ∨ c.val = 13 then skipNewlines rest (si + 1) else (c :: rest, si)

/-- The loop of `Encoding.Decode` over `decodeQuantum`, for
`base64.StdEncoding`: `total` is `len(src)`, `si` the index of the next
character and `dbuf` the sextets read for the current quantum. The error is
the offset of a `CorruptInputError`. -/
def StdDecode.go (total : Nat) : List Byte → Nat → List Nat → Except Nat (List Byte)
  | [], si, dbuf => if dbuf.length = 0 then .ok [] else .error (si - dbuf.length)
  | c :: rest, si, dbuf =>
    match decStd c with
    | some out =>
      match dbuf with
      | [s0, s1, s2] =>
        match StdDecode.go total rest (si + 1) [] with
        | .error off => .error off
        | .ok tail =>
          .ok (Fin.ofNat (s0 * 4 + s1 / 16) :: Fin.ofNat (s1 % 16 * 16 + s2 / 4) ::
            Fin.ofNat (s2 % 4 * 64 + out) :: tail)
      | _ => StdDecode.go total rest (si + 1) (dbuf ++ [out])
    | none =>
      if c.val = 10 ∨ c.val = 13 then StdDecode.go total rest (si + 1) dbuf
      else if c ≠ StdPadding then .error si
      else
        match dbuf with
        | [s0, s1] =>
          match skipNewlines rest (si + 1) with
          | ([], _) => .error total
          | (d :: rest2, si2) =>
            if d ≠ StdPadding then .error (si2 - 1)
            else
              match skipNewlines rest2 (si2 + 1) with
              | ([], _) => .ok [Fin.ofNat (s0 * 4 + s1 / 16)]
              | (_ :: _, si3) => .error si3
        | [s0, s1, s2] =>
          match skipNewlines rest (si + 1) with
          | ([], _) => .ok [Fin.ofNat (s0 * 4 + s1 / 16), Fin.ofNat (s1 % 16 * 16 + s2 / 4)]
          | (_ :: _, si3) => .error si3
        | _ => .error si

/-- Method `Encoding.Decode` of `base64.StdEncoding`: the decoded bytes, or the
offset of the `CorruptInputError`. -/
def StdDecode (src : List Byte) : Except Nat (List Byte) :=
  StdDecode.go src.length src 0 []

/-- The quote character that opens and closes a JSON string. -/
def jsonQuote : Byte := 34

/-- The text `json.Marshal` produces for a non-nil `[]byte`: the standard
base64 encoding of the bytes as a JSON string. (For a nil slice it produces
`null`.) -/
def jsonMarshalBytes (raw : List Byte) : List Byte :=
  jsonQuote :: (StdEncode raw ++ [jsonQuote])

/-! ## The package `encoding/json`, for a target of type `[]byte` -/

/-- Function `isSpace` of `scanner.go`. -/
def isSpace (c : Byte) : Bool := c.val = 32 ∨ c.val = 9 ∨ c.val = 13 ∨ c.val = 10

/-- A hexadecimal digit, as `strconv.Quote` writes it. -/
def lowerhex (n : Nat) : Char := "0123456789abcdef".data.getD n '0'

/-- The text `strconv.Quote(string(c))` without its quotes, for a byte `c`
other than the two quote characters; `string(c)` is the UTF-8 text of the code
point `c`. -/
def quoteByte (c : Byte) : String :=
  if c.val = 92 then "\\\\"
  else if c.val = 7 then "\\a"
  else if c.val = 8 then "\\b"
  else if c.val = 12 then "\\f"
  else if c.val = 10 then "\\n"
  else if c.val = 13 then "\\r"
  else if c.val = 9 then "\\t"
  else if c.val = 11 then "\\v"
  else if c.val < 32 ∨ c.val = 127 then
    "\\x" ++ String.mk [lowerhex (c.val / 16), lowerhex (c.val % 16)]
  else if c.val < 127 then String.mk [Char.ofNat c.val]
  else if c.val ≤ 160 ∨ c.val = 173 then
    "\\u00" ++ String.mk [lowerhex (c.val / 16), lowerhex (c.val % 16)]
  else String.mk [Char.ofNat (192 + c.val / 64), Char.ofNat (128 + c.val % 64)]

/-- Function `quoteChar` of `scanner.go`. -/
def quoteChar (c : Byte) : String :=
  if c.val = 39 then "'\\''"
  else if c.val = 34 then "'\"'"
  else "'" ++ quoteByte c ++ "'"

/-- The step functions of `scanner.go`. -/
inductive ScanStep where
  | stateBeginValueOrEmpty
  | stateBeginValue
  | stateBeginStringOrEmpty
  | stateBeginString
  | stateEndValue
  | stateEndTop
  | stateInString
  | stateInStringEsc
  | stateInStringEscU
  | stateInStringEscU1
  | stateInStringEscU12
  | stateInStringEscU123
  | stateNeg
  | state1
  | state0
  | stateDot
  | stateDot0
  | stateE
  | stateESign
  | stateE0
  | stateT
  | stateTr
  | stateTru
  | stateF
  | stateFa
  | stateFal
  | stateFals
  | stateN
  | stateNu
  | stateNul
deriving DecidableEq, Repr

/-- The entries of `scanner.parseState`. -/
inductive ParseState where
  | parseObjectKey
  | parseObjectValue
  | parseArrayValue
deriving DecidableEq, Repr

/-- The struct `scanner`, without its error: `step` is the step function to
call next and `parseState` the stack of what is being parsed, innermost first.
The flag `endTop` is set exactly when the step function is `stateEndTop`. -/
structure scanner where
  step : ScanStep
  parseState : List ParseState
deriving DecidableEq, Repr

/-- The constant `maxNestingDepth`. -/
def maxNestingDepth : Nat := 10000

/-- Method `scanner.error`: the message of the `SyntaxError`. -/
def scanner.error (c : Byte) (context : String) : Except String scanner :=
  .error ("invalid character " ++ quoteChar c ++ " " ++ context)

/-- Method `pushParseState`. -/
def pushParseState (c : Byte) (parseState : List ParseState) (newParseState : ParseState)
    (successStep : ScanStep) : Except String scanner :=
  if (newParseState :: parseState).length ≤ maxNestingDepth then
    .ok ⟨successStep, newParseState :: parseState⟩
  else scanner.error c "exceeded max depth"

/-- Method `popParseState`, on the stack below the entry that is popped. -/
def popParseState (parseState : List ParseState) : scanner :=
  if parseState.length = 0 then ⟨.stateEndTop, parseState⟩ else ⟨.stateEndValue, parseState⟩

/-- Function `stateEndTop`; the error it records is the one `checkValid`
returns at the next byte or at the end of the input. -/
def stateEndTop (c : Byte) : Except String scanner :=
  if isSpace c then .ok ⟨.stateEndTop, []⟩ else scanner.error c "after top-level value"

/-- Function `stateEndValue`. -/
def stateEndValue (parseState : List ParseState) (c : Byte) : Except String scanner :=
  match parseState with
  | [] => stateEndTop c
  | ps :: rest =>
    if isSpace c then .ok ⟨.stateEndValue, ps :: rest⟩
    else
      match ps with
      | .parseObjectKey =>
        if c.val = 58 then .ok ⟨.stateBeginValue, .parseObjectValue :: rest⟩
        else scanner.error c "after object key"
      | .parseObjectValue =>
        if c.val = 44 then .ok ⟨.stateBeginString, .parseObjectKey :: rest⟩
        else if c.val = 125 then .ok (popParseState rest)
        else scanner.error c "after object key:value pair"
      | .parseArrayValue =>
        if c.val = 44 then .ok ⟨.stateBeginValue, .parseArrayValue :: rest⟩
        else if c.val = 93 then .ok (popParseState rest)
        else scanner.error c "after array element"

/-- Function `stateBeginValue`. -/
def stateBeginValue (parseState : List ParseState) (c : Byte) : Except String scanner :=
  if isSpace c then .ok ⟨.stateBeginValue, parseState⟩
  else if c.val = 123 then pushParseState c parseState .parseObjectKey .stateBeginStringOrEmpty
  else if c.val = 91 then pushParseState c parseState .parseArrayValue .stateBeginValueOrEmpty
  else if c.val = 34 then .ok ⟨.stateInString, parseState⟩
  else if c.val = 45 then .ok ⟨.stateNeg, parseState⟩
  else if c.val = 48 then .ok ⟨.state0, parseState⟩
  else if c.val = 116 then .ok ⟨.stateT, parseState⟩
  else if c.val = 102 then .ok ⟨.stateF, parseState⟩
  else if c.val = 110 then .ok ⟨.stateN, parseState⟩
  else if 49 ≤ c.val ∧ c.val ≤ 57 then .ok ⟨.state1, parseState⟩
  else scanner.error c "looking for beginning of value"

/-- Function `stateBeginString`. -/
def stateBeginString (parseState : List ParseState) (c : Byte) : Except String scanner :=
  if isSpace c then .ok ⟨.stateBeginString, parseState⟩
  else if c.val = 34 then .ok ⟨.stateInString, parseState⟩
  else scanner.error c "looking for beginning of object key string"

/-- Function `state0`. -/
def state0 (parseState : List ParseState) (c : Byte) : Except String scanner :=
  if c.val = 46 then .ok ⟨.stateDot, parseState⟩
  else if c.val = 101 ∨ c.val = 69 then .ok ⟨.stateE, parseState⟩
  else stateEndValue parseState c

/-- Function `stateESign`. -/
def stateESign (parseState : List ParseState) (c : Byte) : Except String scanner :=
  if 48 ≤ c.val ∧ c.val ≤ 57 then .ok ⟨.stateE0, parseState⟩
  else scanner.error c "in exponent of numeric literal"

/-- The test of a hexadecimal digit in `stateInStringEscU`. -/
def isHex (c : Byte) : Bool :=
  (48 ≤ c.val ∧ c.val ≤ 57) ∨ (97 ≤ c.val ∧ c.val ≤ 102) ∨ (65 ≤ c.val ∧ c.val ≤ 70)

/-- One literal character of `true`, `false` or `null`. -/
def stateLiteral (parseState : List ParseState) (c : Byte) (expected : Nat) (next : ScanStep)
    (context : String) : Except String scanner :=
  if c.val = expected then .ok ⟨next, parseState⟩ else scanner.error c context

/-- The call `s.step(s, c)`. -/
def scanner.next (s : scanner) (c : Byte) : Except String scanner :=
  match s.step with
  | .stateBeginValueOrEmpty =>
    if isSpace c then .ok s
    else if c.val = 93 then stateEndValue s.parseState c
    else stateBeginValue s.parseState c
  | .stateBeginValue => stateBeginValue s.parseState c
  | .stateBeginStringOrEmpty =>
    if isSpace c then .ok s
    else if c.val = 125 then
      match s.parseState with
      | [] => stateEndValue [] c
      | _ :: rest => stateEndValue (.parseObjectValue :: rest) c
    else stateBeginString s.parseState c
  | .stateBeginString => stateBeginString s.parseState c
  | .stateEndValue => stateEndValue s.parseState c
  | .stateEndTop => stateEndTop c
  | .stateInString =>
    if c.val = 34 then .ok ⟨.stateEndValue, s.parseState⟩
    else if c.val = 92 then .ok ⟨.stateInStringEsc, s.parseState⟩
    else if c.val < 32 then scanner.error c "in string literal"
    else .ok s
  | .stateInStringEsc =>
    if c.val = 98 ∨ c.val = 102 ∨ c.val = 110 ∨ c.val = 114 ∨ c.val = 116 ∨ c.val = 92 ∨
        c.val = 47 ∨ c.val = 34 then .ok ⟨.stateInString, s.parseState⟩
    else if c.val = 117 then .ok ⟨.stateInStringEscU, s.parseState⟩
    else scanner.error c "in string escape code"
  | .stateInStringEscU =>
    if isHex c then .ok ⟨.stateInStringEscU1, s.parseState⟩
    else scanner.error c "in \\u hexadecimal character escape"
  | .stateInStringEscU1 =>
    if isHex c then .ok ⟨.stateInStringEscU12, s.parseState⟩
    else scanner.error c "in \\u hexadecimal character escape"
  | .stateInStringEscU12 =>
    if isHex c then .ok ⟨.stateInStringEscU123, s.parseState⟩
    else scanner.error c "in \\u hexadecimal character escape"
  | .stateInStringEscU123 =>
    if isHex c then .ok ⟨.stateInString, s.parseState⟩
    else scanner.error c "in \\u hexadecimal character escape"
  | .stateNeg =>
    if c.val = 48 then .ok ⟨.state0, s.parseState⟩
    else if 49 ≤ c.val ∧ c.val ≤ 57 then .ok ⟨.state1, s.parseState⟩
    else scanner.error c "in numeric literal"
  | .state1 =>
    if 48 ≤ c.val ∧ c.val ≤ 57 then .ok ⟨.state1, s.parseState⟩
    else state0 s.parseState c
  | .state0 => state0 s.parseState c
  | .stateDot =>
    if 48 ≤ c.val ∧ c.val ≤ 57 then .ok ⟨.stateDot0, s.parseState⟩
    else scanner.error c "after decimal point in numeric literal"
  | .stateDot0 =>
    if 48 ≤ c.val ∧ c.val ≤ 57 then .ok s
    else if c.val = 101 ∨ c.val = 69 then .ok ⟨.stateE, s.parseState⟩
    else stateEndValue s.parseState c
  | .stateE =>
    if c.val = 43 ∨ c.val = 45 then .ok ⟨.stateESign, s.parseState⟩
    else stateESign s.parseState c
  | .stateESign => stateESign s.parseState c
  | .stateE0 =>
    if 48 ≤ c.val ∧ c.val ≤ 57 then .ok s
    else stateEndValue s.parseState c
  | .stateT => stateLiteral s.parseState c 114 .stateTr "in literal true (expecting 'r')"
  | .stateTr => stateLiteral s.parseState c 117 .stateTru "in literal true (expecting 'u')"
  | .stateTru => stateLiteral s.parseState c 101 .stateEndValue "in literal true (expecting 'e')"
  | .stateF => stateLiteral s.parseState c 97 .stateFa "in literal false (expecting 'a')"
  | .stateFa => stateLiteral s.parseState c 108 .stateFal "in literal false (expecting 'l')"
  | .stateFal => stateLiteral s.parseState c 115 .stateFals "in literal false (expecting 's')"
  | .stateFals =>
    stateLiteral s.parseState c 101 .stateEndValue "in literal false (expecting 'e')"
  | .stateN => stateLiteral s.parseState c 117 .stateNu "in literal null (expecting 'u')"
  | .stateNu => stateLiteral s.parseState c 108 .stateNul "in literal null (expecting 'l')"
  | .stateNul => stateLiteral s.parseState c 108 .stateEndValue "in literal null (expecting 'l')"

/-- The loop `for _, c := range data` of `checkValid`. -/
def checkValid.loop : List Byte → scanner → Except String scanner
  | [], s => .ok s
  | c :: rest, s =>
    match s.next c with
    | .error err => .error err
    | .ok s2 => checkValid.loop rest s2

/-- Method `scanner.eof`: the error, if the input ends before the value does. -/
def scanner.eof (s : scanner) : Option String :=
  if s.step = .stateEndTop then none
  else
    match s.next 32 with
    | .error err => some err
    | .ok s2 =>
      if s2.step = .stateEndTop then none else some "unexpected end of JSON input"

/-- Function `checkValid`: the message of the `SyntaxError`, if `data` is not
one JSON value. -/
def checkValid (data : List Byte) : Option String :=
  match checkValid.loop data ⟨.stateBeginValue, []⟩ with
  | .error err => some err
  | .ok s => s.eof

/-- The value of a hexadecimal digit (`getu4`). -/
def hexValue (c : Byte) : Nat :=
  if 48 ≤ c.val ∧ c.val ≤ 57 then c.val - 48
  else if 97 ≤ c.val ∧ c.val ≤ 102 then c.val - 97 + 10
  else c.val - 65 + 10

/-- The byte an escape `\c` stands for in `unquoteBytes`. -/
def unescape (c : Byte) : Byte :=
  if c.val = 98 then 8
  else if c.val = 102 then 12
  else if c.val = 110 then 10
  else if c.val = 114 then 13
  else if c.val = 116 then 9
  else c

/-- Function `unquoteBytes`, on the text of a string literal after its opening
quote, up to the first byte of the result that is not ASCII. Where Go writes
the UTF-8 text of an escape above `\u007f`, or of bytes that are not ASCII, the
result here ends with one byte that is not ASCII (`0xEF`, resp. the byte
itself): the base64 decoder refuses the input at this byte, whatever follows
it. -/
def unquoteBytes : List Byte → List Byte
  | [] => []
  | c :: rest =>
    if c.val = 34 then []
    else if c.val = 92 then
      match rest with
      | [] => []
      | e :: rest2 =>
        if e.val = 117 then
          match rest2 with
          | h1 :: h2 :: h3 :: h4 :: rest3 =>
            let rr := hexValue h1 * 4096 + hexValue h2 * 256 + hexValue h3 * 16 + hexValue h4
            if rr < 128 then Fin.ofNat rr :: unquoteBytes rest3 else [239]
          | _ => []
        else unescape e :: unquoteBytes rest2
    else if c.val < 128 then c :: unquoteBytes rest
    else [c]

/-- The message of an `UnmarshalTypeError` outside a struct. -/
def unmarshalTypeError (value goType : String) : String :=
  "json: cannot unmarshal " ++ value ++ " into Go value of type " ++ goType

/-- The texts of the elements of an array literal, from the text after its
opening bracket: the text is cut at the commas that are neither inside a string
nor inside a nested array or object, and ends at the closing bracket of the
array. `depth` counts the nested brackets that are open, `inString` and `esc`
say whether the byte is inside a string and follows a backslash, and `cur` is
the text of the element so far. -/
def arrayElements.go : List Byte → Nat → Bool → Bool → List Byte → List (List Byte)
  | [], _, _, _, cur => [cur]
  | c :: rest, depth, inString, esc, cur =>
    if inString then
      if esc then arrayElements.go rest depth true false (cur ++ [c])
      else if c.val = 92 then arrayElements.go rest depth true true (cur ++ [c])
      else if c.val = 34 then arrayElements.go rest depth false false (cur ++ [c])
      else arrayElements.go rest depth true false (cur ++ [c])
    else if c.val = 34 then arrayElements.go rest depth true false (cur ++ [c])
    else if c.val = 91 ∨ c.val = 123 then
      arrayElements.go rest (depth + 1) false false (cur ++ [c])
    else if c.val = 93 ∨ c.val = 125 then
      match depth with
      | 0 => [cur]
      | d + 1 => arrayElements.go rest d false false (cur ++ [c])
    else if c.val = 44 ∧ depth = 0 then cur :: arrayElements.go rest 0 false false []
    else arrayElements.go rest depth false false (cur ++ [c])

/-- The elements of a valid array literal, each without the blanks before it;
the array `[]` has none. -/
def arrayElements (afterBracket : List Byte) : List (List Byte) :=
  match arrayElements.go afterBracket 0 false false [] with
  | [cur] => if cur.dropWhile isSpace = [] then [] else [cur.dropWhile isSpace]
  | elements => elements.map fun cur => cur.dropWhile isSpace

/-- The value of a run of decimal digits. -/
def decimalValue (item : List Byte) : Nat :=
  item.foldl (fun n c => 10 * n + (c.val - 48)) 0

/-- The method `literalStore` and its siblings for a target of kind `uint8`,
the element of index `i` of the slice: the element after the call and the
error that is saved. `cur` is the element before the call. Only a number that
`strconv.ParseUint` reads and that fits `uint8` is stored; `null` is ignored;
every other value is an `UnmarshalTypeError`. -/
def elementStore (item : List Byte) (cur : Byte) : Byte × Option String :=
  match item with
  | [] => (cur, none)
  | c :: _ =>
    if c.val = 110 then (cur, none)
    else if c.val = 116 ∨ c.val = 102 then (cur, some (unmarshalTypeError "bool" "uint8"))
    else if c.val = 34 then (cur, some (unmarshalTypeError "string" "uint8"))
    else if c.val = 91 then (cur, some (unmarshalTypeError "array" "uint8"))
    else if c.val = 123 then (cur, some (unmarshalTypeError "object" "uint8"))
    else
      let number := item.takeWhile fun b => ¬ isSpace b
      if number.all (fun b => 48 ≤ b.val ∧ b.val ≤ 57) ∧ decimalValue number < 256 then
        (Fin.ofNat (decimalValue number), none)
      else (cur, some (unmarshalTypeError ("number " ++ bytesToString number) "uint8"))

/-- The loop of the method `array` of `decodeState` for a target of type
`[]byte`: the elements of the slice after the loop and the first error saved.
The element of index `i` is decoded into the byte the slice holds at `i`, or
into a zero byte when the slice is shorter (a slice is embedded by its
elements, its capacity being its length); the slice ends up as long as the
array. -/
def arrayStore : List (List Byte) → List Byte → List Byte × Option String
  | [], _ => ([], none)
  | item :: items, field =>
    match elementStore item (field.headD 0), arrayStore items field.tail with
    | (b, err), (bs, err2) => (b :: bs, if err.isSome then err else err2)

/-- The call `json.Unmarshal(data, &field)` for a `field` of type `[]byte`: the
field after the call and the message of the error returned. The text is
checked by `checkValid` first; then `null` sets the nil slice, a string is
decoded with `base64.StdEncoding`, an array is decoded element by element into
the slice, and an object, a number or a boolean is an `UnmarshalTypeError`
that leaves the field as it is. -/
def jsonUnmarshalBytes (data : List Byte) (field : List Byte) : List Byte × Option String :=
  match checkValid data with
  | some err => (field, some err)
  | none =>
    match data.dropWhile isSpace with
    | [] => (field, none)
    | c :: rest =>
      if c.val = 110 then ([], none)
      else if c.val = 34 then
        match StdDecode (unquoteBytes rest) with
        | .error off => (field, some ("illegal base64 data at input byte " ++ toString off))
        | .ok b => (b, none)
      else if c.val = 91 then arrayStore (arrayElements rest) field
      else if c.val = 123 then (field, some (unmarshalTypeError "object" "[]uint8"))
      else if c.val = 116 ∨ c.val = 102 then
        (field, some (unmarshalTypeError "bool" "[]uint8"))
      else (field, some (unmarshalTypeError "number" "[]uint8"))

/-! ## The entity `Credential` (`ent/credential.go`) -/

/-- The dynamic type and content of a scanned value `values[i]`: a
`*sql.NullString`, a `*sql.NullTime`, a `*[]byte` (`none` is the nil pointer),
or a value of another type, given by its `%T` name. -/
inductive ScanValue where
  | NullString (Valid : Bool) (String : String)
  | NullTime (Valid : Bool) (Time : Time)
  | Bytes (value : Option (List Byte))
  | Other (goType : String)
deriving DecidableEq, Repr

/-- What `%T` prints for a scanned value. -/
def ScanValue.goType : ScanValue → String
  | .NullString _ _ => "*sql.NullString"
  | .NullTime _ _ => "*sql.NullTime"
  | .Bytes _ => "*[]uint8"
  | .Other t => t

/-- The struct `Credential`, without its configuration and edges. -/
structure Credential where
  ID : String
  /-- The field `Type` of the struct. -/
  Type_ : String
  Raw : List Byte
  CreatedAt : Time
  UpdatedAt : Time
  natural_person_credentials : Option String
  user_credentials : Option String
deriving DecidableEq, Repr

/-- The zero value `&Credential{}`. -/
def Credential.zero : Credential := ⟨"", "", [], 0, 0, none, none⟩

/-- One pass of the loop of `Credential.assignValues`: the `switch` on the
column name, applied to the scanned value of that column; the entity after the
pass and the error returned, if any. -/
def Credential.assignColumn (c : Credential) (column : String) (value : ScanValue) :
    Credential × Option String :=
  if column = "id" then
    match value with
    | .NullString Valid str => if Valid then ({ c with ID := str }, none) else (c, none)
    | v => (c, some ("unexpected type " ++ v.goType ++ " for field id"))
  else if column = "type" then
    match value with
    | .NullString Valid str => if Valid then ({ c with Type_ := str }, none) else (c, none)
    | v => (c, some ("unexpected type " ++ v.goType ++ " for field type"))
  else if column = "raw" then
    match value with
    | .Bytes value =>
      match value with
      | some bytes =>
        if bytes.length > 0 then
          match jsonUnmarshalBytes bytes c.Raw with
          | (raw, some err) =>
            ({ c with Raw := raw }, some ("unmarshal field raw: " ++ err))
          | (raw, none) => ({ c with Raw := raw }, none)
        else (c, none)
      | none => (c, none)
    | v => (c, some ("unexpected type " ++ v.goType ++ " for field raw"))
  else if column = "created_at" then
    match value with
    | .NullTime Valid t => if Valid then ({ c with CreatedAt := t }, none) else (c, none)
    | v => (c, some ("unexpected type " ++ v.goType ++ " for field created_at"))
  else if column = "updated_at" then
    match value with
    | .NullTime Valid t => if Valid then ({ c with UpdatedAt := t }, none) else (c, none)
    | v => (c, some ("unexpected type " ++ v.goType ++ " for field updated_at"))
  else if column = "natural_person_credentials" then
    match value with
    | .NullString Valid str =>
      if Valid then ({ c with natural_person_credentials := some str }, none) else (c, none)
    | v => (c, some ("unexpected type " ++ v.goType ++ " for field natural_person_credentials"))
  else if column = "user_credentials" then
    match value with
    | .NullString Valid str =>
      if Valid then ({ c with user_credentials := some str }, none) else (c, none)
    | v => (c, some ("unexpected type " ++ v.goType ++ " for field user_credentials"))
  else (c, none)

/-- The loop `for i := range columns` of `Credential.assignValues`: the entity
as the loop leaves it, and the error it returned, if any. -/
def Credential.assignLoop (c : Credential) : List String → List ScanValue →
    Credential × Option String
  | [], _ => (c, none)
  | _ :: _, [] => (c, some "index out of range")
  | column :: columns, value :: values =>
    match c.assignColumn column value with
    | (c2, some err) => (c2, some err)
    | (c2, none) => Credential.assignLoop c2 columns values

/-- Method `Credential.assignValues`: the entity after the call and the
returned error. -/
def Credential.assignValues (c : Credential) (columns : List String)
    (values : List ScanValue) : Credential × Option String :=
  if values.length < columns.length then
    (c, some ("mismatch number of scan values: " ++ toString values.length ++ " != " ++
      toString columns.length))
  else
    Credential.assignLoop c columns values

/-! ## The vault of the issuer -/

/-- Modelled from the spec: a stored Credential of section 3, as the row of its
table (the entity client that writes and reads the rows is not part of the
sources); the column `raw` holds the JSON text of the raw bytes. -/
structure CredentialRow where
  id : String
  type : String
  raw : List Byte
  created_at : Time
  updated_at : Time
deriving DecidableEq, Repr

/-- Modelled from the spec: the credentials the Vault of section 4.1 stores
(package `vault` and the entity client are not part of the sources). -/
structure Vault where
  credentials : List CredentialRow
deriving DecidableEq, Repr

/-- Modelled from the spec: `Credential.Create(id, raw) -> Credential`, "fails
with `ConflictError` on duplicate id" (the builder
`Credential.Create().SetID(id).SetRaw(raw).Save(ctx)` is not part of the
sources). -/
def Vault.CredentialCreate (v : Vault) (now : Time) (id : String) (raw : List Byte) :
    Except String Vault :=
  if v.credentials.any (fun r => r.id = id) then
    .error "ConflictError: credential already exists"
  else
    .ok ⟨v.credentials ++ [⟨id, "", jsonMarshalBytes raw, now, now⟩]⟩

/-- The columns of the credential table, in the order of a query. -/
def credentialColumns : List String := ["id", "type", "raw", "created_at", "updated_at"]

/-- The values `rows.Scan` stores into the holders that `scanValues` makes for
`credentialColumns`. -/
def CredentialRow.scan (r : CredentialRow) : List ScanValue :=
  [.NullString true r.id, .NullString true r.type, .Bytes (some r.raw),
    .NullTime true r.created_at, .NullTime true r.updated_at]

/-- Modelled from the spec: `Credential.Get(credentialID) -> Credential`,
"fails with `NotFoundError` if absent" (the client method is not part of the
sources); the row found is decoded by `Credential.assignValues`. -/
def Vault.CredentialGet (v : Vault) (id : String) : Except String Credential :=
  match v.credentials.find? (fun r => r.id = id) with
  | none => .error "NotFoundError: credential not found"
  | some r =>
    match Credential.zero.assignValues credentialColumns r.scan with
    | (_, some err) => .error err
    | (c, none) => .ok c

/-! ## The handlers that call the signing service -/

/-- The struct `SSIKitConfig`. -/
structure SSIKitConfig where
  coreUrl : String
  signatoryUrl : String
  auditorUrl : String
  custodianUrl : String
  essifUrl : String
deriving DecidableEq, Repr

/-- One entry of the list `roles` of the credential subject. -/
structure Role where
  target : String
  names : List String
deriving DecidableEq, Repr

/-- The map `claims` that `IssuerPageNewCredentialFormPost` builds. -/
structure Claims where
  firstName : String
  familyName : String
  email : String
  roles : List Role
deriving DecidableEq, Repr

/-- The map `config` of the issue request. -/
structure IssueConfig where
  issuerDid : String
  subjectDid : String
  proofType : String
deriving DecidableEq, Repr

/-- The JSON body of a request sent with an agent: none, the body of
`CoreAPICreateDID`, the body `bodyRequest` of `IssuerPageNewCredentialFormPost`,
or the body of `WalletPageSendCredential`. -/
inductive AgentBody where
  | empty
  | createDID (method : String)
  | issue (templateId : String) (config : IssueConfig) (credentialSubject : Claims)
  | sendCredential (credential : String)
deriving DecidableEq, Repr

/-- A request sent with a `fiber.Agent`. -/
structure AgentRequest where
  method : String
  url : String
  body : AgentBody
deriving DecidableEq, Repr

/-- The result `code, body, errors` of `agent.Bytes()`. -/
structure AgentReply where
  code : Nat
  body : List Byte
  errors : List String
deriving DecidableEq, Repr

/-- The collaborators of the handlers that call the signing service, and the
configuration they read. -/
structure Backend where
  ssiKit : SSIKitConfig
  cfg : String → String
  /-- Sending a request with a `fiber.Agent` and reading the reply. -/
  agent : AgentRequest → AgentReply
  /-- Method `(*vault.Vault).GetDIDForUser` of the issuer vault. -/
  GetDIDForUser : String → Except String String
  /-- Function `yaml.ParseJson`. -/
  ParseJson : String → Except String YAML
  /-- Function `prettyFormatJSON`. -/
  prettyFormatJSON : List Byte → String

/-- The struct `NewCredentialForm`. -/
structure NewCredentialForm where
  FirstName : String
  FamilyName : String
  Email : String
  Target : String
  Roles : String
deriving DecidableEq, Repr

/-- The pieces of a character sequence between the occurrences of `sep`. -/
def splitChars (sep : Char) : List Char → List (List Char)
  | [] => [[]]
  | ch :: rest =>
    if ch = sep then [] :: splitChars sep rest
    else
      match splitChars sep rest with
      | seg :: segs => (ch :: seg) :: segs
      | [] => [[ch]]

/-- Function `strings.Split(s, sep)` for a separator of one character. -/
def Split (s : String) (sep : Char) : List String :=
  (splitChars sep s.data).map String.mk

/-- The request that `IssuerPageNewCredentialFormPost` sends to the signing
service for the form `newCred` and the issuer DID `issuerDID`. -/
def issueRequest (b : Backend) (newCred : NewCredentialForm) (issuerDID : String) :
    AgentRequest :=
  let names := Split newCred.Roles ','
  let role : Role := ⟨newCred.Target, names⟩
  let roles := [role]
  let claims : Claims := ⟨newCred.FirstName, newCred.FamilyName, newCred.Email, roles⟩
  let config : IssueConfig :=
    ⟨issuerDID, "did:key:z6Mkfdio1n9SKoZUtKdr9GTCZsRPbwHN8f7rbJghJRGdCt88", "LD_PROOF"⟩
  ⟨"POST", b.ssiKit.signatoryUrl ++ "/v1/credentials/issue",
    .issue "PacketDeliveryService" config claims⟩

/-- Handler `IssuerPageNewCredentialFormPost`; `parsed` is the result of
`c.BodyParser(newCred)`. The result is the vault after the call, the response
and the requests sent to the signing service. -/
def IssuerPageNewCredentialFormPost (b : Backend) (v : Vault) (now : Time)
    (parsed : Except String NewCredentialForm) : Vault × Response × List AgentRequest :=
  match parsed with
  | .error err => (v, Response.plain (.Err err), [])
  | .ok newCred =>
    if newCred.Email = "" ∨ newCred.FirstName = "" ∨ newCred.FamilyName = "" ∨
        newCred.Roles = "" ∨ newCred.Target = "" then
      (v, Response.plain (.Render "issuer_newcredential" [("Errormessage", "Enter all fields")]),
        [])
    else
      match b.GetDIDForUser (b.cfg "issuer.id") with
      | .error err => (v, Response.plain (.Err err), [])
      | .ok issuerDID =>
        let request := issueRequest b newCred issuerDID
        let reply := b.agent request
        if reply.errors.length > 0 then
          (v, Response.plain (.Err ("error calling SSI Kit: " ++ reply.errors.headD "")),
            [request])
        else
          match b.ParseJson (bytesToString reply.body) with
          | .error err => (v, Response.plain (.Err err), [request])
          | .ok parsed =>
            let credentialID := parsed.String "id"
            if credentialID.length = 0 then
              (v, Response.plain (.Err "id field not found in credential"), [request])
            else
              match v.CredentialCreate now credentialID reply.body with
              | .error err => (v, Response.plain (.Err err), [request])
              | .ok v2 =>
                let str := b.prettyFormatJSON reply.body
                (v2, Response.plain (.Render "creddetails"
                  (prefixBindings ++ [("claims", str), ("prefix", issuerPrefix)])), [request])

/-- Handler `IssuerAPICredential`. -/
def IssuerAPICredential (v : Vault) (c : Ctx) : Response :=
  let credID := c.Params "id"
  match v.CredentialGet credID with
  | .error err => Response.plain (.Err err)
  | .ok rawCred => Response.plain (.SendString (bytesToString rawCred.Raw))

/-- The end common to the three `CoreAPI` handlers: the error of the agent, or
the body of the reply sent on as JSON. -/
def forwardReply (reply : AgentReply) : Response :=
  if reply.errors.length > 0 then
    Response.plain (.Err ("error calling SSI Kit: " ++ reply.errors.headD ""))
  else
    ⟨.SendString (bytesToString reply.body), [], [("Content-Type", "application/json")]⟩

/-- Handler `CoreAPICreateDID`: the response and the requests sent. -/
def CoreAPICreateDID (b : Backend) : Response × List AgentRequest :=
  let request : AgentRequest :=
    ⟨"POST", b.ssiKit.custodianUrl ++ "/did/create", .createDID "key"⟩
  (forwardReply (b.agent request), [request])

/-- Handler `CoreAPIListCredentialTemplates`: the response and the requests
sent. -/
def CoreAPIListCredentialTemplates (b : Backend) : Response × List AgentRequest :=
  let request : AgentRequest := ⟨"GET", b.ssiKit.signatoryUrl ++ "/v1/templates", .empty⟩
  (forwardReply (b.agent request), [request])

/-- Handler `CoreAPIGetCredentialTemplate`: the response and the requests
sent. -/
def CoreAPIGetCredentialTemplate (b : Backend) (c : Ctx) : Response × List AgentRequest :=
  let id := c.Params "id"
  if id.length = 0 then
    (Response.plain (.Err "no template id specified"), [])
  else
    let request : AgentRequest :=
      ⟨"GET", b.ssiKit.signatoryUrl ++ "/v1/templates/" ++ id, .empty⟩
    (forwardReply (b.agent request), [request])

/-- Handler `WalletPageSendCredential`: the response and the requests sent. -/
def WalletPageSendCredential (b : Backend) (v : Vault) (c : Ctx) :
    Response × List AgentRequest :=
  let credID := c.Query "id"
  let redirect_uri := c.Query "redirect_uri"
  let state := c.Query "state"
  match v.CredentialGet credID with
  | .error err => (Response.plain (.Err err), [])
  | .ok rawCred =>
    let request : AgentRequest :=
      ⟨"POST", redirect_uri ++ "?state=" ++ state, .sendCredential (bytesToString rawCred.Raw)⟩
    let reply := b.agent request
    if reply.errors.length > 0 then
      (Response.plain (.Err ("error sending credential: " ++ reply.errors.headD "")), [request])
    else
      let error :=
        if reply.code < 200 ∨ reply.code > 299 then
          "Error calling server: " ++ toString reply.code
        else ""
      (Response.plain (.Render "wallet_credentialsent"
        (prefixBindings ++ [("prefix", verifierPrefix), ("error", error)])), [request])

/-! ## A concrete signing service for the examples -/

/-- The addresses of the signing service in the examples. -/
def exampleSSIKit : SSIKitConfig :=
  ⟨"http://ssikit:7000", "http://ssikit:7001", "http://ssikit:7003", "http://ssikit:7002",
    "http://ssikit:7004"⟩

/-- A response body that carries the identifier `vc-1`. -/
def exampleIssuedBody : List Byte := stringToBytes "\x7b\"id\": \"vc-1\"\x7d"

/-- A response body without identifier. -/
def exampleAnonymousBody : List Byte := stringToBytes "\x7b\x7d"

/-- The response bodies of the examples with the document `yaml.ParseJson`
reads from each; any other body is taken as malformed. -/
def exampleBackendParseJson (body : String) : Except String YAML :=
  if body = "\x7b\"id\": \"vc-1\"\x7d" then .ok ⟨[("id", "vc-1")]⟩
  else if body = "\x7b\x7d" then .ok ⟨[]⟩
  else .error "invalid character looking for beginning of value"

/-- What `prettyFormatJSON` makes of the response bodies of the examples: the
object that carries the identifier is written anew by `json.MarshalIndent`,
with an indentation of two blanks; the empty object, and a body that is not a
JSON object (the error of `json.Unmarshal` is dropped and the map stays empty),
give the text of the empty map. -/
def examplePrettyFormatJSON (raw : List Byte) : String :=
  if raw = exampleIssuedBody then "\x7b\n  \"id\": \"vc-1\"\n\x7d" else "\x7b\x7d"

/-- A backend whose signing service answers every request with the status
`code` and the body `body`, without transport error. -/
def exampleBackend (code : Nat) (body : List Byte) : Backend :=
  ⟨exampleSSIKit, fun key => if key = "issuer.id" then "issuer-1" else "",
    fun _ => ⟨code, body, []⟩, fun _ => .ok "did:key:issuer", exampleBackendParseJson,
    examplePrettyFormatJSON⟩

/-- A form with all five fields filled in. -/
def exampleForm : NewCredentialForm :=
  ⟨"Alice", "Doe", "alice@example.org", "did:key:target", "buyer,seller"⟩

/-- A vault without credentials. -/
def exampleVault : Vault := ⟨[]⟩

/-- A request context whose path parameter `id` is `id`. -/
def Ctx.forId (id : String) : Ctx := ⟨fun _ => id, fun _ => "", "", "https", "issuer.example"⟩

/-! ## The process and its routes -/

/-- The routes that `run` registers, in the order of registration. -/
inductive Route where
  | home
  | issuer
  | verifier
  | stop
  | issuerNewCredentialDisplay
  | issuerNewCredentialPost
  | issuerCredDetails
  | issuerDisplayQRURL
  | issuerAllCredentials
  | issuerCredential
  | verifierDisplayQR
  | verifierLoginExpired
  | verifierStartSIOPSameDevice
  | verifierReceiveCredential
  | verifierAccessProtectedService
  | verifierPoll
  | verifierStartSIOP
  | verifierAuthenticationResponse
  | walletSelectCredential
  | walletSendCredential
  | coreCreateDID
  | coreListCredentialTemplates
  | coreGetCredentialTemplate
  | static
deriving DecidableEq, Repr

/-- How the call of a handler ends: the handler returns (a response, or an
error that fiber answers), it panics, or it ends the process with `os.Exit`. -/
inductive Outcome where
  | returned (r : Response)
  | panicked (value : String)
  | exited (code : Nat)
deriving DecidableEq, Repr

/-- The state of the server process. -/
inductive Process where
  | running
  | exited (code : Nat)
deriving DecidableEq, Repr

/-- Collaborators of the page handlers that are defined outside `main.go`. -/
structure Pages where
  /-- Method `(*operations.Manager).GetAllCredentials`; the summaries are kept
  as the text that the template, resp. `c.JSON`, is given. -/
  GetAllCredentials : Except String String
  /-- Method `(*operations.Manager).GetCredentialLD`. -/
  GetCredentialLD : String → Except String String
  /-- The JSON encoder of `c.JSON`. -/
  JSON : String → Except String String
  /-- The request `fiber.Get(url)` with the header `Authorization`, and the
  result of `agent.Bytes()`. -/
  Get : String → String → AgentReply
  /-- The handler that `s.Static` registers. -/
  Static : Ctx → Response

/-- A request, with what the libraries make of it before and while the handler
runs. -/
structure Request where
  c : Ctx
  /-- The accessor `c.Cookies`. -/
  Cookies : String → String
  /-- The accessor `c.Locals`. -/
  Locals : String → String
  /-- What `c.BodyParser` reads into a `NewCredentialForm`. -/
  form : Except String NewCredentialForm
  /-- The error of `c.QueryParser`, if it fails. -/
  QueryParser : Option String
  /-- What `rand.Reader` delivers to the first call of `generateNonce`. -/
  rnd : List Byte
  /-- What `rand.Reader` delivers to the second call of `generateNonce`. -/
  rnd2 : List Byte
  /-- The error with which the middleware `csrfHandler` refuses the request,
  if it does. -/
  csrf : Option String
  /-- The value of a panic that the Go runtime or a library raises while the
  handler runs, if one is raised. -/
  fault : Option String

/-- The server and its collaborators at the instant of a request. -/
structure World where
  env : Env
  s : Server
  b : Backend
  v : Vault
  pages : Pages
  now : Time

/-- Handler `HandleHome`. -/
def HandleHome : Response := Response.plain (.Render "index" [])

/-- Handler `HandleStop`: `os.Exit(0)` is its first statement, and the
`return nil` after it is never reached. -/
def HandleStop : Outcome := .exited 0

/-- Handler `HandleIssuerHome`. -/
def HandleIssuerHome (p : Pages) : Response :=
  match p.GetAllCredentials with
  | .error err => Response.plain (.Err err)
  | .ok credsSummary =>
    Response.plain (.Render "issuer_home"
      (prefixBindings ++ [("prefix", issuerPrefix), ("credlist", credsSummary)]))

/-- Handler `HandleVerifierHome`. -/
def HandleVerifierHome (p : Pages) : Response :=
  match p.GetAllCredentials with
  | .error err => Response.plain (.Err err)
  | .ok credsSummary =>
    Response.plain (.Render "verifier_home"
      (prefixBindings ++ [("prefix", verifierPrefix), ("credlist", credsSummary)]))

/-- Handler `VerifierPageLoginExpired`. -/
def VerifierPageLoginExpired : Response :=
  Response.plain (.Render "verifier_loginexpired" [("prefix", verifierPrefix)])

/-- Handler `VerifierAPIStartSIOP`. -/
def VerifierAPIStartSIOP (s : Server) (c : Ctx) (rnd : List Byte) : Response :=
  let state := c.Query "state"
  let redirect_uri := c.Protocol ++ "://" ++ c.Hostname ++ verifierPrefix ++
    "/authenticationresponse"
  let str := siopRequest "openid://" s.verifierDID redirect_uri state (generateNonce rnd)
  Response.plain (.SendString str)

/-- Handler `IssuerAPIAllCredentials`. -/
def IssuerAPIAllCredentials (p : Pages) : Response :=
  match p.GetAllCredentials with
  | .error err => Response.plain (.Err err)
  | .ok credsSummary =>
    match p.JSON credsSummary with
    | .error err => Response.plain (.Err err)
    | .ok raw => ⟨.SendString raw, [], [("Content-Type", "application/json")]⟩

/-- Handler `WalletPageSelectCredential`; the fields of the struct
`authRequest` are bound one by one. -/
def WalletPageSelectCredential (p : Pages) (req : Request) : Response :=
  match req.QueryParser with
  | some err => Response.plain (.Err err)
  | none =>
    match p.GetAllCredentials with
    | .error err => Response.plain (.Err err)
    | .ok credsSummary =>
      Response.plain (.Render "wallet_selectcredential"
        (prefixBindings ++ [("prefix", walletPrefix),
          ("authRequest.Scope", req.c.Query "scope"),
          ("authRequest.Response_mode", req.c.Query "response_mode"),
          ("authRequest.Response_type", req.c.Query "response_type"),
          ("authRequest.Client_id", req.c.Query "client_id"),
          ("authRequest.Redirect_uri", req.c.Query "redirect_uri"),
          ("authRequest.State", req.c.Query "state"),
          ("authRequest.Nonce", req.c.Query "nonce"),
          ("credlist", credsSummary)]))

/-- Handler `VerifierPageAccessProtectedService`. -/
def VerifierPageAccessProtectedService (p : Pages) (s : Server) (req : Request) : Response :=
  let accessToken := req.Cookies "dbsamvf"
  let protectedURL := s.cfg "verifier.protectedResource.url"
  let reply : AgentReply :=
    if protectedURL.length > 0 then p.Get protectedURL ("Bearer " ++ accessToken)
    else ⟨0, [], []⟩
  if protectedURL.length > 0 ∧ reply.errors.length > 0 then
    Response.plain (.Err ("error calling SSI Kit: " ++ reply.errors.headD ""))
  else
    Response.plain (.Render "verifier_protectedservice"
      (prefixBindings ++ [("accesstoken", accessToken), ("protected", protectedURL),
        ("code", toString reply.code), ("returnBody", bytesToString reply.body)]))

/-- Handler `IssuerPageNewCredentialFormDisplay`. -/
def IssuerPageNewCredentialFormDisplay (req : Request) : Response :=
  Response.plain (.Render "issuer_newcredential"
    (prefixBindings ++ [("csrftoken", req.Locals "csrftoken"), ("prefix", issuerPrefix)]))

/-- Handler `IssuerPageCredentialDetails`. -/
def IssuerPageCredentialDetails (p : Pages) (c : Ctx) : Response :=
  let credID := c.Params "id"
  match p.GetCredentialLD credID with
  | .error err => Response.plain (.Err err)
  | .ok claims =>
    Response.plain (.Render "creddetails"
      (prefixBindings ++ [("claims", claims), ("prefix", issuerPrefix)]))

/-- The call of a handler whose body has no `os.Exit`: it panics when the
runtime or a library raises a panic, and returns its response otherwise. -/
def Request.call (req : Request) (r : Response) : Outcome :=
  match req.fault with
  | some value => .panicked value
  | none => .returned r

/-- The middleware `csrfHandler` before a handler. -/
def Request.csrfHandler (req : Request) (next : Outcome) : Outcome :=
  match req.csrf with
  | some err => req.call (Response.plain (.Err err))
  | none => next

/-- The handler that `run` registers for each route, called on a request. -/
def handle (w : World) (route : Route) (req : Request) : Outcome :=
  match route with
  | .home => req.call HandleHome
  | .issuer => req.call (HandleIssuerHome w.pages)
  | .verifier => req.call (HandleVerifierHome w.pages)
  | .stop => HandleStop
  | .issuerNewCredentialDisplay =>
    req.csrfHandler (req.call (IssuerPageNewCredentialFormDisplay req))
  | .issuerNewCredentialPost =>
    req.csrfHandler (req.call (IssuerPageNewCredentialFormPost w.b w.v w.now req.form).2.1)
  | .issuerCredDetails => req.call (IssuerPageCredentialDetails w.pages req.c)
  | .issuerDisplayQRURL => req.call (IssuerPageDisplayQRURL w.env w.s w.now req.c req.rnd).2
  | .issuerAllCredentials => req.call (IssuerAPIAllCredentials w.pages)
  | .issuerCredential => req.call (IssuerAPICredential w.v req.c)
  | .verifierDisplayQR =>
    req.call (VerifierPageDisplayQRSIOP w.env w.s w.now req.c req.rnd req.rnd2).2
  | .verifierLoginExpired => req.call VerifierPageLoginExpired
  | .verifierStartSIOPSameDevice =>
    req.call (VerifierPageStartSIOPSameDevice w.s req.c req.rnd).2
  | .verifierReceiveCredential =>
    req.call (VerifierPageReceiveCredential w.env w.s w.now req.c).2
  | .verifierAccessProtectedService =>
    req.call (VerifierPageAccessProtectedService w.pages w.s req)
  | .verifierPoll => req.call (VerifierAPIPoll w.s w.now req.c).2
  | .verifierStartSIOP => req.call (VerifierAPIStartSIOP w.s req.c req.rnd)
  | .verifierAuthenticationResponse =>
    req.call (VerifierAPIAuthenticationResponse w.env w.s w.now req.c).2
  | .walletSelectCredential => req.call (WalletPageSelectCredential w.pages req)
  | .walletSendCredential => req.call (WalletPageSendCredential w.b w.v req.c).1
  | .coreCreateDID => req.call (CoreAPICreateDID w.b).1
  | .coreListCredentialTemplates => req.call (CoreAPIListCredentialTemplates w.b).1
  | .coreGetCredentialTemplate => req.call (CoreAPIGetCredentialTemplate w.b req.c).1
  | .static => req.call (w.pages.Static req.c)

/-- The middleware `recover.New`, which `run` installs before every route: a
panic of the handler becomes the error returned for the request. What has
called `os.Exit` does not come back to it. -/
def recoverNew (next : Outcome) : Outcome :=
  match next with
  | .panicked value => .returned (Response.plain (.Err value))
  | .returned r => .returned r
  | .exited code => .exited code

/-- One request to a registered route: the state of the process afterwards and
the response, if one is sent. A panic that nothing recovers ends a Go process
with the status 2. -/
def serve (w : World) (route : Route) (req : Request) : Process × Option Response :=
  match recoverNew (handle w route req) with
  | .returned r => (.running, some r)
  | .panicked _ => (.exited 2, none)
  | .exited code => (.exited code, none)

/-- Collaborators of the page handlers for the examples. -/
def examplePages : Pages :=
  ⟨.ok "[]", fun _ => .error "credential not found", fun summary => .ok summary,
    fun _ _ => ⟨200, [], []⟩, fun _ => Response.plain (.SendString "")⟩

/-- The example deployment at instant 0. -/
def exampleWorld : World :=
  ⟨exampleEnv, exampleServer, exampleBackend 200 exampleIssuedBody, exampleVault, examplePages,
    0⟩

/-- A request for the state `exampleToken`, during which `fault` is raised. -/
def exampleRequest (fault : Option String) : Request :=
  ⟨Ctx.forState exampleToken "", fun _ => "", fun _ => "", .ok exampleForm, none, exampleRnd,
    exampleRnd, none, fault⟩

/-! ## Errors, the package `ent/user` and the entity `User` -/

/-- An error of the SQL layer (`sqlgraph`), by what the builders test on it: the
type assertion `err.(*sqlgraph.NotFoundError)`, the predicate
`sqlgraph.IsConstraintError(err)` and the text `err.Error()`. -/
structure SqlError where
  isNotFound : Bool
  isConstraint : Bool
  msg : String
deriving DecidableEq, Repr

/-- The errors the entity layer returns: its own error types, an error of the
SQL layer passed on unchanged, and an error made with `fmt.Errorf`. -/
inductive EntError where
  | NotFoundError (label : String)
  | NotLoadedError (edge : String)
  | ValidationError (Name : String) (err : String)
  | ConstraintError (msg : String) (wrap : SqlError)
  | Sql (err : SqlError)
  | Errorf (msg : String)
deriving DecidableEq, Repr

/-- The constants and functions of the generated package `ent/user` that
`credential.go`, `did.go` and `user_update.go` use; the package is not part of
the sources, so they are parameters. A validator returns `none` for `nil`. -/
structure UserPackage where
  Label : String
  Table : String
  Columns : List String
  FieldID : String
  FieldName : String
  FieldDisplayname : String
  FieldType : String
  FieldPassword : String
  FieldUpdatedAt : String
  KeysTable : String
  KeysColumn : String
  DidsTable : String
  DidsColumn : String
  CredentialsTable : String
  CredentialsColumn : String
  /-- The constant `privatekey.FieldID` of the package `ent/privatekey`. -/
  PrivateKeyFieldID : String
  ValidColumn : String → Bool
  NameValidator : String → Option String
  TypeValidator : String → Option String
  PasswordValidator : List Byte → Option String

/-- Modelled from the spec: the entity User of section 3, with its "unique
identifier, display name, type tag, credential hash of a login secret" (the
struct `User` of `ent/user.go` is not part of the sources). -/
structure User where
  ID : String
  Name : String
  Displayname : String
  Type_ : String
  Password : List Byte
deriving DecidableEq, Repr

/-! ## Edges of `Credential` and `DID` -/

/-- The struct `CredentialEdges`; `Account` is `none` for the nil pointer and
`loadedTypes` is the one flag of the array. -/
structure CredentialEdges where
  Account : Option User
  loadedTypes : Bool
deriving DecidableEq, Repr

/-- Method `CredentialEdges.AccountOrErr`. -/
def CredentialEdges.AccountOrErr (user : UserPackage) (e : CredentialEdges) :
    Except EntError User :=
  if e.loadedTypes then
    match e.Account with
    | none => .error (.NotFoundError user.Label)
    | some account => .ok account
  else
    .error (.NotLoadedError "account")

/-- The struct `DIDEdges`. -/
structure DIDEdges where
  User : Option User
  loadedTypes : Bool
deriving DecidableEq, Repr

/-- Method `DIDEdges.UserOrErr`. -/
def DIDEdges.UserOrErr (user : UserPackage) (e : DIDEdges) :
    Except EntError VCBackend.User :=
  if e.loadedTypes then
    match e.User with
    | none => .error (.NotFoundError user.Label)
    | some u => .ok u
  else
    .error (.NotLoadedError "user")

/-! ## The entities `DID` and `PublicKey` -/

/-- The struct `DID`, without its configuration and edges. -/
structure DID where
  ID : String
  Method : String
  CreatedAt : Time
  UpdatedAt : Time
  user_dids : Option String
deriving DecidableEq, Repr

/-- One pass of the loop of `DID.assignValues`: the entity after the pass and
the error returned, if any. -/
def DID.assignColumn (d : DID) (column : String) (value : ScanValue) : DID × Option String :=
  if column = "id" then
    match value with
    | .NullString Valid str => if Valid then ({ d with ID := str }, none) else (d, none)
    | v => (d, some ("unexpected type " ++ v.goType ++ " for field id"))
  else if column = "method" then
    match value with
    | .NullString Valid str => if Valid then ({ d with Method := str }, none) else (d, none)
    | v => (d, some ("unexpected type " ++ v.goType ++ " for field method"))
  else if column = "created_at" then
    match value with
    | .NullTime Valid t => if Valid then ({ d with CreatedAt := t }, none) else (d, none)
    | v => (d, some ("unexpected type " ++ v.goType ++ " for field created_at"))
  else if column = "updated_at" then
    match value with
    | .NullTime Valid t => if Valid then ({ d with UpdatedAt := t }, none) else (d, none)
    | v => (d, some ("unexpected type " ++ v.goType ++ " for field updated_at"))
  else if column = "user_dids" then
    match value with
    | .NullString Valid str => if Valid then ({ d with user_dids := some str }, none) else (d, none)
    | v => (d, some ("unexpected type " ++ v.goType ++ " for field user_dids"))
  else (d, none)

/-- The loop `for i := range columns` of `DID.assignValues`. -/
def DID.assignLoop (d : DID) : List String → List ScanValue → DID × Option String
  | [], _ => (d, none)
  | _ :: _, [] => (d, some "index out of range")
  | column :: columns, value :: values =>
    match d.assignColumn column value with
    | (d2, some err) => (d2, some err)
    | (d2, none) => DID.assignLoop d2 columns values

/-- Method `DID.assignValues`: the entity after the call and the returned
error. -/
def DID.assignValues (d : DID) (columns : List String) (values : List ScanValue) :
    DID × Option String :=
  if values.length < columns.length then
    (d, some ("mismatch number of scan values: " ++ toString values.length ++ " != " ++
      toString columns.length))
  else
    DID.assignLoop d columns values

/-- The struct `PublicKey`, without its configuration. -/
structure PublicKey where
  ID : String
  Kty : String
  Alg : String
  Jwk : List Byte
  CreatedAt : Time
  UpdatedAt : Time
deriving DecidableEq, Repr

/-- One pass of the loop of `PublicKey.assignValues`: the entity after the pass and
the error returned, if any. -/
def PublicKey.assignColumn (pk : PublicKey) (column : String) (value : ScanValue) :
    PublicKey × Option String :=
  if column = "id" then
    match value with
    | .NullString Valid str => if Valid then ({ pk with ID := str }, none) else (pk, none)
    | v => (pk, some ("unexpected type " ++ v.goType ++ " for field id"))
  else if column = "kty" then
    match value with
    | .NullString Valid str => if Valid then ({ pk with Kty := str }, none) else (pk, none)
    | v => (pk, some ("unexpected type " ++ v.goType ++ " for field kty"))
  else if column = "alg" then
    match value with
    | .NullString Valid str => if Valid then ({ pk with Alg := str }, none) else (pk, none)
    | v => (pk, some ("unexpected type " ++ v.goType ++ " for field alg"))
  else if column = "jwk" then
    match value with
    | .Bytes value =>
      match value with
      | some bytes =>
        if bytes.length > 0 then
          match jsonUnmarshalBytes bytes pk.Jwk with
          | (jwk, some err) =>
            ({ pk with Jwk := jwk }, some ("unmarshal field jwk: " ++ err))
          | (jwk, none) => ({ pk with Jwk := jwk }, none)
        else (pk, none)
      | none => (pk, none)
    | v => (pk, some ("unexpected type " ++ v.goType ++ " for field jwk"))
  else if column = "created_at" then
    match value with
    | .NullTime Valid t => if Valid then ({ pk with CreatedAt := t }, none) else (pk, none)
    | v => (pk, some ("unexpected type " ++ v.goType ++ " for field created_at"))
  else if column = "updated_at" then
    match value with
    | .NullTime Valid t => if Valid then ({ pk with UpdatedAt := t }, none) else (pk, none)
    | v => (pk, some ("unexpected type " ++ v.goType ++ " for field updated_at"))
  else (pk, none)

/-- The loop `for i := range columns` of `PublicKey.assignValues`. -/
def PublicKey.assignLoop (pk : PublicKey) : List String → List ScanValue →
    PublicKey × Option String
  | [], _ => (pk, none)
  | _ :: _, [] => (pk, some "index out of range")
  | column :: columns, value :: values =>
    match pk.assignColumn column value with
    | (pk2, some err) => (pk2, some err)
    | (pk2, none) => PublicKey.assignLoop pk2 columns values

/-- Method `PublicKey.assignValues`: the entity after the call and the returned
error. -/
def PublicKey.assignValues (pk : PublicKey) (columns : List String)
    (values : List ScanValue) : PublicKey × Option String :=
  if values.length < columns.length then
    (pk, some ("mismatch number of scan values: " ++ toString values.length ++ " != " ++
      toString columns.length))
  else
    PublicKey.assignLoop pk columns values

/-! ## The update builders of `User` (`ent/user_update.go`) -/

/-- The type `UserMutation` (file `ent/mutation.go`, not part of the sources),
as the values its getters return: `ID()`, `Name()`, `Displayname()`,
`DisplaynameCleared()`, `GetType()`, `Password()`, `UpdatedAt()`, for each edge
`...Cleared()`, `Removed...IDs()` and `...IDs()`, the names of the field
`predicates`, and the field `done`. -/
structure UserMutation where
  id : Option String
  name : Option String
  displayname : Option String
  displaynameCleared : Bool
  type_ : Option String
  password : Option (List Byte)
  updated_at : Option Time
  keysCleared : Bool
  removedKeysIDs : List String
  keysIDs : List String
  didsCleared : Bool
  removedDidsIDs : List String
  didsIDs : List String
  credentialsCleared : Bool
  removedCredentialsIDs : List String
  credentialsIDs : List String
  predicates : List String
  done : Bool
deriving DecidableEq, Repr

/-- The types `field.TypeString`, `field.TypeBytes`, `field.TypeTime`. -/
inductive FieldType where
  | TypeString
  | TypeBytes
  | TypeTime
deriving DecidableEq, Repr

/-- The value of a `sqlgraph.FieldSpec`. -/
inductive FieldValue where
  | none
  | string (s : String)
  | bytes (b : List Byte)
  | time (t : Time)
deriving DecidableEq, Repr

/-- The struct `sqlgraph.FieldSpec`. -/
structure FieldSpec where
  Type_ : FieldType
  Value : FieldValue
  Column : String
deriving DecidableEq, Repr

/-- The struct `sqlgraph.EdgeSpec` with its `Target`: the specification of the
identifier of the target and the target nodes. -/
structure EdgeSpec where
  Rel : String
  Inverse : Bool
  Table : String
  Columns : List String
  Bidi : Bool
  TargetIDSpec : FieldSpec
  TargetNodes : List String
deriving DecidableEq, Repr

/-- The struct `sqlgraph.NodeSpec`. -/
structure NodeSpec where
  Table : String
  Columns : List String
  ID : FieldSpec
deriving DecidableEq, Repr

/-- The struct `sqlgraph.UpdateSpec`, with the names of the predicates that
`Predicate` applies (none when it is nil) and without the decoding callbacks. -/
structure UpdateSpec where
  Node : NodeSpec
  Predicate : List String
  FieldsSet : List FieldSpec
  FieldsClear : List FieldSpec
  EdgesClear : List EdgeSpec
  EdgesAdd : List EdgeSpec
deriving DecidableEq, Repr

/-- The functions `sqlgraph.UpdateNodes` and `sqlgraph.UpdateNode` with the
driver of the builder: the number of affected nodes, resp. the node as the
update fills it, or the error of the SQL layer. -/
structure Driver where
  UpdateNodes : UpdateSpec → Except SqlError Int
  UpdateNode : UpdateSpec → Except SqlError User

/-- The literal `&sqlgraph.EdgeSpec{...}` that `sqlSave` writes for an edge of
`User`: a one-to-many edge to the table `table` by the column `column`, whose
targets are identified by the string column `targetID`. -/
def o2mEdge (table column targetID : String) (nodes : List String) : EdgeSpec :=
  ⟨"O2M", false, table, [column], false, ⟨.TypeString, .none, targetID⟩, nodes⟩

/-- The statements of `sqlSave` that copy the predicates and the fields of the
mutation into `_spec` (the same in `UserUpdate.sqlSave` and in
`UserUpdateOne.sqlSave`). -/
def fillFields (user : UserPackage) (m : UserMutation) (_spec : UpdateSpec) : UpdateSpec :=
  let _spec := if m.predicates.length > 0 then { _spec with Predicate := m.predicates }
    else _spec
  let _spec := match m.name with
    | some value => { _spec with
        FieldsSet := _spec.FieldsSet ++ [⟨.TypeString, .string value, user.FieldName⟩] }
    | none => _spec
  let _spec := match m.displayname with
    | some value => { _spec with
        FieldsSet := _spec.FieldsSet ++ [⟨.TypeString, .string value, user.FieldDisplayname⟩] }
    | none => _spec
  let _spec := if m.displaynameCleared then { _spec with
        FieldsClear := _spec.FieldsClear ++ [⟨.TypeString, .none, user.FieldDisplayname⟩] }
    else _spec
  let _spec := match m.type_ with
    | some value => { _spec with
        FieldsSet := _spec.FieldsSet ++ [⟨.TypeString, .string value, user.FieldType⟩] }
    | none => _spec
  let _spec := match m.password with
    | some value => { _spec with
        FieldsSet := _spec.FieldsSet ++ [⟨.TypeBytes, .bytes value, user.FieldPassword⟩] }
    | none => _spec
  let _spec := match m.updated_at with
    | some value => { _spec with
        FieldsSet := _spec.FieldsSet ++ [⟨.TypeTime, .time value, user.FieldUpdatedAt⟩] }
    | none => _spec
  _spec

/-- The three statements that `sqlSave` writes for one edge, here for the edge
to the table `table`: `if ...Cleared()`, `if nodes := Removed...IDs();
len(nodes) > 0 && !...Cleared()` and `if nodes := ...IDs(); len(nodes) > 0`. -/
def fillEdge (table column targetID : String) (cleared : Bool) (removed added : List String)
    (_spec : UpdateSpec) : UpdateSpec :=
  let _spec := if cleared then { _spec with
        EdgesClear := _spec.EdgesClear ++ [o2mEdge table column targetID []] }
    else _spec
  let _spec := if removed.length > 0 ∧ ¬ cleared then { _spec with
        EdgesClear := _spec.EdgesClear ++ [o2mEdge table column targetID removed] }
    else _spec
  let _spec := if added.length > 0 then { _spec with
        EdgesAdd := _spec.EdgesAdd ++ [o2mEdge table column targetID added] }
    else _spec
  _spec

/-- The part common to `UserUpdate.sqlSave` and `UserUpdateOne.sqlSave`: the
statements that copy the mutation into `_spec`, in the order of the source: the
predicates and fields, then the edges `keys`, `dids` and `credentials`. -/
def fillSpec (user : UserPackage) (m : UserMutation) (_spec : UpdateSpec) : UpdateSpec :=
  let _spec := fillFields user m _spec
  let _spec := fillEdge user.KeysTable user.KeysColumn user.PrivateKeyFieldID
    m.keysCleared m.removedKeysIDs m.keysIDs _spec
  let _spec := fillEdge user.DidsTable user.DidsColumn "id"
    m.didsCleared m.removedDidsIDs m.didsIDs _spec
  let _spec := fillEdge user.CredentialsTable user.CredentialsColumn "id"
    m.credentialsCleared m.removedCredentialsIDs m.credentialsIDs _spec
  _spec

/-- The error that both `sqlSave` bodies return when the update of the SQL
layer fails with `err`. -/
def updateError (user : UserPackage) (err : SqlError) : EntError :=
  if err.isNotFound then .NotFoundError user.Label
  else if err.isConstraint then .ConstraintError err.msg err
  else .Sql err

/-- The `_spec` with which `UserUpdate.sqlSave` starts. -/
def UserUpdate.initialSpec (user : UserPackage) : UpdateSpec :=
  ⟨⟨user.Table, user.Columns, ⟨.TypeString, .none, user.FieldID⟩⟩, [], [], [], [], []⟩

/-- The body shared by `UserUpdate.check` and `UserUpdateOne.check`: the error
returned, and the fields whose validator was called, in the order of the
calls. -/
def checkMutation (user : UserPackage) (m : UserMutation) : Option EntError × List String :=
  let calls : List String := []
  match (match m.name with
      | some v => (user.NameValidator v, calls ++ ["name"])
      | none => (none, calls)) with
  | (some err, calls) =>
    (some (.ValidationError "name"
      ("ent: validator failed for field \"User.name\": " ++ err)), calls)
  | (none, calls) =>
    match (match m.type_ with
        | some v => (user.TypeValidator v, calls ++ ["type"])
        | none => (none, calls)) with
    | (some err, calls) =>
      (some (.ValidationError "type"
        ("ent: validator failed for field \"User.type\": " ++ err)), calls)
    | (none, calls) =>
      match (match m.password with
          | some v => (user.PasswordValidator v, calls ++ ["password"])
          | none => (none, calls)) with
      | (some err, calls) =>
        (some (.ValidationError "password"
          ("ent: validator failed for field \"User.password\": " ++ err)), calls)
      | (none, calls) => (none, calls)

/-- A value of the interface `Value` that a mutator returns: nil, an `int`, a
`*User` (`none` is the nil pointer), or a value of another type. -/
inductive Value where
  | nil
  | int (n : Int)
  | user (node : Option User)
  | other (goType : String)
deriving DecidableEq, Repr

/-- A value of the interface `Mutation`: a `*UserMutation`, or a mutation of
another type. -/
inductive Mutation where
  | user (m : UserMutation)
  | other (goType : String)
deriving DecidableEq, Repr

/-- The variables that the closure of `Save` shares with `Save` (`affected` or
`node`, `err`, and the field `mutation` of the builder), with the record of what
has been done: the validator calls and the updates handed to the SQL layer. -/
structure SaveState where
  affected : Int
  node : Option User
  err : Option EntError
  mutation : UserMutation
  validated : List String
  executed : List UpdateSpec

/-- The interface `Mutator`: the method `Mutate`, which may change the state
shared with `Save`. -/
abbrev Mutator := Mutation → SaveState → (Value × Option EntError) × SaveState

/-- The type `Hook`. -/
abbrev Hook := Mutator → Mutator

/-- The struct `UserUpdate`; a nil hook is `none`. -/
structure UserUpdate where
  hooks : List (Option Hook)
  mutation : UserMutation

/-- The struct `UserUpdateOne`. -/
structure UserUpdateOne where
  fields : List String
  hooks : List (Option Hook)
  mutation : UserMutation

/-- Method `UserUpdate.check`. -/
def UserUpdate.check (user : UserPackage) (uu : UserUpdate) : Option EntError × List String :=
  checkMutation user uu.mutation

/-- Method `UserUpdateOne.check`. -/
def UserUpdateOne.check (user : UserPackage) (uuo : UserUpdateOne) :
    Option EntError × List String :=
  checkMutation user uuo.mutation

/-- Method `UserUpdate.sqlSave`: the results `n`, `err` and the updates handed
to the SQL layer. -/
def UserUpdate.sqlSave (user : UserPackage) (drv : Driver) (uu : UserUpdate) :
    (Int × Option EntError) × List UpdateSpec :=
  let _spec := fillSpec user uu.mutation (UserUpdate.initialSpec user)
  match drv.UpdateNodes _spec with
  | .error err => ((0, some (updateError user err)), [_spec])
  | .ok n => ((n, none), [_spec])

/-- Method `UserUpdateOne.Select`. -/
def UserUpdateOne.Select (uuo : UserUpdateOne) (field : String) (fields : List String) :
    UserUpdateOne :=
  { uuo with fields := [field] ++ fields }

/-- The loop `for _, f := range fields` of `UserUpdateOne.sqlSave`, from the
columns collected so far. -/
def selectLoop (user : UserPackage) : List String → List String → Except EntError (List String)
  | [], columns => .ok columns
  | f :: fields, columns =>
    if ¬ user.ValidColumn f then
      .error (.ValidationError f ("ent: invalid field \"" ++ f ++ "\" for query"))
    else if f ≠ user.FieldID then
      selectLoop user fields (columns ++ [f])
    else
      selectLoop user fields columns

/-- Method `UserUpdateOne.sqlSave`: the results `_node`, `err` and the updates
handed to the SQL layer. -/
def UserUpdateOne.sqlSave (user : UserPackage) (drv : Driver) (uuo : UserUpdateOne) :
    (Option User × Option EntError) × List UpdateSpec :=
  let _spec := UserUpdate.initialSpec user
  match uuo.mutation.id with
  | none => ((none, some (.ValidationError "id" "ent: missing \"User.id\" for update")), [])
  | some id =>
    let _spec := { _spec with Node := { _spec.Node with
      ID := { _spec.Node.ID with Value := .string id } } }
    match (if uuo.fields.length > 0 then selectLoop user uuo.fields [user.FieldID]
        else .ok _spec.Node.Columns) with
    | .error err => ((none, some err), [])
    | .ok columns =>
      let _spec := { _spec with Node := { _spec.Node with Columns := columns } }
      let _spec := fillSpec user uuo.mutation _spec
      match drv.UpdateNode _spec with
      | .error err => ((none, some (updateError user err)), [_spec])
      | .ok _node => ((some _node, none), [_spec])

/-- The loop `for i := len(hooks) - 1; i >= 0; i--` of `Save`, on the hooks in
the order in which the loop visits them: `none` when it meets a nil hook. -/
def wrapHooks : List (Option Hook) → Mutator → Option Mutator
  | [], mutator => some mutator
  | none :: _, _ => none
  | some hook :: rest, mutator => wrapHooks rest (hook mutator)

/-- The `MutateFunc` of `UserUpdate.Save`. -/
def UserUpdate.mutateFunc (user : UserPackage) (drv : Driver) : Mutator :=
  fun m st =>
    match m with
    | .other goType => ((.nil, some (.Errorf ("unexpected mutation type " ++ goType))), st)
    | .user mutation =>
      match checkMutation user st.mutation with
      | (some err, calls) =>
        ((.int 0, some err), { st with err := some err, validated := st.validated ++ calls })
      | (none, calls) =>
        match UserUpdate.sqlSave user drv ⟨[], mutation⟩ with
        | ((affected, err), updates) =>
          ((.int affected, err),
            { st with affected := affected, err := err,
                      mutation := { mutation with done := true },
                      validated := st.validated ++ calls,
                      executed := st.executed ++ updates })

/-- What `UserUpdate.Save` returns, with the record of what it has done. -/
structure SaveResult where
  affected : Int
  err : Option EntError
  validated : List String
  executed : List UpdateSpec
deriving DecidableEq, Repr

/-- Method `UserUpdate.Save`. -/
def UserUpdate.Save (user : UserPackage) (drv : Driver) (uu : UserUpdate) : SaveResult :=
  if uu.hooks.length = 0 then
    match uu.check user with
    | (some err, calls) => ⟨0, some err, calls, []⟩
    | (none, calls) =>
      match uu.sqlSave user drv with
      | ((affected, err), updates) => ⟨affected, err, calls, updates⟩
  else
    match wrapHooks uu.hooks.reverse (UserUpdate.mutateFunc user drv) with
    | none =>
      ⟨0, some (.Errorf "ent: uninitialized hook (forgotten import ent/runtime?)"), [], []⟩
    | some mutator =>
      match mutator (.user uu.mutation) ⟨0, none, none, uu.mutation, [], []⟩ with
      | ((_, some err), st) => ⟨0, some err, st.validated, st.executed⟩
      | ((_, none), st) => ⟨st.affected, st.err, st.validated, st.executed⟩

/-- The `MutateFunc` of `UserUpdateOne.Save`, for a builder with the selection
`fields`. -/
def UserUpdateOne.mutateFunc (user : UserPackage) (drv : Driver) (fields : List String) :
    Mutator :=
  fun m st =>
    match m with
    | .other goType => ((.nil, some (.Errorf ("unexpected mutation type " ++ goType))), st)
    | .user mutation =>
      match checkMutation user st.mutation with
      | (some err, calls) =>
        ((.nil, some err), { st with err := some err, validated := st.validated ++ calls })
      | (none, calls) =>
        match UserUpdateOne.sqlSave user drv ⟨fields, [], mutation⟩ with
        | ((node, err), updates) =>
          ((.user node, err),
            { st with node := node, err := err,
                      mutation := { mutation with done := true },
                      validated := st.validated ++ calls,
                      executed := st.executed ++ updates })

/-- What `UserUpdateOne.Save` returns, with the record of what it has done. -/
structure SaveOneResult where
  node : Option User
  err : Option EntError
  validated : List String
  executed : List UpdateSpec
deriving DecidableEq, Repr

/-- What `%T` prints for a value of the interface `Value`. -/
def Value.goType : Value → String
  | .nil => "<nil>"
  | .int _ => "int"
  | .user _ => "*ent.User"
  | .other goType => goType

/-- Method `UserUpdateOne.Save`. -/
def UserUpdateOne.Save (user : UserPackage) (drv : Driver) (uuo : UserUpdateOne) :
    SaveOneResult :=
  if uuo.hooks.length = 0 then
    match uuo.check user with
    | (some err, calls) => ⟨none, some err, calls, []⟩
    | (none, calls) =>
      match uuo.sqlSave user drv with
      | ((node, err), updates) => ⟨node, err, calls, updates⟩
  else
    match wrapHooks uuo.hooks.reverse (UserUpdateOne.mutateFunc user drv uuo.fields) with
    | none =>
      ⟨none, some (.Errorf "ent: uninitialized hook (forgotten import ent/runtime?)"), [], []⟩
    | some mutator =>
      match mutator (.user uuo.mutation) ⟨0, none, none, uuo.mutation, [], []⟩ with
      | ((_, some err), st) => ⟨none, some err, st.validated, st.executed⟩
      | ((.user nv, none), st) => ⟨nv, st.err, st.validated, st.executed⟩
      | ((v, none), st) =>
        ⟨none, some (.Errorf ("unexpected node type " ++ v.goType ++
          " returned from UserMutation")), st.validated, st.executed⟩

/-- The mutator that `Save` runs for the hooks `h0, ..., hn` and the base
mutator `base`, as the claim on the hooks writes it: `h0(h1(...hn(base)...))`. -/
def chainSpec (hooks : List Hook) (base : Mutator) : Mutator :=
  hooks.foldr (fun hook mutator => hook mutator) base

/-- The entries of the edge plan that the claim on the edges describes for one
edge: in `Clear`, the entry without target nodes when the edge was cleared,
otherwise the entry with the removed identifiers when there are some; in `Add`,
the entry with the added identifiers when there are some. -/
def edgePlanSpec (table column targetID : String) (cleared : Bool) (removed added : List String) :
    List EdgeSpec × List EdgeSpec :=
  (if cleared then [o2mEdge table column targetID []]
    else if removed ≠ [] then [o2mEdge table column targetID removed]
    else [],
   if added ≠ [] then [o2mEdge table column targetID added] else [])

/-- The edge plan that the claim on the edges describes for a mutation: the
entries of `Clear` and of `Add` for the edges `keys`, `dids` and `credentials`,
in this order. -/
def mutationPlanSpec (user : UserPackage) (m : UserMutation) : List EdgeSpec × List EdgeSpec :=
  ((edgePlanSpec user.KeysTable user.KeysColumn user.PrivateKeyFieldID
      m.keysCleared m.removedKeysIDs m.keysIDs).1 ++
    (edgePlanSpec user.DidsTable user.DidsColumn "id"
      m.didsCleared m.removedDidsIDs m.didsIDs).1 ++
    (edgePlanSpec user.CredentialsTable user.CredentialsColumn "id"
      m.credentialsCleared m.removedCredentialsIDs m.credentialsIDs).1,
   (edgePlanSpec user.KeysTable user.KeysColumn user.PrivateKeyFieldID
      m.keysCleared m.removedKeysIDs m.keysIDs).2 ++
    (edgePlanSpec user.DidsTable user.DidsColumn "id"
      m.didsCleared m.removedDidsIDs m.didsIDs).2 ++
    (edgePlanSpec user.CredentialsTable user.CredentialsColumn "id"
      m.credentialsCleared m.removedCredentialsIDs m.credentialsIDs).2)

/-- The validators that the claim on validation lets run: for each of `name`,
`type`, `password` that is set in the mutation, in this order, the field with
the verdict of its validator on the value set. -/
def verdictsSpec (user : UserPackage) (m : UserMutation) : List (String × Option String) :=
  (match m.name with
    | some v => [("name", user.NameValidator v)]
    | none => []) ++
  (match m.type_ with
    | some v => [("type", user.TypeValidator v)]
    | none => []) ++
  (match m.password with
    | some v => [("password", user.PasswordValidator v)]
    | none => [])

/-- The first field whose verdict is an error, with that error. -/
def firstFailure : List (String × Option String) → Option (String × String)
  | [] => none
  | (field, some err) :: _ => some (field, err)
  | (_, none) :: rest => firstFailure rest

/-- The fields up to and including the first one whose verdict is an error. -/
def calledUntilFailure : List (String × Option String) → List String
  | [] => []
  | (field, some _) :: _ => [field]
  | (field, none) :: rest => field :: calledUntilFailure rest

/-- The `ValidationError` that `check` makes of a failed validator. -/
def validatorFailed (field err : String) : EntError :=
  .ValidationError field ("ent: validator failed for field \"User." ++ field ++ "\": " ++ err)

/-- A package `ent/user` for the examples. -/
def exampleUserPackage : UserPackage :=
  { Label := "user", Table := "users",
    Columns := ["id", "name", "displayname", "type", "password", "created_at", "updated_at"],
    FieldID := "id", FieldName := "name", FieldDisplayname := "displayname",
    FieldType := "type", FieldPassword := "password", FieldUpdatedAt := "updated_at",
    KeysTable := "private_keys", KeysColumn := "user_keys",
    DidsTable := "dids", DidsColumn := "user_dids",
    CredentialsTable := "credentials", CredentialsColumn := "user_credentials",
    PrivateKeyFieldID := "id",
    ValidColumn := fun column =>
      ["id", "name", "displayname", "type", "password", "created_at",
        "updated_at"].contains column,
    NameValidator := fun v => if v = "" then some "value is less than the required length" else
      none,
    TypeValidator := fun v => if v = "" then some "value is less than the required length" else
      none,
    PasswordValidator := fun v =>
      if v.length = 0 then some "value is less than the required length" else none }

/-- A mutation for the examples: the name is set; two keys are removed and one
is added; the DIDs are cleared, with one removal recorded as well; two
credentials are added. -/
def exampleMutation : UserMutation :=
  { id := some "u1", name := some "Alice", displayname := none, displaynameCleared := false,
    type_ := none, password := none, updated_at := none,
    keysCleared := false, removedKeysIDs := ["k1", "k2"], keysIDs := ["k3"],
    didsCleared := true, removedDidsIDs := ["d1"], didsIDs := [],
    credentialsCleared := false, removedCredentialsIDs := [], credentialsIDs := ["c1", "c2"],
    predicates := [], done := false }

/-- A driver whose updates succeed. -/
def exampleDriver : Driver := ⟨fun _ => .ok 1, fun _ => .ok ⟨"u1", "Alice", "", "", []⟩⟩

/-- A driver whose updates fail with `err`. -/
def failingDriver (err : SqlError) : Driver := ⟨fun _ => .error err, fun _ => .error err⟩

/-- A hook that records its name in the list of validated fields before it
calls the next mutator; the record shows the order in which hooks run. -/
def tracingHook (name : String) : Hook :=
  fun next m st => next m { st with validated := st.validated ++ [name] }

/-- A user for the examples. -/
def exampleUser : User := ⟨"u1", "Alice", "Alice Doe", "legalperson", []⟩

/-! ## Row decoding as the specification describes it -/

/-- How a column that names a field sets it: from a nullable string, from a
nullable time, or from the JSON text of a byte slice, which is decoded into the
bytes the field holds. -/
inductive FieldSetter (E : Type) where
  | text (set : E → String → E)
  | time (set : E → Time → E)
  | json (get : E → List Byte) (set : E → List Byte → E)

/-- The decoding of one column as the row decoding is specified, with the
entity after it and the error: a nullable value of the expected type overwrites
the field when it is valid and leaves the entity unchanged when it is NULL; the
value of a JSON column leaves the entity unchanged when it is nil or empty, and
is otherwise handed to `json.Unmarshal` together with the field: the field is
then what `json.Unmarshal` leaves in it, and an error of `json.Unmarshal` is
returned under the name of the field; a value of another type fails with an
error that names the field and changes nothing. -/
def decodeColumnSpec {E : Type} (field : String) (setter : FieldSetter E) (e : E)
    (value : ScanValue) : E × Option String :=
  match setter, value with
  | .text set, .NullString Valid str => if Valid then (set e str, none) else (e, none)
  | .time set, .NullTime Valid t => if Valid then (set e t, none) else (e, none)
  | .json _ _, .Bytes none => (e, none)
  | .json get set, .Bytes (some bytes) =>
    if bytes.length > 0 then
      (set e (jsonUnmarshalBytes bytes (get e)).1,
        (jsonUnmarshalBytes bytes (get e)).2.map fun err =>
          "unmarshal field " ++ field ++ ": " ++ err)
    else (e, none)
  | _, v => (e, some ("unexpected type " ++ v.goType ++ " for field " ++ field))

/-- The specified decoding of a column by a table of the columns that name a
field: a column outside the table leaves the entity unchanged. -/
def assignColumnSpec {E : Type} (table : List (String × FieldSetter E)) (e : E)
    (column : String) (value : ScanValue) : E × Option String :=
  match table.lookup column with
  | none => (e, none)
  | some setter => decodeColumnSpec column setter e value

/-- The columns of `Credential` that name a field. -/
def Credential.fieldTable : List (String × FieldSetter Credential) :=
  [("id", .text fun c v => { c with ID := v }),
    ("type", .text fun c v => { c with Type_ := v }),
    ("raw", .json (fun c => c.Raw) fun c v => { c with Raw := v }),
    ("created_at", .time fun c v => { c with CreatedAt := v }),
    ("updated_at", .time fun c v => { c with UpdatedAt := v }),
    ("natural_person_credentials", .text fun c v => { c with natural_person_credentials := some v }),
    ("user_credentials", .text fun c v => { c with user_credentials := some v })]

/-- The columns of `DID` that name a field. -/
def DID.fieldTable : List (String × FieldSetter DID) :=
  [("id", .text fun d v => { d with ID := v }),
    ("method", .text fun d v => { d with Method := v }),
    ("created_at", .time fun d v => { d with CreatedAt := v }),
    ("updated_at", .time fun d v => { d with UpdatedAt := v }),
    ("user_dids", .text fun d v => { d with user_dids := some v })]

/-- The columns of `PublicKey` that name a field. -/
def PublicKey.fieldTable : List (String × FieldSetter PublicKey) :=
  [("id", .text fun pk v => { pk with ID := v }),
    ("kty", .text fun pk v => { pk with Kty := v }),
    ("alg", .text fun pk v => { pk with Alg := v }),
    ("jwk", .json (fun pk => pk.Jwk) fun pk v => { pk with Jwk := v }),
    ("created_at", .time fun pk v => { pk with CreatedAt := v }),
    ("updated_at", .time fun pk v => { pk with UpdatedAt := v })]

/-! ## Auxiliary definitions for the proofs -/

/-- The position of a character in the alphabet: the inverse of `encChar` on
the sextets. -/
def decChar (ch : Char) : Nat := encodeURL.indexOf ch

/-- The inverse of `RawURLEncode`: four characters give back three bytes, a
rest of three characters two bytes and a rest of two characters one byte. -/
def RawURLDecode : List Char → List Byte
  | c0 :: c1 :: c2 :: c3 :: rest =>
      Fin.ofNat (decChar c0 * 4 + decChar c1 / 16) ::
        Fin.ofNat (decChar c1 % 16 * 16 + decChar c2 / 4) ::
        Fin.ofNat (decChar c2 % 4 * 64 + decChar c3) :: RawURLDecode rest
  | [c0, c1, c2] =>
      [Fin.ofNat (decChar c0 * 4 + decChar c1 / 16),
        Fin.ofNat (decChar c1 % 16 * 16 + decChar c2 / 4)]
  | [c0, c1] => [Fin.ofNat (decChar c0 * 4 + decChar c1 / 16)]
  | [_] => []
  | [] => []

/-- The class of characters the claim names: `A-Z`, `a-z`, `0-9`, `-`, `_`. -/
def isURLSafe (ch : Char) : Prop :=
  ('A' ≤ ch ∧ ch ≤ 'Z') ∨ ('a' ≤ ch ∧ ch ≤ 'z') ∨ ('0' ≤ ch ∧ ch ≤ '9') ∨ ch = '-' ∨ ch = '_'

instance (ch : Char) : Decidable (isURLSafe ch) := by
  unfold isURLSafe; infer_instance

/-- A byte that a string literal holds as it is and that `unquoteBytes` copies:
an ASCII character other than the quote, the backslash and the control
characters. -/
def plainByte (c : Byte) : Prop := c.val ≠ 34 ∧ c.val ≠ 92 ∧ 32 ≤ c.val ∧ c.val < 128

instance (c : Byte) : Decidable (plainByte c) := by
  unfold plainByte; infer_instance

/-! ## Lemmas on the encoding -/

theorem decChar_encChar_fin : ∀ i : Fin 64, decChar (encChar i.val) = i.val := by decide

theorem decChar_encChar (i : Nat) (h : i < 64) : decChar (encChar i) = i :=
  decChar_encChar_fin ⟨i, h⟩

theorem encChar_mem_fin : ∀ i : Fin 64, encChar i.val ∈ encodeURL := by decide

theorem encChar_mem (i : Nat) (h : i < 64) : encChar i ∈ encodeURL :=
  encChar_mem_fin ⟨i, h⟩

theorem encodeURL_isURLSafe : ∀ ch ∈ encodeURL, isURLSafe ch := by decide

theorem and_0x3F (x : Nat) : x &&& 0x3F = x % 64 := by
  have h := Nat.and_pow_two_sub_one_eq_mod x 6
  simpa using h

theorem or3_eq (a b c : Nat) (hb : b < 256) (hc : c < 256) :
    (a <<< 16 ||| b <<< 8 ||| c) = a * 65536 + b * 256 + c := by
  have h1 : 2 ^ 8 * b + c = 2 ^ 8 * b ||| c := Nat.mul_add_lt_is_or (by omega) b
  have h2 : 2 ^ 16 * a + (2 ^ 8 * b + c) = 2 ^ 16 * a ||| (2 ^ 8 * b + c) :=
    Nat.mul_add_lt_is_or (by omega) a
  rw [Nat.or_assoc, Nat.shiftLeft_eq, Nat.shiftLeft_eq, Nat.mul_comm a, Nat.mul_comm b,
    ← h1, ← h2]
  omega

theorem or2_eq (a b : Nat) (hb : b < 256) :
    (a <<< 16 ||| b <<< 8) = a * 65536 + b * 256 := by
  have h := or3_eq a b 0 hb (by omega)
  simpa using h

/-- The four sextets of a full group. -/
theorem sextets3 (a b c : Nat) (hb : b < 256) (hc : c < 256) :
    ((a <<< 16 ||| b <<< 8 ||| c) >>> 18 &&& 0x3F) = a / 4 % 64 ∧
    ((a <<< 16 ||| b <<< 8 ||| c) >>> 12 &&& 0x3F) = a % 4 * 16 + b / 16 ∧
    ((a <<< 16 ||| b <<< 8 ||| c) >>> 6 &&& 0x3F) = b % 16 * 4 + c / 64 ∧
    ((a <<< 16 ||| b <<< 8 ||| c) &&& 0x3F) = c % 64 := by
  simp only [and_0x3F, Nat.shiftRight_eq_div_pow, or3_eq a b c hb hc]
  omega

/-- The three sextets of a rest of two bytes. -/
theorem sextets2 (a b : Nat) (hb : b < 256) :
    ((a <<< 16 ||| b <<< 8) >>> 18 &&& 0x3F) = a / 4 % 64 ∧
    ((a <<< 16 ||| b <<< 8) >>> 12 &&& 0x3F) = a % 4 * 16 + b / 16 ∧
    ((a <<< 16 ||| b <<< 8) >>> 6 &&& 0x3F) = b % 16 * 4 := by
  simp only [and_0x3F, Nat.shiftRight_eq_div_pow, or2_eq a b hb]
  omega

/-- The two sextets of a rest of one byte. -/
theorem sextets1 (a : Nat) :
    ((a <<< 16) >>> 18 &&& 0x3F) = a / 4 % 64 ∧
    ((a <<< 16) >>> 12 &&& 0x3F) = a % 4 * 16 := by
  simp only [and_0x3F, Nat.shiftRight_eq_div_pow, Nat.shiftLeft_eq]
  omega

theorem ofNat_byte (n : Nat) (a : Byte) (h : n = a.val) : (Fin.ofNat n : Byte) = a := by
  apply Fin.ext
  subst h
  show a.val % 256 = a.val
  exact Nat.mod_eq_of_lt a.isLt

/-- Decoding undoes encoding, for every byte sequence. -/
theorem RawURLDecode_RawURLEncode : ∀ xs : List Byte, RawURLDecode (RawURLEncode xs) = xs
  | [] => rfl
  | [a] => by
    obtain ⟨h1, h2⟩ := sextets1 a.val
    have ha := a.isLt
    simp only [RawURLEncode, RawURLDecode, h1, h2]
    rw [decChar_encChar _ (by omega), decChar_encChar _ (by omega)]
    rw [ofNat_byte _ a (by omega)]
  | [a, b] => by
    obtain ⟨h1, h2, h3⟩ := sextets2 a.val b.val b.isLt
    have ha := a.isLt
    have hb := b.isLt
    simp only [RawURLEncode, RawURLDecode, h1, h2, h3]
    rw [decChar_encChar _ (by omega), decChar_encChar _ (by omega),
      decChar_encChar _ (by omega)]
    rw [ofNat_byte _ a (by omega), ofNat_byte _ b (by omega)]
  | a :: b :: c :: rest => by
    obtain ⟨h1, h2, h3, h4⟩ := sextets3 a.val b.val c.val b.isLt c.isLt
    have ha := a.isLt
    have hb := b.isLt
    have hc := c.isLt
    simp only [RawURLEncode, RawURLDecode, h1, h2, h3, h4]
    rw [decChar_encChar _ (by omega), decChar_encChar _ (by omega),
      decChar_encChar _ (by omega), decChar_encChar _ (by omega)]
    rw [ofNat_byte _ a (by omega), ofNat_byte _ b (by omega), ofNat_byte _ c (by omega),
      RawURLDecode_RawURLEncode rest]

theorem RawURLEncode_injective (xs ys : List Byte) (h : RawURLEncode xs = RawURLEncode ys) :
    xs = ys := by
  rw [← RawURLDecode_RawURLEncode xs, ← RawURLDecode_RawURLEncode ys, h]

/-- The encoded length: `(n * 8 + 5) / 6` characters for `n` bytes. -/
theorem RawURLEncode_length : ∀ xs : List Byte,
    (RawURLEncode xs).length = (xs.length * 8 + 5) / 6
  | [] => rfl
  | [_] => by simp [RawURLEncode]
  | [_, _] => by simp [RawURLEncode]
  | _ :: _ :: _ :: rest => by
    simp only [RawURLEncode, List.length_cons, RawURLEncode_length rest]
    omega

/-- Every character of an encoding is taken from the alphabet. -/
theorem RawURLEncode_mem : ∀ (xs : List Byte) (ch : Char), ch ∈ RawURLEncode xs → ch ∈ encodeURL
  | [], ch, h => by simp [RawURLEncode] at h
  | [a], ch, h => by
    obtain ⟨h1, h2⟩ := sextets1 a.val
    have ha := a.isLt
    simp only [RawURLEncode, h1, h2, List.mem_cons, List.mem_singleton, List.not_mem_nil,
      or_false] at h
    rcases h with h | h <;> subst h <;> exact encChar_mem _ (by omega)
  | [a, b], ch, h => by
    obtain ⟨h1, h2, h3⟩ := sextets2 a.val b.val b.isLt
    have ha := a.isLt
    have hb := b.isLt
    simp only [RawURLEncode, h1, h2, h3, List.mem_cons, List.mem_singleton, List.not_mem_nil,
      or_false] at h
    rcases h with h | h | h <;> subst h <;> exact encChar_mem _ (by omega)
  | a :: b :: c :: rest, ch, h => by
    obtain ⟨h1, h2, h3, h4⟩ := sextets3 a.val b.val c.val b.isLt c.isLt
    have ha := a.isLt
    have hb := b.isLt
    have hc := c.isLt
    simp only [RawURLEncode, h1, h2, h3, h4, List.mem_cons] at h
    rcases h with h | h | h | h | h
    · subst h; exact encChar_mem _ (by omega)
    · subst h; exact encChar_mem _ (by omega)
    · subst h; exact encChar_mem _ (by omega)
    · subst h; exact encChar_mem _ (by omega)
    · exact RawURLEncode_mem rest ch h

theorem nonceBuffer_length (read : List Byte) : (nonceBuffer read).length = 16 := by
  simp [nonceBuffer]

theorem nonceBuffer_of_full (read : List Byte) (h : 16 ≤ read.length) :
    nonceBuffer read = read.take 16 := by
  unfold nonceBuffer
  rw [List.take_append_of_le_length h]

/-! ## The nonce -/

/-- C9: when the read from the random source succeeds (it delivers at least the
sixteen bytes asked for), the token of `generateNonce` is the unpadded URL-safe
base64 encoding of exactly those sixteen bytes; two such reads that give the
same token gave the same sixteen bytes; and the token has exactly 22 characters,
each one of `A-Z`, `a-z`, `0-9`, `-`, `_`. -/
theorem generateNonce_carries_128_bits (r1 r2 : List Byte)
    (h1 : 16 ≤ r1.length) (h2 : 16 ≤ r2.length) :
    generateNonce r1 = String.mk (RawURLEncode (r1.take 16)) ∧
    (r1.take 16).length = 16 ∧
    (generateNonce r1 = generateNonce r2 → r1.take 16 = r2.take 16) ∧
    (generateNonce r1).length = 22 ∧
    ∀ ch ∈ (generateNonce r1).toList, isURLSafe ch := by
  refine ⟨?_, ?_, ?_, ?_, ?_⟩
  · simp only [generateNonce, nonceBuffer_of_full r1 h1]
  · simp only [List.length_take]; omega
  · intro h
    simp only [generateNonce, nonceBuffer_of_full r1 h1, nonceBuffer_of_full r2 h2] at h
    exact RawURLEncode_injective _ _ (congrArg String.data h)
  · simp only [generateNonce, String.length, RawURLEncode_length, nonceBuffer_length]
  · intro ch hch
    simp only [generateNonce] at hch
    exact encodeURL_isURLSafe ch (RawURLEncode_mem _ ch hch)

/-- The bytes `0, 1, ..., 15` give the token `AAECAwQFBgcICQoLDA0ODw`. -/
theorem generateNonce_test_vector :
    generateNonce [0, 1, 2, 3, 4, 5, 6, 7, 8, 9, 10, 11, 12, 13, 14, 15] =
      "AAECAwQFBgcICQoLDA0ODw" := by decide

/-- Witness of C9 at the reads `0..15` and `0..16`. -/
theorem generateNonce_carries_128_bits_witness :
    generateNonce [0, 1, 2, 3, 4, 5, 6, 7, 8, 9, 10, 11, 12, 13, 14, 15] =
      String.mk (RawURLEncode
        (List.take 16 [0, 1, 2, 3, 4, 5, 6, 7, 8, 9, 10, 11, 12, 13, 14, 15])) ∧
    (List.take 16 ([0, 1, 2, 3, 4, 5, 6, 7, 8, 9, 10, 11, 12, 13, 14, 15] :
      List Byte)).length = 16 ∧
    (generateNonce [0, 1, 2, 3, 4, 5, 6, 7, 8, 9, 10, 11, 12, 13, 14, 15] =
        generateNonce [0, 1, 2, 3, 4, 5, 6, 7, 8, 9, 10, 11, 12, 13, 14, 15, 16] →
      List.take 16 ([0, 1, 2, 3, 4, 5, 6, 7, 8, 9, 10, 11, 12, 13, 14, 15] : List Byte) =
        List.take 16 [0, 1, 2, 3, 4, 5, 6, 7, 8, 9, 10, 11, 12, 13, 14, 15, 16]) ∧
    (generateNonce [0, 1, 2, 3, 4, 5, 6, 7, 8, 9, 10, 11, 12, 13, 14, 15]).length = 22 ∧
    ∀ ch ∈ (generateNonce [0, 1, 2, 3, 4, 5, 6, 7, 8, 9, 10, 11, 12, 13, 14, 15]).toList,
      isURLSafe ch :=
  generateNonce_carries_128_bits [0, 1, 2, 3, 4, 5, 6, 7, 8, 9, 10, 11, 12, 13, 14, 15]
    [0, 1, 2, 3, 4, 5, 6, 7, 8, 9, 10, 11, 12, 13, 14, 15, 16] (by decide) (by decide)

/-! ## Lemmas on the session store and the handlers -/

theorem length_eq_zero_iff (s : String) : s.length = 0 ↔ s = "" := by
  constructor
  · intro h
    cases s with
    | mk l =>
      have hl : l = [] := List.length_eq_zero.mp h
      subst hl; rfl
  · intro h; subst h; rfl

theorem Get_of_live (st : Storage) (now : Time) (k : String) (e : SessionEntry)
    (h : st.db k = some e) (hl : now < e.deadline) : st.Get now k = (e.value, true) := by
  simp [Storage.Get, h, hl]

theorem Get_of_expired (st : Storage) (now : Time) (k : String) (e : SessionEntry)
    (h : st.db k = some e) (hl : e.deadline ≤ now) : st.Get now k = ("", false) := by
  simp [Storage.Get, h, Nat.not_lt.mpr hl]

theorem Get_of_absent (st : Storage) (now : Time) (k : String)
    (h : st.db k = none) : st.Get now k = ("", false) := by
  simp [Storage.Get, h]

theorem Set_db_same (st : Storage) (now : Time) (k v : String) (exp : Duration) :
    (st.Set now k v exp).db k = some ⟨v, now + exp⟩ := by
  simp [Storage.Set]

theorem Set_db_other (st : Storage) (now : Time) (k v : String) (exp : Duration) (k2 : String)
    (h : k2 ≠ k) : (st.Set now k v exp).db k2 = st.db k2 := by
  simp [Storage.Set, h]

/-- What `VerifierAPIPoll` answers, from what the store returns. -/
theorem poll_reply (s : Server) (now : Time) (c : Ctx) :
    (VerifierAPIPoll s now c).2 =
      Response.plain (.SendString
        (if (s.storage.Get now (c.Params "state")).1 = "" then "expired"
          else (s.storage.Get now (c.Params "state")).1)) := by
  unfold VerifierAPIPoll
  simp only [length_eq_zero_iff]
  split <;> rfl

theorem poll_server (s : Server) (now : Time) (c : Ctx) : (VerifierAPIPoll s now c).1 = s := by
  unfold VerifierAPIPoll
  simp only
  split <;> rfl

/-- A poll of a token with a live, non-empty entry answers the stored value. -/
theorem poll_of_live (s : Server) (now : Time) (c : Ctx) (e : SessionEntry)
    (h : s.storage.db (c.Params "state") = some e) (hl : now < e.deadline)
    (hv : e.value ≠ "") :
    (VerifierAPIPoll s now c).2 = Response.plain (.SendString e.value) := by
  rw [poll_reply, Get_of_live _ _ _ e h hl]
  simp [hv]

/-- A poll of a token whose entry is expired answers `expired`. -/
theorem poll_of_expired (s : Server) (now : Time) (c : Ctx) (e : SessionEntry)
    (h : s.storage.db (c.Params "state") = some e) (hl : e.deadline ≤ now) :
    (VerifierAPIPoll s now c).2 = Response.plain (.SendString "expired") := by
  rw [poll_reply, Get_of_expired _ _ _ e h hl]
  simp

/-- A poll of a token without entry answers `expired`. -/
theorem poll_of_absent (s : Server) (now : Time) (c : Ctx)
    (h : s.storage.db (c.Params "state") = none) :
    (VerifierAPIPoll s now c).2 = Response.plain (.SendString "expired") := by
  rw [poll_reply, Get_of_absent _ _ _ h]
  simp

/-- A delivery with a body that parses writes the credential for ten seconds
and answers `ok`. -/
theorem deliver_of_parsed (env : Env) (s : Server) (now : Time) (c : Ctx) (cred : YAML)
    (h : env.ParseJson c.Body = .ok cred) :
    VerifierAPIAuthenticationResponse env s now c =
      ({ s with
          storage := s.storage.Set now (c.Query "state") (cred.String "credential") (10 * Second) },
        Response.plain (.SendString "ok")) := by
  simp [VerifierAPIAuthenticationResponse, h]

/-- A delivery with a body that does not parse returns the error and leaves
the server as it was. -/
theorem deliver_of_malformed (env : Env) (s : Server) (now : Time) (c : Ctx) (err : String)
    (h : env.ParseJson c.Body = .error err) :
    VerifierAPIAuthenticationResponse env s now c = (s, Response.plain (.Err err)) := by
  simp [VerifierAPIAuthenticationResponse, h]

theorem IssuerPageDisplayQRURL_storage (env : Env) (s : Server) (now : Time) (c : Ctx)
    (rnd : List Byte) :
    (IssuerPageDisplayQRURL env s now c rnd).1.storage =
      s.storage.Set now (generateNonce rnd) "pending" (40 * Second) := by
  unfold IssuerPageDisplayQRURL
  simp only
  split <;> rfl

theorem VerifierPageDisplayQR_storage (env : Env) (s : Server) (now : Time) (c : Ctx)
    (rnd : List Byte) (h : env.sameDevice = false) :
    (VerifierPageDisplayQR env s now c rnd).1.storage =
      s.storage.Set now (generateNonce rnd) "pending" (40 * Second) := by
  unfold VerifierPageDisplayQR
  simp only [h, Bool.false_eq_true, if_false]
  split <;> rfl

theorem VerifierPageDisplayQRSIOP_storage (env : Env) (s : Server) (now : Time) (c : Ctx)
    (rnd rnd2 : List Byte) :
    (VerifierPageDisplayQRSIOP env s now c rnd rnd2).1.storage =
      s.storage.Set now (generateNonce rnd) "pending" (200 * Second) := by
  unfold VerifierPageDisplayQRSIOP
  simp only
  split <;> rfl

/-! ## Delivery and polling -/

/-- C1, refuted as stated: the token `exampleToken` is reserved by
`IssuerPageDisplayQRURL` at instant 0; one second later a delivery with the body
`{"credential": ""}` (and likewise with the body `{}`, which has no `credential`
field) answers `ok`; a poll one second after that, well inside the renewed TTL,
does not answer the empty payload that was delivered. -/
theorem round_trip_fails_for_empty_payload :
    generateNonce exampleRnd = exampleToken ∧
    exampleParseJson "\x7b\"credential\": \"\"\x7d" = .ok ⟨[("credential", "")]⟩ ∧
    (VerifierAPIAuthenticationResponse exampleEnv
        (IssuerPageDisplayQRURL exampleEnv exampleServer 0 (Ctx.forState "id-1" "") exampleRnd).1
        (1 * Second) (Ctx.forState exampleToken "\x7b\"credential\": \"\"\x7d")).2.reply =
      .SendString "ok" ∧
    (VerifierAPIPoll
        (VerifierAPIAuthenticationResponse exampleEnv
          (IssuerPageDisplayQRURL exampleEnv exampleServer 0 (Ctx.forState "id-1" "")
            exampleRnd).1
          (1 * Second) (Ctx.forState exampleToken "\x7b\"credential\": \"\"\x7d")).1
        (2 * Second) (Ctx.forState exampleToken "")).2.reply ≠ .SendString "" ∧
    (VerifierAPIPoll
        (VerifierAPIAuthenticationResponse exampleEnv
          (IssuerPageDisplayQRURL exampleEnv exampleServer 0 (Ctx.forState "id-1" "")
            exampleRnd).1
          (1 * Second) (Ctx.forState exampleToken "\x7b\x7d")).1
        (2 * Second) (Ctx.forState exampleToken "")).2.reply ≠ .SendString "" := by
  refine ⟨by decide, by rfl, by decide, by decide, by decide⟩

/-- C1, amended: for every server state (in particular one in which a start
handler has reserved `t`), every non-empty token `t` and every non-empty
payload `p`, a delivery whose body parses to a document with `credential = p`,
followed before the renewed TTL of ten seconds elapses by a poll of `t`, answers
exactly `p`. -/
theorem deliver_then_poll_round_trip (env : Env) (s : Server) (d now : Time)
    (cd cp : Ctx) (t p : String) (cred : YAML)
    (hd : cd.Query "state" = t) (hp : cp.Params "state" = t) (_ht : t ≠ "")
    (hparse : env.ParseJson cd.Body = .ok cred) (hcred : cred.String "credential" = p)
    (hne : p ≠ "") (hlive : now < d + 10 * Second) :
    (VerifierAPIAuthenticationResponse env s d cd).2.reply = .SendString "ok" ∧
    (VerifierAPIPoll (VerifierAPIAuthenticationResponse env s d cd).1 now cp).2.reply =
      .SendString p := by
  rw [deliver_of_parsed env s d cd cred hparse]
  refine ⟨rfl, ?_⟩
  rw [poll_of_live _ now cp ⟨p, d + 10 * Second⟩ (by simp [hp, hd, hcred, Storage.Set]) hlive hne]
  rfl

/-- Witness of the amended C1: `VC-A` delivered to `exampleToken` one second
after the reservation and polled one second later. -/
theorem deliver_then_poll_round_trip_witness :
    (VerifierAPIAuthenticationResponse exampleEnv exampleReserved (1 * Second)
      (deliverA exampleToken)).2.reply = .SendString "ok" ∧
    (VerifierAPIPoll
      (VerifierAPIAuthenticationResponse exampleEnv exampleReserved (1 * Second)
        (deliverA exampleToken)).1
      (2 * Second) (Ctx.forState exampleToken "")).2.reply = .SendString "VC-A" :=
  deliver_then_poll_round_trip exampleEnv exampleReserved (1 * Second) (2 * Second)
    (deliverA exampleToken) (Ctx.forState exampleToken "") exampleToken "VC-A"
    ⟨[("credential", "VC-A")]⟩ rfl rfl (by decide) (by rfl) (by decide) (by decide) (by decide)

/-- C2, refuted as stated: `exampleToken` is in state Created; `VC-A` is
delivered at second 1 and `VC-B` at second 2. The second delivery answers `ok`
as well, not an error, and the value stored afterwards is `VC-B`, not `VC-A`. -/
theorem second_delivery_succeeds_and_overwrites :
    (VerifierAPIAuthenticationResponse exampleEnv exampleReserved (1 * Second)
      (deliverA exampleToken)).2.reply = .SendString "ok" ∧
    (VerifierAPIAuthenticationResponse exampleEnv
      (VerifierAPIAuthenticationResponse exampleEnv exampleReserved (1 * Second)
        (deliverA exampleToken)).1
      (2 * Second) (deliverB exampleToken)).2.reply = .SendString "ok" ∧
    (VerifierAPIAuthenticationResponse exampleEnv
      (VerifierAPIAuthenticationResponse exampleEnv exampleReserved (1 * Second)
        (deliverA exampleToken)).1
      (2 * Second) (deliverB exampleToken)).1.storage.Get (3 * Second) exampleToken =
        ("VC-B", true) := by
  refine ⟨by decide, by decide, by decide⟩

/-- C2, amended: the handler keeps no delivery state. For every server state,
every non-empty token and all non-empty payloads `p1`, `p2`, both the first and
the second delivery answer `ok`, and the second overwrites the first: the
entry of the token then holds `p2` with a fresh TTL of ten seconds. -/
theorem every_delivery_overwrites (env : Env) (s : Server) (d1 d2 : Time) (c1 c2 : Ctx)
    (t p1 p2 : String) (cred1 cred2 : YAML)
    (h1 : c1.Query "state" = t) (h2 : c2.Query "state" = t) (_ht : t ≠ "")
    (hparse1 : env.ParseJson c1.Body = .ok cred1) (hcred1 : cred1.String "credential" = p1)
    (hparse2 : env.ParseJson c2.Body = .ok cred2) (hcred2 : cred2.String "credential" = p2)
    (_hne1 : p1 ≠ "") (_hne2 : p2 ≠ "") :
    (VerifierAPIAuthenticationResponse env s d1 c1).2.reply = .SendString "ok" ∧
    (VerifierAPIAuthenticationResponse env s d1 c1).1.storage.db t =
      some ⟨p1, d1 + 10 * Second⟩ ∧
    (VerifierAPIAuthenticationResponse env
      (VerifierAPIAuthenticationResponse env s d1 c1).1 d2 c2).2.reply = .SendString "ok" ∧
    (VerifierAPIAuthenticationResponse env
      (VerifierAPIAuthenticationResponse env s d1 c1).1 d2 c2).1.storage.db t =
      some ⟨p2, d2 + 10 * Second⟩ := by
  rw [deliver_of_parsed env _ d2 c2 cred2 hparse2, deliver_of_parsed env s d1 c1 cred1 hparse1]
  refine ⟨rfl, ?_, rfl, ?_⟩
  · simp [Storage.Set, h1, hcred1]
  · simp [Storage.Set, h2, hcred2]

/-- Witness of the amended C2: `VC-A` then `VC-B` delivered to `exampleToken`. -/
theorem every_delivery_overwrites_witness :
    (VerifierAPIAuthenticationResponse exampleEnv exampleReserved (1 * Second)
      (deliverA exampleToken)).2.reply = .SendString "ok" ∧
    (VerifierAPIAuthenticationResponse exampleEnv exampleReserved (1 * Second)
      (deliverA exampleToken)).1.storage.db exampleToken =
      some ⟨"VC-A", 1 * Second + 10 * Second⟩ ∧
    (VerifierAPIAuthenticationResponse exampleEnv
      (VerifierAPIAuthenticationResponse exampleEnv exampleReserved (1 * Second)
        (deliverA exampleToken)).1
      (2 * Second) (deliverB exampleToken)).2.reply = .SendString "ok" ∧
    (VerifierAPIAuthenticationResponse exampleEnv
      (VerifierAPIAuthenticationResponse exampleEnv exampleReserved (1 * Second)
        (deliverA exampleToken)).1
      (2 * Second) (deliverB exampleToken)).1.storage.db exampleToken =
      some ⟨"VC-B", 2 * Second + 10 * Second⟩ :=
  every_delivery_overwrites exampleEnv exampleReserved (1 * Second) (2 * Second)
    (deliverA exampleToken) (deliverB exampleToken) exampleToken "VC-A" "VC-B"
    ⟨[("credential", "VC-A")]⟩ ⟨[("credential", "VC-B")]⟩ rfl rfl (by decide) (by rfl)
    (by decide) (by rfl) (by decide) (by decide) (by decide)

/-- C3, refuted as stated: on the freshly started server the token
`never-reserved` has no entry, yet a delivery to it answers `ok` and creates
an entry; and `exampleToken`, reserved at instant 0 for 40 seconds, has expired
at second 41, yet a delivery at that instant answers `ok` and makes the token
live again. -/
theorem delivery_to_unknown_or_expired_token_succeeds :
    exampleServer.storage.db "never-reserved" = none ∧
    (VerifierAPIAuthenticationResponse exampleEnv exampleServer (1 * Second)
      (deliverA "never-reserved")).2.reply = .SendString "ok" ∧
    (VerifierAPIAuthenticationResponse exampleEnv exampleServer (1 * Second)
      (deliverA "never-reserved")).1.storage.db "never-reserved" =
      some ⟨"VC-A", 11 * Second⟩ ∧
    exampleReserved.storage.Get (41 * Second) exampleToken = ("", false) ∧
    (VerifierAPIAuthenticationResponse exampleEnv exampleReserved (41 * Second)
      (deliverA exampleToken)).2.reply = .SendString "ok" ∧
    (VerifierAPIAuthenticationResponse exampleEnv exampleReserved (41 * Second)
      (deliverA exampleToken)).1.storage.Get (41 * Second) exampleToken = ("VC-A", true) := by
  refine ⟨by decide, by decide, by decide, by decide, by decide, by decide⟩

/-- C3, amended: for every non-empty token `t` without a live entry (never
reserved, or reserved and expired) and every non-empty payload `p`, a delivery
whose body parses answers `ok` and creates an entry for `t` that holds `p` and
lives for ten seconds. -/
theorem delivery_without_live_entry_creates_one (env : Env) (s : Server) (now later : Time)
    (c : Ctx) (t p : String) (cred : YAML)
    (_hdead : (s.storage.Get now t).2 = false)
    (hc : c.Query "state" = t) (_ht : t ≠ "")
    (hparse : env.ParseJson c.Body = .ok cred) (hcred : cred.String "credential" = p)
    (_hne : p ≠ "") (hlater : later < now + 10 * Second) :
    (VerifierAPIAuthenticationResponse env s now c).2.reply = .SendString "ok" ∧
    (VerifierAPIAuthenticationResponse env s now c).1.storage.db t =
      some ⟨p, now + 10 * Second⟩ ∧
    (VerifierAPIAuthenticationResponse env s now c).1.storage.Get later t = (p, true) := by
  rw [deliver_of_parsed env s now c cred hparse]
  have hdb : (s.storage.Set now (c.Query "state") (cred.String "credential")
      (10 * Second)).db t = some ⟨p, now + 10 * Second⟩ := by
    simp [Storage.Set, hc, hcred]
  exact ⟨rfl, hdb, Get_of_live _ later t _ hdb hlater⟩

/-- Witness of the amended C3: the token `never-reserved` on the freshly
started server. -/
theorem delivery_without_live_entry_creates_one_witness :
    (VerifierAPIAuthenticationResponse exampleEnv exampleServer (1 * Second)
      (deliverA "never-reserved")).2.reply = .SendString "ok" ∧
    (VerifierAPIAuthenticationResponse exampleEnv exampleServer (1 * Second)
      (deliverA "never-reserved")).1.storage.db "never-reserved" =
      some ⟨"VC-A", 1 * Second + 10 * Second⟩ ∧
    (VerifierAPIAuthenticationResponse exampleEnv exampleServer (1 * Second)
      (deliverA "never-reserved")).1.storage.Get (2 * Second) "never-reserved" =
      ("VC-A", true) :=
  delivery_without_live_entry_creates_one exampleEnv exampleServer (1 * Second) (2 * Second)
    (deliverA "never-reserved") "never-reserved" "VC-A" ⟨[("credential", "VC-A")]⟩
    (by decide) rfl (by decide) (by rfl) (by decide) (by decide) (by decide)

/-- C4: for every token for which the session store has no entry, the empty
token included, `VerifierAPIPoll` answers exactly the text `expired`. -/
theorem poll_of_unknown_token (s : Server) (now : Time) (c : Ctx) (t : String)
    (hc : c.Params "state" = t) (h : s.storage.db t = none) :
    VerifierAPIPoll s now c = (s, ⟨.SendString "expired", [], []⟩) := by
  have h1 := poll_of_absent s now c (by rw [hc]; exact h)
  have h2 := poll_server s now c
  exact Prod.ext h2 h1

/-- Witness of C4: the empty token on the freshly started server. -/
theorem poll_of_unknown_token_witness :
    VerifierAPIPoll exampleServer (5 * Second) (Ctx.forState "" "") =
      (exampleServer, ⟨.SendString "expired", [], []⟩) :=
  poll_of_unknown_token exampleServer (5 * Second) (Ctx.forState "" "") "" rfl rfl

/-! ## Runs that leave a token alone -/

theorem VerifierPageReceiveCredential_server (env : Env) (s : Server) (now : Time) (c : Ctx) :
    (VerifierPageReceiveCredential env s now c).1 = s := by
  unfold VerifierPageReceiveCredential
  simp only
  split
  · rfl
  · split <;> rfl

theorem VerifierPageDisplayQR_storage_sameDevice (env : Env) (s : Server) (now : Time)
    (c : Ctx) (rnd : List Byte) (h : env.sameDevice = true) :
    (VerifierPageDisplayQR env s now c rnd).1 = s := by
  unfold VerifierPageDisplayQR
  simp only [h, if_true]
  rfl

/-- One event that does not write the token `t` leaves the entry of `t` as it
was, or purges it when it had expired. -/
theorem step_db_frame (env : Env) (s : Server) (now : Time) (e : Event) (t : String)
    (h : e.token env ≠ some t) :
    (step env s now e).1.storage.db t = s.storage.db t ∨
    ((step env s now e).1.storage.db t = none ∧
      ∃ en, s.storage.db t = some en ∧ en.deadline ≤ now) := by
  cases e with
  | issuerDisplayQRURL c rnd =>
    left
    have ht : t ≠ generateNonce rnd := fun hh => h (by simp [Event.token, hh])
    simp only [step, IssuerPageDisplayQRURL_storage]
    exact Set_db_other _ _ _ _ _ _ ht
  | verifierDisplayQR c rnd =>
    left
    cases hsd : env.sameDevice with
    | true => simp only [step, VerifierPageDisplayQR_storage_sameDevice env s now c rnd hsd]
    | false =>
      have ht : t ≠ generateNonce rnd := fun hh => h (by simp [Event.token, hsd, hh])
      simp only [step, VerifierPageDisplayQR_storage env s now c rnd hsd]
      exact Set_db_other _ _ _ _ _ _ ht
  | verifierDisplayQRSIOP c rnd rnd2 =>
    left
    have ht : t ≠ generateNonce rnd := fun hh => h (by simp [Event.token, hh])
    simp only [step, VerifierPageDisplayQRSIOP_storage]
    exact Set_db_other _ _ _ _ _ _ ht
  | poll c =>
    left
    simp only [step, poll_server]
  | authenticationResponse c =>
    left
    have ht : t ≠ c.Query "state" := fun hh => h (by simp [Event.token, hh])
    cases hp : env.ParseJson c.Body with
    | error err => simp only [step, deliver_of_malformed env s now c err hp]
    | ok cred =>
      simp only [step, deliver_of_parsed env s now c cred hp]
      exact Set_db_other _ _ _ _ _ _ ht
  | receiveCredential c =>
    left
    simp only [step, VerifierPageReceiveCredential_server]
  | sweep =>
    simp only [step, Storage.sweep]
    cases hdb : s.storage.db t with
    | none => left; rfl
    | some en =>
      by_cases hl : now < en.deadline
      · left; simp [hl]
      · right; exact ⟨by simp [hl], en, rfl, Nat.not_lt.mp hl⟩

/-- A run that does not write the token `t` leaves the entry of `t` as it was,
or purges it at an instant of the run at which it had expired. -/
theorem run_db_frame (env : Env) (t : String) : ∀ (evs : List (Time × Event)) (s : Server),
    (∀ x ∈ evs, x.2.token env ≠ some t) →
    (run env s evs).storage.db t = s.storage.db t ∨
    ((run env s evs).storage.db t = none ∧
      ∃ en, s.storage.db t = some en ∧ ∃ x ∈ evs, en.deadline ≤ x.1)
  | [], s, _ => Or.inl rfl
  | (now, e) :: rest, s, h => by
    have hstep := step_db_frame env s now e t (h (now, e) (List.mem_cons_self _ _))
    have hrest := run_db_frame env t rest (step env s now e).1
      (fun x hx => h x (List.mem_cons_of_mem _ hx))
    simp only [run]
    rcases hrest with hr | ⟨hr, en, hen, x, hx, hdl⟩
    · rcases hstep with hs | ⟨hs, en, hen, hdl⟩
      · left; rw [hr, hs]
      · right
        exact ⟨by rw [hr, hs], en, hen, (now, e), List.mem_cons_self _ _, hdl⟩
    · rcases hstep with hs | ⟨hs, en2, _, _⟩
      · right
        exact ⟨hr, en, by rw [← hs, hen], x, List.mem_cons_of_mem _ hx, hdl⟩
      · rw [hs] at hen; cases hen

/-- A reserved token is still pending at `now` when its TTL has not elapsed
and the run since the reservation neither wrote it nor went beyond `now`. -/
theorem poll_pending_of_reserved (env : Env) (s : Server) (t : String) (deadline now : Time)
    (evs : List (Time × Event)) (cp : Ctx)
    (hdb : s.storage.db t = some ⟨"pending", deadline⟩)
    (hcp : cp.Params "state" = t)
    (hquiet : ∀ x ∈ evs, x.2.token env ≠ some t)
    (htime : ∀ x ∈ evs, x.1 ≤ now)
    (hlive : now < deadline) :
    (VerifierAPIPoll (run env s evs) now cp).2 = Response.plain (.SendString "pending") := by
  rcases run_db_frame env t evs s hquiet with hr | ⟨_, en, hen, x, hx, hdl⟩
  · exact poll_of_live _ now cp ⟨"pending", deadline⟩ (by rw [hcp, hr, hdb]) hlive (by simp)
  · have hen2 : en = ⟨"pending", deadline⟩ := by
      rw [hdb] at hen
      exact (Option.some.inj hen).symm
    subst hen2
    have hle : x.1 ≤ now := htime x hx
    have hdl2 : deadline ≤ x.1 := hdl
    exact absurd (Nat.lt_of_lt_of_le hlive (Nat.le_trans hdl2 hle)) (Nat.lt_irrefl _)

/-- A reserved token that no later event wrote is expired from its deadline
on, whether a sweep has purged the entry or not. -/
theorem poll_expired_of_reserved (env : Env) (s : Server) (t : String) (deadline now : Time)
    (evs : List (Time × Event)) (cp : Ctx)
    (hdb : s.storage.db t = some ⟨"pending", deadline⟩)
    (hcp : cp.Params "state" = t)
    (hquiet : ∀ x ∈ evs, x.2.token env ≠ some t)
    (hdead : deadline ≤ now) :
    (VerifierAPIPoll (run env s evs) now cp).2 = Response.plain (.SendString "expired") := by
  rcases run_db_frame env t evs s hquiet with hr | ⟨hr, _⟩
  · exact poll_of_expired _ now cp ⟨"pending", deadline⟩ (by rw [hcp, hr, hdb]) hdead
  · exact poll_of_absent _ now cp (by rw [hcp, hr])

/-! ## Reservation, polling and expiry -/

/-- C5: for the token produced by a start handler (`IssuerPageDisplayQRURL`,
`VerifierPageDisplayQR` with `sameDevice` false, `VerifierPageDisplayQRSIOP`)
at instant `s0`, a poll at an instant `now` before the TTL of the reservation
has elapsed, with no delivery to the token in between (the run `evs` since the
reservation does not write the token and lies before `now`), answers exactly
`pending`. -/
theorem poll_pending_after_start (env : Env) (s : Server) (s0 now : Time) (c cp : Ctx)
    (rnd rnd2 : List Byte) (evs : List (Time × Event))
    (hcp : cp.Params "state" = generateNonce rnd)
    (hquiet : ∀ x ∈ evs, x.2.token env ≠ some (generateNonce rnd))
    (htime : ∀ x ∈ evs, x.1 ≤ now) :
    (now < s0 + 40 * Second →
      (VerifierAPIPoll (run env (IssuerPageDisplayQRURL env s s0 c rnd).1 evs) now cp).2 =
        ⟨.SendString "pending", [], []⟩) ∧
    (env.sameDevice = false → now < s0 + 40 * Second →
      (VerifierAPIPoll (run env (VerifierPageDisplayQR env s s0 c rnd).1 evs) now cp).2 =
        ⟨.SendString "pending", [], []⟩) ∧
    (now < s0 + 200 * Second →
      (VerifierAPIPoll (run env (VerifierPageDisplayQRSIOP env s s0 c rnd rnd2).1 evs)
        now cp).2 = ⟨.SendString "pending", [], []⟩) := by
  refine ⟨fun hl => ?_, fun hsd hl => ?_, fun hl => ?_⟩
  · exact poll_pending_of_reserved env _ (generateNonce rnd) (s0 + 40 * Second) now evs cp
      (by rw [IssuerPageDisplayQRURL_storage]; exact Set_db_same _ _ _ _ _) hcp hquiet htime hl
  · exact poll_pending_of_reserved env _ (generateNonce rnd) (s0 + 40 * Second) now evs cp
      (by rw [VerifierPageDisplayQR_storage env s s0 c rnd hsd]; exact Set_db_same _ _ _ _ _)
      hcp hquiet htime hl
  · exact poll_pending_of_reserved env _ (generateNonce rnd) (s0 + 200 * Second) now evs cp
      (by rw [VerifierPageDisplayQRSIOP_storage]; exact Set_db_same _ _ _ _ _) hcp hquiet htime
      hl

/-- Witness of C5: `exampleToken` reserved at instant 0 and polled at second
39 after the run `exampleQuietRun`. -/
theorem poll_pending_after_start_witness :
    (VerifierAPIPoll (run exampleEnv
        (IssuerPageDisplayQRURL exampleEnv exampleServer 0 (Ctx.forState "id-1" "")
          exampleRnd).1 exampleQuietRun)
      (39 * Second) (Ctx.forState exampleToken "")).2 = ⟨.SendString "pending", [], []⟩ ∧
    (VerifierAPIPoll (run exampleEnv
        (VerifierPageDisplayQR exampleEnv exampleServer 0 (Ctx.forState "id-1" "")
          exampleRnd).1 exampleQuietRun)
      (39 * Second) (Ctx.forState exampleToken "")).2 = ⟨.SendString "pending", [], []⟩ ∧
    (VerifierAPIPoll (run exampleEnv
        (VerifierPageDisplayQRSIOP exampleEnv exampleServer 0 (Ctx.forState "id-1" "")
          exampleRnd exampleRnd).1 exampleQuietRun)
      (39 * Second) (Ctx.forState exampleToken "")).2 = ⟨.SendString "pending", [], []⟩ :=
  have h := poll_pending_after_start exampleEnv exampleServer 0 (39 * Second)
    (Ctx.forState "id-1" "") (Ctx.forState exampleToken "") exampleRnd exampleRnd
    exampleQuietRun (by decide) (by decide) (by decide)
  ⟨h.1 (by decide), h.2.1 rfl (by decide), h.2.2 (by decide)⟩

/-- C6: `VerifierAPIPoll` never mutates the session store: the server after
the call is the server before the call, so after any number `n` of consecutive
polls at the same instant the server is unchanged and all `n` answers are the
same. -/
theorem poll_never_mutates (env : Env) (s : Server) (now : Time) (c : Ctx) (n : Nat) :
    (VerifierAPIPoll s now c).1 = s ∧
    (VerifierAPIPoll s now c).1.storage = s.storage ∧
    run env s (List.replicate n (now, .poll c)) = s ∧
    trace env s (List.replicate n (now, .poll c)) =
      List.replicate n (VerifierAPIPoll s now c).2 := by
  refine ⟨poll_server s now c, by rw [poll_server], ?_, ?_⟩
  · induction n with
    | zero => rfl
    | succ k ih =>
      simp only [List.replicate_succ, run, step, poll_server]
      exact ih
  · induction n with
    | zero => rfl
    | succ k ih =>
      simp only [List.replicate_succ, trace, step, poll_server]
      rw [ih]

/-- C7: a token reserved at instant `s0` with TTL `d` (40 seconds for
`IssuerPageDisplayQRURL` and `VerifierPageDisplayQR`, 200 seconds for
`VerifierPageDisplayQRSIOP`) and never delivered (no event of the run `evs`
since the reservation writes it; the run may sweep the store at any instant)
is answered `expired` by every poll at or after `s0 + d`; and for every server
state, a poll of a token whose entry is expired but still stored answers what
it answers once the entry is deleted. -/
theorem poll_expired_after_ttl (env : Env) (s : Server) (s0 now : Time) (c cp : Ctx)
    (rnd rnd2 : List Byte) (evs : List (Time × Event))
    (hcp : cp.Params "state" = generateNonce rnd)
    (hquiet : ∀ x ∈ evs, x.2.token env ≠ some (generateNonce rnd)) :
    (s0 + 40 * Second ≤ now →
      (VerifierAPIPoll (run env (IssuerPageDisplayQRURL env s s0 c rnd).1 evs) now cp).2 =
        ⟨.SendString "expired", [], []⟩) ∧
    (env.sameDevice = false → s0 + 40 * Second ≤ now →
      (VerifierAPIPoll (run env (VerifierPageDisplayQR env s s0 c rnd).1 evs) now cp).2 =
        ⟨.SendString "expired", [], []⟩) ∧
    (s0 + 200 * Second ≤ now →
      (VerifierAPIPoll (run env (VerifierPageDisplayQRSIOP env s s0 c rnd rnd2).1 evs)
        now cp).2 = ⟨.SendString "expired", [], []⟩) ∧
    (∀ (s1 : Server) (en : SessionEntry),
      s1.storage.db (generateNonce rnd) = some en → en.deadline ≤ now →
      (VerifierAPIPoll s1 now cp).2 = ⟨.SendString "expired", [], []⟩ ∧
      (VerifierAPIPoll { s1 with storage := s1.storage.Delete (generateNonce rnd) } now cp).2 =
        (VerifierAPIPoll s1 now cp).2) := by
  refine ⟨fun hl => ?_, fun hsd hl => ?_, fun hl => ?_, fun s1 en hen hdl => ?_⟩
  · exact poll_expired_of_reserved env _ (generateNonce rnd) (s0 + 40 * Second) now evs cp
      (by rw [IssuerPageDisplayQRURL_storage]; exact Set_db_same _ _ _ _ _) hcp hquiet hl
  · exact poll_expired_of_reserved env _ (generateNonce rnd) (s0 + 40 * Second) now evs cp
      (by rw [VerifierPageDisplayQR_storage env s s0 c rnd hsd]; exact Set_db_same _ _ _ _ _)
      hcp hquiet hl
  · exact poll_expired_of_reserved env _ (generateNonce rnd) (s0 + 200 * Second) now evs cp
      (by rw [VerifierPageDisplayQRSIOP_storage]; exact Set_db_same _ _ _ _ _) hcp hquiet hl
  · have h1 := poll_of_expired s1 now cp en (by rw [hcp]; exact hen) hdl
    have h2 := poll_of_absent { s1 with storage := s1.storage.Delete (generateNonce rnd) } now cp
      (by simp [hcp, Storage.Delete])
    exact ⟨h1, by rw [h1, h2]⟩

/-- Witness of C7: `exampleToken` reserved at instant 0 and polled at second
40 (resp. 200) after `exampleQuietRun`. -/
theorem poll_expired_after_ttl_witness :
    (VerifierAPIPoll (run exampleEnv
        (IssuerPageDisplayQRURL exampleEnv exampleServer 0 (Ctx.forState "id-1" "")
          exampleRnd).1 exampleQuietRun)
      (40 * Second) (Ctx.forState exampleToken "")).2 = ⟨.SendString "expired", [], []⟩ ∧
    (VerifierAPIPoll (run exampleEnv
        (VerifierPageDisplayQR exampleEnv exampleServer 0 (Ctx.forState "id-1" "")
          exampleRnd).1 exampleQuietRun)
      (40 * Second) (Ctx.forState exampleToken "")).2 = ⟨.SendString "expired", [], []⟩ ∧
    (VerifierAPIPoll (run exampleEnv
        (VerifierPageDisplayQRSIOP exampleEnv exampleServer 0 (Ctx.forState "id-1" "")
          exampleRnd exampleRnd).1 exampleLateRun)
      (200 * Second) (Ctx.forState exampleToken "")).2 = ⟨.SendString "expired", [], []⟩ :=
  ⟨(poll_expired_after_ttl exampleEnv exampleServer 0 (40 * Second)
      (Ctx.forState "id-1" "") (Ctx.forState exampleToken "") exampleRnd exampleRnd
      exampleQuietRun (by decide) (by decide)).1 (by decide),
    (poll_expired_after_ttl exampleEnv exampleServer 0 (40 * Second)
      (Ctx.forState "id-1" "") (Ctx.forState exampleToken "") exampleRnd exampleRnd
      exampleQuietRun (by decide) (by decide)).2.1 rfl (by decide),
    (poll_expired_after_ttl exampleEnv exampleServer 0 (200 * Second)
      (Ctx.forState "id-1" "") (Ctx.forState exampleToken "") exampleRnd exampleRnd
      exampleLateRun (by decide) (by decide)).2.2.1 (by decide)⟩

/-! ## Lifetimes -/

/-- C8: the TTL that `VerifierAPIAuthenticationResponse` attaches to a
delivered credential is 10 seconds, the TTL attached by `IssuerPageDisplayQRURL`
and by `VerifierPageDisplayQR` is 40 seconds and the one attached by
`VerifierPageDisplayQRSIOP` is 200 seconds; the first is strictly shorter than
each of the others. -/
theorem delivery_ttl_shorter_than_start_ttl (env : Env) (s : Server) (now : Time)
    (c cd : Ctx) (rnd rnd2 : List Byte) (cred : YAML)
    (hparse : env.ParseJson cd.Body = .ok cred) (hsd : env.sameDevice = false) :
    ∃ eD eI eV eS : SessionEntry,
      (VerifierAPIAuthenticationResponse env s now cd).1.storage.db (cd.Query "state") =
        some eD ∧
      (IssuerPageDisplayQRURL env s now c rnd).1.storage.db (generateNonce rnd) = some eI ∧
      (VerifierPageDisplayQR env s now c rnd).1.storage.db (generateNonce rnd) = some eV ∧
      (VerifierPageDisplayQRSIOP env s now c rnd rnd2).1.storage.db (generateNonce rnd) =
        some eS ∧
      eD.deadline - now = 10 * Second ∧ eI.deadline - now = 40 * Second ∧
      eV.deadline - now = 40 * Second ∧ eS.deadline - now = 200 * Second ∧
      eD.deadline - now < eI.deadline - now ∧ eD.deadline - now < eV.deadline - now ∧
      eD.deadline - now < eS.deadline - now := by
  refine ⟨⟨cred.String "credential", now + 10 * Second⟩, ⟨"pending", now + 40 * Second⟩,
    ⟨"pending", now + 40 * Second⟩, ⟨"pending", now + 200 * Second⟩, ?_, ?_, ?_, ?_, ?_⟩
  · rw [deliver_of_parsed env s now cd cred hparse]
    exact Set_db_same _ _ _ _ _
  · rw [IssuerPageDisplayQRURL_storage]
    exact Set_db_same _ _ _ _ _
  · rw [VerifierPageDisplayQR_storage env s now c rnd hsd]
    exact Set_db_same _ _ _ _ _
  · rw [VerifierPageDisplayQRSIOP_storage]
    exact Set_db_same _ _ _ _ _
  · simp [Second]

/-- Witness of C8 on the freshly started example server at second 7. -/
theorem delivery_ttl_shorter_than_start_ttl_witness :
    ∃ eD eI eV eS : SessionEntry,
      (VerifierAPIAuthenticationResponse exampleEnv exampleServer (7 * Second)
        (deliverA exampleToken)).1.storage.db ((deliverA exampleToken).Query "state") =
        some eD ∧
      (IssuerPageDisplayQRURL exampleEnv exampleServer (7 * Second) (Ctx.forState "id-1" "")
        exampleRnd).1.storage.db (generateNonce exampleRnd) = some eI ∧
      (VerifierPageDisplayQR exampleEnv exampleServer (7 * Second) (Ctx.forState "id-1" "")
        exampleRnd).1.storage.db (generateNonce exampleRnd) = some eV ∧
      (VerifierPageDisplayQRSIOP exampleEnv exampleServer (7 * Second)
        (Ctx.forState "id-1" "") exampleRnd exampleRnd).1.storage.db
          (generateNonce exampleRnd) = some eS ∧
      eD.deadline - 7 * Second = 10 * Second ∧ eI.deadline - 7 * Second = 40 * Second ∧
      eV.deadline - 7 * Second = 40 * Second ∧ eS.deadline - 7 * Second = 200 * Second ∧
      eD.deadline - 7 * Second < eI.deadline - 7 * Second ∧
      eD.deadline - 7 * Second < eV.deadline - 7 * Second ∧
      eD.deadline - 7 * Second < eS.deadline - 7 * Second :=
  delivery_ttl_shorter_than_start_ttl exampleEnv exampleServer (7 * Second)
    (Ctx.forState "id-1" "") (deliverA exampleToken) exampleRnd exampleRnd
    ⟨[("credential", "VC-A")]⟩ (by rfl) rfl

/-! ## The access token -/

/-- What `VerifierPageReceiveCredential` answers when the store holds a live,
non-empty value for the state and the vault mints a token. -/
theorem receive_of_minted (env : Env) (s : Server) (now : Time) (c : Ctx) (v tok : String)
    (hget : s.storage.Get now (c.Params "state") = (v, true)) (hv : v ≠ "")
    (htok : env.CreateAccessToken v (s.cfg "issuer.id") = .ok tok) :
    (VerifierPageReceiveCredential env s now c).2 =
      ⟨.Render "verifier_receivedcredential"
          (prefixBindings ++ [("claims", v), ("prefix", verifierPrefix)]),
        [⟨"dbsamvf", tok, now + 1 * Hour⟩], [("Authorization", "Bearer " ++ tok)]⟩ := by
  unfold VerifierPageReceiveCredential
  simp only [hget, length_eq_zero_iff, hv, if_false, htok]

/-- Every cookie that `VerifierPageReceiveCredential` sets, in any state of the
session store, expires one hour after the call. -/
theorem receive_cookies_expire_in_one_hour (env : Env) (s : Server) (now : Time) (c : Ctx) :
    ∀ ck ∈ (VerifierPageReceiveCredential env s now c).2.cookies,
      ck.Expires = now + 3600 * Second := by
  intro ck hck
  unfold VerifierPageReceiveCredential at hck
  simp only at hck
  split at hck
  · simp [Response.plain] at hck
  · split at hck
    · simp [Response.plain] at hck
    · simp only [List.mem_singleton] at hck
      subst hck
      simp only [Hour, Minute, Second]

/-- C10: whenever `VerifierPageReceiveCredential` mints an access token (the
session store holds a live, non-empty value for the state and
`CreateAccessToken` succeeds), the token is put in the one cookie `dbsamvf`,
whose expiry is the instant of issuance plus 3600 seconds, strictly later than
the issuance; this holds for every state of the session store, whatever TTL the
entry was written with. -/
theorem access_token_valid_one_hour (env : Env) (s : Server) (now : Time) (c : Ctx)
    (v tok : String)
    (hget : s.storage.Get now (c.Params "state") = (v, true)) (hv : v ≠ "")
    (htok : env.CreateAccessToken v (s.cfg "issuer.id") = .ok tok) :
    (VerifierPageReceiveCredential env s now c).2.cookies =
      [⟨"dbsamvf", tok, now + 3600 * Second⟩] ∧
    (VerifierPageReceiveCredential env s now c).2.headers =
      [("Authorization", "Bearer " ++ tok)] ∧
    ∀ ck ∈ (VerifierPageReceiveCredential env s now c).2.cookies,
      ck.Expires = now + 3600 * Second ∧ now < ck.Expires := by
  rw [receive_of_minted env s now c v tok hget hv htok]
  have hh : now + 1 * Hour = now + 3600 * Second := by simp only [Hour, Minute, Second]
  refine ⟨by simp only [hh], rfl, ?_⟩
  intro ck hck
  simp only [List.mem_singleton] at hck
  subst hck
  simp [Hour, Minute, Second]

/-- Witness of C10: `VC-A` delivered to `exampleToken` at second 1 (TTL 10
seconds) and received at second 2. -/
theorem access_token_valid_one_hour_witness :
    (VerifierPageReceiveCredential exampleEnv
      (VerifierAPIAuthenticationResponse exampleEnv exampleReserved (1 * Second)
        (deliverA exampleToken)).1
      (2 * Second) (Ctx.forState exampleToken "")).2.cookies =
      [⟨"dbsamvf", "jwt:issuer-1:VC-A", 2 * Second + 3600 * Second⟩] ∧
    (VerifierPageReceiveCredential exampleEnv
      (VerifierAPIAuthenticationResponse exampleEnv exampleReserved (1 * Second)
        (deliverA exampleToken)).1
      (2 * Second) (Ctx.forState exampleToken "")).2.headers =
      [("Authorization", "Bearer " ++ "jwt:issuer-1:VC-A")] ∧
    ∀ ck ∈ (VerifierPageReceiveCredential exampleEnv
      (VerifierAPIAuthenticationResponse exampleEnv exampleReserved (1 * Second)
        (deliverA exampleToken)).1
      (2 * Second) (Ctx.forState exampleToken "")).2.cookies,
      ck.Expires = 2 * Second + 3600 * Second ∧ 2 * Second < ck.Expires :=
  access_token_valid_one_hour exampleEnv
    (VerifierAPIAuthenticationResponse exampleEnv exampleReserved (1 * Second)
      (deliverA exampleToken)).1
    (2 * Second) (Ctx.forState exampleToken "") "VC-A" "jwt:issuer-1:VC-A"
    (by decide) (by decide) (by rfl)

/-! ## Consumption of a delivered credential -/

/-- C11, refuted as stated: `VC-A` is delivered to `exampleToken` at second 1;
`VerifierPageReceiveCredential` reads it at second 2 and mints a token; the
entry is still stored afterwards, and a second call at second 3, inside the TTL
of ten seconds, finds the credential again and mints a further token. -/
theorem second_receive_mints_again :
    (VerifierPageReceiveCredential exampleEnv
      (VerifierAPIAuthenticationResponse exampleEnv exampleReserved (1 * Second)
        (deliverA exampleToken)).1
      (2 * Second) (Ctx.forState exampleToken "")).2.cookies =
      [⟨"dbsamvf", "jwt:issuer-1:VC-A", 2 * Second + 3600 * Second⟩] ∧
    (VerifierPageReceiveCredential exampleEnv
      (VerifierAPIAuthenticationResponse exampleEnv exampleReserved (1 * Second)
        (deliverA exampleToken)).1
      (2 * Second) (Ctx.forState exampleToken "")).1.storage.Get (3 * Second) exampleToken =
      ("VC-A", true) ∧
    (VerifierPageReceiveCredential exampleEnv
      (VerifierPageReceiveCredential exampleEnv
        (VerifierAPIAuthenticationResponse exampleEnv exampleReserved (1 * Second)
          (deliverA exampleToken)).1
        (2 * Second) (Ctx.forState exampleToken "")).1
      (3 * Second) (Ctx.forState exampleToken "")).2 =
      ⟨.Render "verifier_receivedcredential"
          (prefixBindings ++ [("claims", "VC-A"), ("prefix", verifierPrefix)]),
        [⟨"dbsamvf", "jwt:issuer-1:VC-A", 3 * Second + 3600 * Second⟩],
        [("Authorization", "Bearer jwt:issuer-1:VC-A")]⟩ := by
  refine ⟨by decide, by decide, by decide⟩

/-- C11, amended: `VerifierPageReceiveCredential` never changes the server, so
a delivered credential is not consumed: after a first call (with any
collaborators `env1`), a second call for the same state at an instant `now2` at
which the entry is still live finds the same credential `v` and mints a token
again whenever `CreateAccessToken` succeeds. -/
theorem receive_does_not_consume (env1 env2 : Env) (s : Server) (now1 now2 : Time) (c : Ctx)
    (v tok2 : String)
    (hget : s.storage.Get now2 (c.Params "state") = (v, true)) (hv : v ≠ "")
    (htok : env2.CreateAccessToken v (s.cfg "issuer.id") = .ok tok2) :
    (VerifierPageReceiveCredential env1 s now1 c).1 = s ∧
    (VerifierPageReceiveCredential env2 (VerifierPageReceiveCredential env1 s now1 c).1
      now2 c).2 =
      ⟨.Render "verifier_receivedcredential"
          (prefixBindings ++ [("claims", v), ("prefix", verifierPrefix)]),
        [⟨"dbsamvf", tok2, now2 + 1 * Hour⟩], [("Authorization", "Bearer " ++ tok2)]⟩ := by
  refine ⟨VerifierPageReceiveCredential_server env1 s now1 c, ?_⟩
  rw [VerifierPageReceiveCredential_server env1 s now1 c]
  exact receive_of_minted env2 s now2 c v tok2 hget hv htok

/-- Witness of the amended C11: `VC-A` delivered at second 1, received at
seconds 2 and 3. -/
theorem receive_does_not_consume_witness :
    (VerifierPageReceiveCredential exampleEnv
      (VerifierAPIAuthenticationResponse exampleEnv exampleReserved (1 * Second)
        (deliverA exampleToken)).1
      (2 * Second) (Ctx.forState exampleToken "")).1 =
      (VerifierAPIAuthenticationResponse exampleEnv exampleReserved (1 * Second)
        (deliverA exampleToken)).1 ∧
    (VerifierPageReceiveCredential exampleEnv
      (VerifierPageReceiveCredential exampleEnv
        (VerifierAPIAuthenticationResponse exampleEnv exampleReserved (1 * Second)
          (deliverA exampleToken)).1
        (2 * Second) (Ctx.forState exampleToken "")).1
      (3 * Second) (Ctx.forState exampleToken "")).2 =
      ⟨.Render "verifier_receivedcredential"
          (prefixBindings ++ [("claims", "VC-A"), ("prefix", verifierPrefix)]),
        [⟨"dbsamvf", "jwt:issuer-1:VC-A", 3 * Second + 1 * Hour⟩],
        [("Authorization", "Bearer " ++ "jwt:issuer-1:VC-A")]⟩ :=
  receive_does_not_consume exampleEnv exampleEnv
    (VerifierAPIAuthenticationResponse exampleEnv exampleReserved (1 * Second)
      (deliverA exampleToken)).1
    (2 * Second) (3 * Second) (Ctx.forState exampleToken "") "VC-A" "jwt:issuer-1:VC-A"
    (by decide) (by decide) (by rfl)

/-- C12, the code at the failing input: `exampleToken` has been reserved by
`IssuerPageDisplayQRURL` at instant 0 and nothing has been delivered, so the
stored value is the reservation marker `pending`; `VerifierPageReceiveCredential`
at second 1 passes the guard `len(rawCred) == 0`, calls `CreateAccessToken` with
the claims `pending` and sets both the cookie and the `Authorization` header. -/
theorem receive_mints_from_pending_marker :
    exampleReserved.storage.Get (1 * Second) exampleToken = ("pending", true) ∧
    (VerifierPageReceiveCredential exampleEnv exampleReserved (1 * Second)
      (Ctx.forState exampleToken "")).2 =
      ⟨.Render "verifier_receivedcredential"
          (prefixBindings ++ [("claims", "pending"), ("prefix", verifierPrefix)]),
        [⟨"dbsamvf", "jwt:issuer-1:pending", 1 * Second + 3600 * Second⟩],
        [("Authorization", "Bearer jwt:issuer-1:pending")]⟩ := by
  refine ⟨by decide, by decide⟩

/-! ## The outcomes of a poll -/

/-- C13, refuted as stated: the payload `pending` is delivered to `exampleToken`
at second 1 (the entry then carries the delivery deadline of second 11); the
poll at second 2 reports it as `pending`. Likewise the delivered payload
`expired` is reported as `expired` although a live entry exists. -/
theorem delivered_status_text_is_ambiguous :
    (VerifierAPIAuthenticationResponse exampleStatusEnv exampleReserved (1 * Second)
      (Ctx.forState exampleToken "\x7b\"credential\": \"pending\"\x7d")).2.reply =
      .SendString "ok" ∧
    (VerifierAPIAuthenticationResponse exampleStatusEnv exampleReserved (1 * Second)
      (Ctx.forState exampleToken "\x7b\"credential\": \"pending\"\x7d")).1.storage.db
        exampleToken = some ⟨"pending", 11 * Second⟩ ∧
    (VerifierAPIPoll
      (VerifierAPIAuthenticationResponse exampleStatusEnv exampleReserved (1 * Second)
        (Ctx.forState exampleToken "\x7b\"credential\": \"pending\"\x7d")).1
      (2 * Second) (Ctx.forState exampleToken "")).2.reply = .SendString "pending" ∧
    (VerifierAPIAuthenticationResponse exampleStatusEnv exampleReserved (1 * Second)
      (Ctx.forState exampleToken "\x7b\"credential\": \"expired\"\x7d")).1.storage.Get
        (2 * Second) exampleToken = ("expired", true) ∧
    (VerifierAPIPoll
      (VerifierAPIAuthenticationResponse exampleStatusEnv exampleReserved (1 * Second)
        (Ctx.forState exampleToken "\x7b\"credential\": \"expired\"\x7d")).1
      (2 * Second) (Ctx.forState exampleToken "")).2.reply = .SendString "expired" := by
  refine ⟨by decide, by decide, by decide, by decide, by decide⟩

/-- C13, amended: with `v` the value the store returns for the token (empty
when no live entry exists), `VerifierAPIPoll` answers `expired` exactly when
`v` is empty or is the text `expired`, answers `pending` exactly when `v` is
the text `pending`, and answers `v` itself whenever `v` is not empty; so a
stored payload other than the empty one, `pending` and `expired` is reported
neither as `expired` nor as `pending`. -/
theorem poll_outcomes (s : Server) (now : Time) (c : Ctx) :
    ((VerifierAPIPoll s now c).2.reply = .SendString "expired" ↔
      (s.storage.Get now (c.Params "state")).1 = "" ∨
      (s.storage.Get now (c.Params "state")).1 = "expired") ∧
    ((VerifierAPIPoll s now c).2.reply = .SendString "pending" ↔
      (s.storage.Get now (c.Params "state")).1 = "pending") ∧
    ((s.storage.Get now (c.Params "state")).1 ≠ "" →
      (VerifierAPIPoll s now c).2.reply =
        .SendString (s.storage.Get now (c.Params "state")).1) ∧
    ((s.storage.Get now (c.Params "state")).1 ≠ "" →
      (s.storage.Get now (c.Params "state")).1 ≠ "pending" →
      (s.storage.Get now (c.Params "state")).1 ≠ "expired" →
      (VerifierAPIPoll s now c).2.reply ≠ .SendString "expired" ∧
      (VerifierAPIPoll s now c).2.reply ≠ .SendString "pending") := by
  rw [poll_reply]
  generalize (s.storage.Get now (c.Params "state")).1 = v
  by_cases hv : v = ""
  · subst hv
    simp [Response.plain]
  · simp only [Response.plain, hv, if_false, Reply.SendString.injEq, false_or, ne_eq,
      not_false_eq_true, true_implies, true_and]
    intro h1 h2
    exact ⟨h2, h1⟩

/-- Witness of the amended C13: `VC-A` delivered to `exampleToken` at second
1 and polled at second 2 is reported as `VC-A`, not as a status text. -/
theorem poll_outcomes_witness :
    (VerifierAPIPoll
      (VerifierAPIAuthenticationResponse exampleEnv exampleReserved (1 * Second)
        (deliverA exampleToken)).1
      (2 * Second) (Ctx.forState exampleToken "")).2.reply = .SendString "VC-A" ∧
    (VerifierAPIPoll
      (VerifierAPIAuthenticationResponse exampleEnv exampleReserved (1 * Second)
        (deliverA exampleToken)).1
      (2 * Second) (Ctx.forState exampleToken "")).2.reply ≠ .SendString "expired" ∧
    (VerifierAPIPoll
      (VerifierAPIAuthenticationResponse exampleEnv exampleReserved (1 * Second)
        (deliverA exampleToken)).1
      (2 * Second) (Ctx.forState exampleToken "")).2.reply ≠ .SendString "pending" :=
  have h := poll_outcomes
    (VerifierAPIAuthenticationResponse exampleEnv exampleReserved (1 * Second)
      (deliverA exampleToken)).1
    (2 * Second) (Ctx.forState exampleToken "")
  ⟨h.2.2.1 (by decide), h.2.2.2 (by decide) (by decide) (by decide)⟩

/-! ## Malformed deliveries -/

/-- C17: for every delivery whose body `yaml.ParseJson` rejects,
`VerifierAPIAuthenticationResponse` returns that error instead of answering
`ok` and leaves the server, hence the entry of every token in the session
store, unchanged. -/
theorem malformed_delivery_is_rejected (env : Env) (s : Server) (now : Time) (c : Ctx)
    (err : String) (h : env.ParseJson c.Body = .error err) :
    (VerifierAPIAuthenticationResponse env s now c).2 = ⟨.Err err, [], []⟩ ∧
    (VerifierAPIAuthenticationResponse env s now c).2.reply ≠ .SendString "ok" ∧
    (VerifierAPIAuthenticationResponse env s now c).1 = s ∧
    (VerifierAPIAuthenticationResponse env s now c).1.storage = s.storage ∧
    ∀ t : String,
      (VerifierAPIAuthenticationResponse env s now c).1.storage.db t = s.storage.db t := by
  rw [deliver_of_malformed env s now c err h]
  refine ⟨rfl, ?_, rfl, rfl, fun _ => rfl⟩
  simp [Response.plain]

/-- Witness of C17: the body `not json` sent for `exampleToken` at second 1. -/
theorem malformed_delivery_is_rejected_witness :
    (VerifierAPIAuthenticationResponse exampleEnv exampleReserved (1 * Second)
      (Ctx.forState exampleToken "not json")).2 =
      ⟨.Err "invalid character looking for beginning of value", [], []⟩ ∧
    (VerifierAPIAuthenticationResponse exampleEnv exampleReserved (1 * Second)
      (Ctx.forState exampleToken "not json")).2.reply ≠ .SendString "ok" ∧
    (VerifierAPIAuthenticationResponse exampleEnv exampleReserved (1 * Second)
      (Ctx.forState exampleToken "not json")).1 = exampleReserved ∧
    (VerifierAPIAuthenticationResponse exampleEnv exampleReserved (1 * Second)
      (Ctx.forState exampleToken "not json")).1.storage = exampleReserved.storage ∧
    ∀ t : String,
      (VerifierAPIAuthenticationResponse exampleEnv exampleReserved (1 * Second)
        (Ctx.forState exampleToken "not json")).1.storage.db t =
        exampleReserved.storage.db t :=
  malformed_delivery_is_rejected exampleEnv exampleReserved (1 * Second)
    (Ctx.forState exampleToken "not json")
    "invalid character looking for beginning of value" (by rfl)

/-! ## The expiry scenario -/

/-- C20, refuted as stated: the exchange is started at instant 0 by
`IssuerPageDisplayQRURL` (TTL 40 seconds) and `VC-A` is delivered at second 35;
the delivery renews the TTL to ten seconds, so the poll at second 41 answers the
credential, not `expired`. -/
theorem poll_at_41_after_delivery_at_35 :
    (VerifierAPIPoll
      (VerifierAPIAuthenticationResponse exampleEnv
        (IssuerPageDisplayQRURL exampleEnv exampleServer 0 (Ctx.forState "id-1" "")
          exampleRnd).1
        (35 * Second) (deliverA exampleToken)).1
      (41 * Second) (Ctx.forState exampleToken "")).2.reply = .SendString "VC-A" ∧
    (VerifierAPIPoll
      (VerifierAPIAuthenticationResponse exampleEnv
        (IssuerPageDisplayQRURL exampleEnv exampleServer 0 (Ctx.forState "id-1" "")
          exampleRnd).1
        (35 * Second) (deliverA exampleToken)).1
      (41 * Second) (Ctx.forState exampleToken "")).2.reply ≠ .SendString "expired" := by
  refine ⟨by decide, by decide⟩

/-- C20, amended: for an exchange started at instant 0 by
`IssuerPageDisplayQRURL` (TTL 40 seconds) and a delivery at an instant `d`, the
poll at second 41 answers `expired` when the renewed TTL of ten seconds has
elapsed by then (`d + 10 s ≤ 41 s`, that is `d ≤ 31 s`); when it has not
(`31 s < d`), the poll answers the delivered payload, if this is not empty. -/
theorem poll_at_41_after_delivery (env : Env) (s : Server) (c cd cp : Ctx) (rnd : List Byte)
    (d : Time) (p : String) (cred : YAML)
    (hcd : cd.Query "state" = generateNonce rnd) (hcp : cp.Params "state" = generateNonce rnd)
    (hparse : env.ParseJson cd.Body = .ok cred) (hcred : cred.String "credential" = p) :
    (d + 10 * Second ≤ 41 * Second →
      (VerifierAPIPoll
        (VerifierAPIAuthenticationResponse env (IssuerPageDisplayQRURL env s 0 c rnd).1 d cd).1
        (41 * Second) cp).2.reply = .SendString "expired") ∧
    (41 * Second < d + 10 * Second → p ≠ "" →
      (VerifierAPIPoll
        (VerifierAPIAuthenticationResponse env (IssuerPageDisplayQRURL env s 0 c rnd).1 d cd).1
        (41 * Second) cp).2.reply = .SendString p) := by
  rw [deliver_of_parsed env _ d cd cred hparse]
  have hdb : (((IssuerPageDisplayQRURL env s 0 c rnd).1.storage.Set d (cd.Query "state")
      (cred.String "credential") (10 * Second)).db (cp.Params "state")) =
      some ⟨p, d + 10 * Second⟩ := by
    simp [Storage.Set, hcd, hcp, hcred]
  refine ⟨fun hl => ?_, fun hl hp => ?_⟩
  · rw [poll_of_expired _ (41 * Second) cp ⟨p, d + 10 * Second⟩ hdb hl]
    rfl
  · rw [poll_of_live _ (41 * Second) cp ⟨p, d + 10 * Second⟩ hdb hl hp]
    rfl

/-- Witness of the amended C20: `VC-A` delivered at second 31 is expired at
second 41; delivered at second 32 it is still answered. -/
theorem poll_at_41_after_delivery_witness :
    (VerifierAPIPoll
      (VerifierAPIAuthenticationResponse exampleEnv
        (IssuerPageDisplayQRURL exampleEnv exampleServer 0 (Ctx.forState "id-1" "")
          exampleRnd).1
        (31 * Second) (deliverA exampleToken)).1
      (41 * Second) (Ctx.forState exampleToken "")).2.reply = .SendString "expired" ∧
    (VerifierAPIPoll
      (VerifierAPIAuthenticationResponse exampleEnv
        (IssuerPageDisplayQRURL exampleEnv exampleServer 0 (Ctx.forState "id-1" "")
          exampleRnd).1
        (32 * Second) (deliverA exampleToken)).1
      (41 * Second) (Ctx.forState exampleToken "")).2.reply = .SendString "VC-A" :=
  ⟨(poll_at_41_after_delivery exampleEnv exampleServer (Ctx.forState "id-1" "")
      (deliverA exampleToken) (Ctx.forState exampleToken "") exampleRnd (31 * Second) "VC-A"
      ⟨[("credential", "VC-A")]⟩ (by decide) (by decide) (by rfl) (by decide)).1 (by decide),
    (poll_at_41_after_delivery exampleEnv exampleServer (Ctx.forState "id-1" "")
      (deliverA exampleToken) (Ctx.forState exampleToken "") exampleRnd (32 * Second) "VC-A"
      ⟨[("credential", "VC-A")]⟩ (by decide) (by decide) (by rfl) (by decide)).2
      (by decide) (by decide)⟩

/-! ## Lemmas on byte slices and their JSON encoding -/

set_option maxRecDepth 100000 in
theorem byte_of_char_of_byte : ∀ x : Byte, (Fin.ofNat (Char.ofNat x.val).toNat : Byte) = x := by
  decide

/-- The conversion to a string loses nothing: `[]byte(string(b)) = b`. -/
theorem stringToBytes_bytesToString (b : List Byte) : stringToBytes (bytesToString b) = b := by
  simp only [stringToBytes, bytesToString, List.map_map]
  induction b with
  | nil => rfl
  | cons x xs ih =>
    simp only [List.map_cons, Function.comp_apply, byte_of_char_of_byte, ih]

theorem bytesToString_injective (b1 b2 : List Byte) (h : bytesToString b1 = bytesToString b2) :
    b1 = b2 := by
  rw [← stringToBytes_bytesToString b1, ← stringToBytes_bytesToString b2, h]

theorem decStd_encStd_fin : ∀ i : Fin 64, decStd (encStd i.val) = some i.val := by decide

theorem decStd_encStd (i : Nat) (h : i < 64) : decStd (encStd i) = some i :=
  decStd_encStd_fin ⟨i, h⟩

theorem encStd_ne_padding_fin : ∀ i : Fin 64, encStd i.val ≠ StdPadding := by decide

theorem encStd_ne_padding (i : Nat) (h : i < 64) : encStd i ≠ StdPadding :=
  encStd_ne_padding_fin ⟨i, h⟩

theorem decStd_padding : decStd StdPadding = none := by decide

/-- Decoding undoes encoding in the standard encoding, for every byte sequence
and at every position of the input. -/
theorem StdDecode_go_StdEncode (total : Nat) : ∀ (xs : List Byte) (si : Nat),
    StdDecode.go total (StdEncode xs) si [] = .ok xs
  | [], si => by simp [StdEncode, StdDecode.go]
  | [a], si => by
    obtain ⟨h1, h2⟩ := sextets1 a.val
    have ha := a.isLt
    simp only [StdEncode, StdDecode.go, h1, h2]
    rw [decStd_encStd _ (by omega)]
    simp only [List.nil_append, StdDecode.go]
    rw [decStd_encStd _ (by omega)]
    simp only [List.singleton_append, StdDecode.go, decStd_padding]
    have hp : ¬ (StdPadding.val = 10 ∨ StdPadding.val = 13) := by decide
    simp only [hp, if_false, ne_eq, not_true_eq_false, skipNewlines]
    rw [ofNat_byte _ a (by omega)]
  | [a, b], si => by
    obtain ⟨h1, h2, h3⟩ := sextets2 a.val b.val b.isLt
    have ha := a.isLt
    have hb := b.isLt
    simp only [StdEncode, StdDecode.go, h1, h2, h3]
    rw [decStd_encStd _ (by omega)]
    simp only [List.nil_append, StdDecode.go]
    rw [decStd_encStd _ (by omega)]
    simp only [List.singleton_append, StdDecode.go]
    rw [decStd_encStd _ (by omega)]
    simp only [List.cons_append, List.nil_append, StdDecode.go, decStd_padding]
    have hp : ¬ (StdPadding.val = 10 ∨ StdPadding.val = 13) := by decide
    simp only [hp, if_false, ne_eq, not_true_eq_false, skipNewlines]
    rw [ofNat_byte _ a (by omega), ofNat_byte _ b (by omega)]
  | a :: b :: c :: rest, si => by
    obtain ⟨h1, h2, h3, h4⟩ := sextets3 a.val b.val c.val b.isLt c.isLt
    have ha := a.isLt
    have hb := b.isLt
    have hc := c.isLt
    simp only [StdEncode, StdDecode.go, h1, h2, h3, h4]
    rw [decStd_encStd _ (by omega)]
    simp only [List.nil_append, StdDecode.go]
    rw [decStd_encStd _ (by omega)]
    simp only [List.singleton_append, StdDecode.go]
    rw [decStd_encStd _ (by omega)]
    simp only [List.cons_append, List.nil_append, StdDecode.go]
    rw [decStd_encStd _ (by omega)]
    simp only [StdDecode_go_StdEncode total rest]
    rw [ofNat_byte _ a (by omega), ofNat_byte _ b (by omega), ofNat_byte _ c (by omega)]

theorem StdDecode_StdEncode (xs : List Byte) : StdDecode (StdEncode xs) = .ok xs :=
  StdDecode_go_StdEncode _ xs 0

theorem encStd_plain_fin : ∀ i : Fin 64, plainByte (encStd i.val) := by decide

theorem encStd_plain (i : Nat) (h : i < 64) : plainByte (encStd i) := encStd_plain_fin ⟨i, h⟩

theorem StdEncode_plain : ∀ xs : List Byte, ∀ c ∈ StdEncode xs, plainByte c
  | [] => by simp [StdEncode]
  | [a] => by
    have hp : plainByte StdPadding := by decide
    intro c hc
    simp only [StdEncode, and_0x3F, List.mem_cons, List.mem_singleton, List.not_mem_nil,
      or_false] at hc
    rcases hc with h | h | h | h <;> subst h <;>
      first | exact hp | exact encStd_plain _ (Nat.mod_lt _ (by omega))
  | [a, b] => by
    have hp : plainByte StdPadding := by decide
    intro c hc
    simp only [StdEncode, and_0x3F, List.mem_cons, List.mem_singleton, List.not_mem_nil,
      or_false] at hc
    rcases hc with h | h | h | h <;> subst h <;>
      first | exact hp | exact encStd_plain _ (Nat.mod_lt _ (by omega))
  | a :: b :: c :: rest => by
    intro x hx
    simp only [StdEncode, and_0x3F, List.mem_cons] at hx
    rcases hx with h | h | h | h | h
    · subst h; exact encStd_plain _ (Nat.mod_lt _ (by omega))
    · subst h; exact encStd_plain _ (Nat.mod_lt _ (by omega))
    · subst h; exact encStd_plain _ (Nat.mod_lt _ (by omega))
    · subst h; exact encStd_plain _ (Nat.mod_lt _ (by omega))
    · exact StdEncode_plain rest x h

/-- Inside a string literal the scanner reads on over plain bytes. -/
theorem checkValid_loop_plain (ps : List ParseState) (rest : List Byte) :
    ∀ l : List Byte, (∀ c ∈ l, plainByte c) →
      checkValid.loop (l ++ rest) ⟨.stateInString, ps⟩ =
        checkValid.loop rest ⟨.stateInString, ps⟩
  | [], _ => rfl
  | c :: l, h => by
    obtain ⟨h1, h2, h3, _⟩ := h c (List.mem_cons_self _ _)
    have h3 : ¬ c.val < 32 := by omega
    simp only [List.cons_append, checkValid.loop, scanner.next, h1, h2, h3, if_false]
    exact checkValid_loop_plain ps rest l fun x hx => h x (List.mem_cons_of_mem _ hx)

/-- Plain bytes up to the closing quote are copied as they are. -/
theorem unquoteBytes_plain (rest : List Byte) :
    ∀ l : List Byte, (∀ c ∈ l, plainByte c) → unquoteBytes (l ++ 34 :: rest) = l
  | [], _ => by
    rw [List.nil_append, unquoteBytes.eq_def]
    rfl
  | c :: l, h => by
    obtain ⟨h1, h2, _, h4⟩ := h c (List.mem_cons_self _ _)
    rw [List.cons_append, unquoteBytes.eq_def]
    simp only [h1, h2, h4, if_false, if_true]
    rw [unquoteBytes_plain rest l fun x hx => h x (List.mem_cons_of_mem _ hx)]

/-- The JSON text of a byte slice is not empty. -/
theorem jsonMarshalBytes_length_pos (raw : List Byte) : 0 < (jsonMarshalBytes raw).length := by
  simp [jsonMarshalBytes]

/-- The JSON text of a byte slice is one JSON value. -/
theorem checkValid_jsonMarshalBytes (raw : List Byte) : checkValid (jsonMarshalBytes raw) = none := by
  have h := checkValid_loop_plain [] [jsonQuote] (StdEncode raw) (StdEncode_plain raw)
  simp only [checkValid, jsonMarshalBytes, checkValid.loop]
  have h0 : scanner.next ⟨.stateBeginValue, []⟩ jsonQuote = .ok ⟨.stateInString, []⟩ := by rfl
  rw [h0]
  simp only [h]
  decide

/-- Unmarshalling the JSON text of a byte slice gives the slice back, whatever
the field held. -/
theorem jsonUnmarshalBytes_jsonMarshalBytes (raw field : List Byte) :
    jsonUnmarshalBytes (jsonMarshalBytes raw) field = (raw, none) := by
  have hv := checkValid_jsonMarshalBytes raw
  have hu := unquoteBytes_plain [] (StdEncode raw) (StdEncode_plain raw)
  simp only [jsonUnmarshalBytes, hv]
  simp only [jsonMarshalBytes]
  have hs : isSpace jsonQuote = false := by decide
  rw [List.dropWhile_cons_of_neg (by simp [hs])]
  have h1 : ¬ jsonQuote.val = 110 := by decide
  have h2 : jsonQuote.val = 34 := by decide
  simp only [h1, h2, if_false, if_true]
  have : StdEncode raw ++ [jsonQuote] = StdEncode raw ++ 34 :: [] := rfl
  rw [this, hu, StdDecode_StdEncode]
  rfl

/-! ## Lemmas on the entity `Credential` and the vault -/

/-- Decoding the column `raw` that holds the JSON text of `raw` sets the field
`Raw` to `raw` and nothing else. -/
theorem assignColumn_raw (c : Credential) (raw : List Byte) :
    c.assignColumn "raw" (.Bytes (some (jsonMarshalBytes raw))) =
      ({ c with Raw := raw }, none) := by
  have hlen := jsonMarshalBytes_length_pos raw
  simp [Credential.assignColumn, hlen, jsonUnmarshalBytes_jsonMarshalBytes]

/-- Decoding a stored row gives the entity with the identifier and the raw
bytes of the row. -/
theorem assignValues_scan (id type : String) (raw : List Byte) (t1 t2 : Time) :
    Credential.zero.assignValues credentialColumns
      (CredentialRow.scan ⟨id, type, jsonMarshalBytes raw, t1, t2⟩) =
      (⟨id, type, raw, t1, t2, none, none⟩, none) := by
  have hlen := jsonMarshalBytes_length_pos raw
  simp [Credential.assignValues, Credential.assignLoop, Credential.assignColumn,
    credentialColumns, CredentialRow.scan, Credential.zero, hlen,
    jsonUnmarshalBytes_jsonMarshalBytes]

theorem find?_append_new (rows : List CredentialRow) (row : CredentialRow)
    (h : rows.any (fun r => decide (r.id = row.id)) = false) :
    (rows ++ [row]).find? (fun r => decide (r.id = row.id)) = some row := by
  induction rows with
  | nil => simp
  | cons x xs ih =>
    simp only [List.any_cons, Bool.or_eq_false_iff] at h
    simp only [List.cons_append, List.find?_cons, h.1]
    exact ih h.2

/-- A credential that has been created is read back with its identifier and,
byte for byte, its raw content. -/
theorem CredentialGet_of_CredentialCreate (v v2 : Vault) (now : Time) (id : String)
    (raw : List Byte) (h : v.CredentialCreate now id raw = .ok v2) :
    v2.credentials = v.credentials ++ [⟨id, "", jsonMarshalBytes raw, now, now⟩] ∧
    v2.CredentialGet id = .ok ⟨id, "", raw, now, now, none, none⟩ := by
  unfold Vault.CredentialCreate at h
  split at h
  · cases h
  · rename_i hany
    have hv2 : v2 = ⟨v.credentials ++ [⟨id, "", jsonMarshalBytes raw, now, now⟩]⟩ := by
      cases h; rfl
    subst hv2
    refine ⟨rfl, ?_⟩
    have hfind := find?_append_new v.credentials ⟨id, "", jsonMarshalBytes raw, now, now⟩
      (by simpa using hany)
    simp only [Vault.CredentialGet]
    rw [hfind]
    simp only [assignValues_scan]

/-! ## Stored credentials -/

/-- What `IssuerPageNewCredentialFormPost` does once the form is complete, the
issuer DID is known, the signing service has replied without transport error
and the reply parses. -/
theorem new_credential_of_reply (b : Backend) (v : Vault) (now : Time)
    (newCred : NewCredentialForm) (issuerDID : String) (parsed : YAML)
    (hfields : ¬ (newCred.Email = "" ∨ newCred.FirstName = "" ∨ newCred.FamilyName = "" ∨
      newCred.Roles = "" ∨ newCred.Target = ""))
    (hdid : b.GetDIDForUser (b.cfg "issuer.id") = .ok issuerDID)
    (herr : (b.agent (issueRequest b newCred issuerDID)).errors = [])
    (hparse : b.ParseJson (bytesToString (b.agent (issueRequest b newCred issuerDID)).body) =
      .ok parsed) :
    IssuerPageNewCredentialFormPost b v now (.ok newCred) =
      if parsed.String "id" = "" then
        (v, Response.plain (.Err "id field not found in credential"),
          [issueRequest b newCred issuerDID])
      else
        match v.CredentialCreate now (parsed.String "id")
            (b.agent (issueRequest b newCred issuerDID)).body with
        | .error err => (v, Response.plain (.Err err), [issueRequest b newCred issuerDID])
        | .ok v2 =>
          (v2, Response.plain (.Render "creddetails"
            (prefixBindings ++
              [("claims", b.prettyFormatJSON (b.agent (issueRequest b newCred issuerDID)).body),
                ("prefix", issuerPrefix)])), [issueRequest b newCred issuerDID]) := by
  simp only [IssuerPageNewCredentialFormPost, if_neg hfields, hdid, herr, hparse,
    List.length_nil, gt_iff_lt, Nat.lt_irrefl, if_false, length_eq_zero_iff]

/-- C14: whenever `IssuerPageNewCredentialFormPost` changes the vault, it has
added exactly one credential, whose identifier is the non-empty `id` field of
the signing service's response and whose raw content, as read back from the
vault, is the whole response body; and when the response parses but has no
non-empty `id` field, the handler returns the error `id field not found in
credential` and leaves the vault as it was. -/
theorem stored_credential_keyed_by_response_id (b : Backend) (v : Vault) (now : Time)
    (form : Except String NewCredentialForm) :
    ((IssuerPageNewCredentialFormPost b v now form).1 = v ∨
      ∃ newCred issuerDID parsed,
        form = .ok newCred ∧
        b.GetDIDForUser (b.cfg "issuer.id") = .ok issuerDID ∧
        b.ParseJson (bytesToString (b.agent (issueRequest b newCred issuerDID)).body) =
          .ok parsed ∧
        parsed.String "id" ≠ "" ∧
        (IssuerPageNewCredentialFormPost b v now form).1.credentials =
          v.credentials ++ [⟨parsed.String "id", "",
            jsonMarshalBytes (b.agent (issueRequest b newCred issuerDID)).body, now, now⟩] ∧
        (IssuerPageNewCredentialFormPost b v now form).1.CredentialGet (parsed.String "id") =
          .ok ⟨parsed.String "id", "", (b.agent (issueRequest b newCred issuerDID)).body,
            now, now, none, none⟩) ∧
    (∀ newCred issuerDID parsed,
      form = .ok newCred →
      ¬ (newCred.Email = "" ∨ newCred.FirstName = "" ∨ newCred.FamilyName = "" ∨
        newCred.Roles = "" ∨ newCred.Target = "") →
      b.GetDIDForUser (b.cfg "issuer.id") = .ok issuerDID →
      (b.agent (issueRequest b newCred issuerDID)).errors = [] →
      b.ParseJson (bytesToString (b.agent (issueRequest b newCred issuerDID)).body) =
        .ok parsed →
      parsed.String "id" = "" →
      IssuerPageNewCredentialFormPost b v now form =
        (v, ⟨.Err "id field not found in credential", [], []⟩,
          [issueRequest b newCred issuerDID])) := by
  constructor
  · cases form with
    | error err => left; rfl
    | ok newCred =>
      by_cases hfields : newCred.Email = "" ∨ newCred.FirstName = "" ∨
          newCred.FamilyName = "" ∨ newCred.Roles = "" ∨ newCred.Target = ""
      · left; simp only [IssuerPageNewCredentialFormPost, if_pos hfields]
      · cases hdid : b.GetDIDForUser (b.cfg "issuer.id") with
        | error err => left; simp only [IssuerPageNewCredentialFormPost, if_neg hfields, hdid]
        | ok issuerDID =>
          cases herr : (b.agent (issueRequest b newCred issuerDID)).errors with
          | cons e es =>
            left
            simp only [IssuerPageNewCredentialFormPost, if_neg hfields, hdid, herr,
              List.length_cons, gt_iff_lt, Nat.zero_lt_succ, if_true]
          | nil =>
            cases hparse : b.ParseJson
                (bytesToString (b.agent (issueRequest b newCred issuerDID)).body) with
            | error err =>
              left
              simp only [IssuerPageNewCredentialFormPost, if_neg hfields, hdid, herr, hparse,
                List.length_nil, gt_iff_lt, Nat.lt_irrefl, if_false]
            | ok parsed =>
              rw [new_credential_of_reply b v now newCred issuerDID parsed hfields hdid herr
                hparse]
              by_cases hid : parsed.String "id" = ""
              · left; simp only [if_pos hid]
              · simp only [if_neg hid]
                cases hcreate : v.CredentialCreate now (parsed.String "id")
                    (b.agent (issueRequest b newCred issuerDID)).body with
                | error err => left; rfl
                | ok v2 =>
                  right
                  obtain ⟨h1, h2⟩ := CredentialGet_of_CredentialCreate v v2 now _ _ hcreate
                  exact ⟨newCred, issuerDID, parsed, rfl, rfl, hparse, hid, h1, h2⟩
  · intro newCred issuerDID parsed hform hfields hdid herr hparse hid
    subst hform
    rw [new_credential_of_reply b v now newCred issuerDID parsed hfields hdid herr hparse]
    simp only [if_pos hid, Response.plain]

/-- Witness of C14: the signing service answers the example form with a body
that carries the identifier `vc-1`, resp. with a body without identifier. -/
theorem stored_credential_keyed_by_response_id_witness :
    (IssuerPageNewCredentialFormPost (exampleBackend 200 exampleIssuedBody) exampleVault 0
      (.ok exampleForm)).1.CredentialGet "vc-1" =
      .ok ⟨"vc-1", "", exampleIssuedBody, 0, 0, none, none⟩ ∧
    IssuerPageNewCredentialFormPost (exampleBackend 200 exampleAnonymousBody) exampleVault 0
      (.ok exampleForm) =
      (exampleVault, ⟨.Err "id field not found in credential", [], []⟩,
        [issueRequest (exampleBackend 200 exampleAnonymousBody) exampleForm "did:key:issuer"]) :=
  ⟨by rfl,
    (stored_credential_keyed_by_response_id (exampleBackend 200 exampleAnonymousBody)
      exampleVault 0 (.ok exampleForm)).2 exampleForm "did:key:issuer" ⟨[]⟩ rfl (by decide)
      rfl rfl (by rfl) (by decide)⟩

/-- C15: for every byte sequence `raw`, `Credential.assignValues` applied to the
column `raw` that holds the JSON text of `raw` sets `Credential.Raw` to `raw`
(and a column holding `null`, the text of a nil slice, sets it to the empty
sequence) and changes no other field; a credential created in the vault with
the content `raw` is read back with `Raw = raw`, and `IssuerAPICredential`
answers the string of exactly those bytes. -/
theorem credential_raw_round_trip (raw : List Byte) (c : Credential) (v v2 : Vault)
    (now : Time) (id : String) (ctx : Ctx)
    (hcreate : v.CredentialCreate now id raw = .ok v2) (hctx : ctx.Params "id" = id) :
    c.assignValues ["raw"] [.Bytes (some (jsonMarshalBytes raw))] =
      ({ c with Raw := raw }, none) ∧
    c.assignValues ["raw"] [.Bytes (some (stringToBytes "null"))] =
      ({ c with Raw := [] }, none) ∧
    v2.CredentialGet id = .ok ⟨id, "", raw, now, now, none, none⟩ ∧
    IssuerAPICredential v2 ctx = ⟨.SendString (bytesToString raw), [], []⟩ ∧
    stringToBytes (bytesToString raw) = raw := by
  obtain ⟨_, hget⟩ := CredentialGet_of_CredentialCreate v v2 now id raw hcreate
  refine ⟨?_, ?_, hget, ?_, stringToBytes_bytesToString raw⟩
  · simp [Credential.assignValues, Credential.assignLoop, assignColumn_raw]
  · have hnull : jsonUnmarshalBytes (stringToBytes "null") c.Raw = ([], none) := by
      rfl
    have hlen : 0 < (stringToBytes "null").length := by decide
    simp [Credential.assignValues, Credential.assignLoop, Credential.assignColumn, hnull, hlen]
  · simp only [IssuerAPICredential, hctx, hget, Response.plain]

/-- Witness of C15: the bytes `0, 255, 16` stored under `vc-1` in the empty
vault. -/
theorem credential_raw_round_trip_witness :
    Credential.zero.assignValues ["raw"] [.Bytes (some (jsonMarshalBytes [0, 255, 16]))] =
      ({ Credential.zero with Raw := [0, 255, 16] }, none) ∧
    Credential.zero.assignValues ["raw"] [.Bytes (some (stringToBytes "null"))] =
      ({ Credential.zero with Raw := [] }, none) ∧
    Vault.CredentialGet ⟨[⟨"vc-1", "", jsonMarshalBytes [0, 255, 16], 5, 5⟩]⟩ "vc-1" =
      .ok ⟨"vc-1", "", [0, 255, 16], 5, 5, none, none⟩ ∧
    IssuerAPICredential ⟨[⟨"vc-1", "", jsonMarshalBytes [0, 255, 16], 5, 5⟩]⟩
      (Ctx.forId "vc-1") = ⟨.SendString (bytesToString [0, 255, 16]), [], []⟩ ∧
    stringToBytes (bytesToString [0, 255, 16]) = [0, 255, 16] :=
  credential_raw_round_trip [0, 255, 16] Credential.zero exampleVault
    ⟨[⟨"vc-1", "", jsonMarshalBytes [0, 255, 16], 5, 5⟩]⟩ 5 "vc-1" (Ctx.forId "vc-1")
    (by rfl) rfl

/-- The JSON text of the bytes `0, 255, 16` is the string `"AP8Q"`. -/
theorem jsonMarshalBytes_test_vector :
    jsonMarshalBytes [0, 255, 16] = stringToBytes "\"AP8Q\"" ∧
    jsonMarshalBytes [104, 105] = stringToBytes "\"aGk=\"" ∧
    jsonMarshalBytes [104] = stringToBytes "\"aA==\"" ∧
    jsonMarshalBytes [] = stringToBytes "\"\"" := by
  decide

/-! ## Responses of the signing service -/

/-- C16, the code at the failing input: the signing service answers with the
status 500 and no transport error. `IssuerPageNewCredentialFormPost` stores the
body under the identifier it carries and renders the page `creddetails`; the
three `CoreAPI` handlers send the body on with no error; only
`WalletPageSendCredential` looks at the status and reports it. -/
theorem non_2xx_reply_is_stored_and_forwarded :
    (IssuerPageNewCredentialFormPost (exampleBackend 500 exampleIssuedBody) exampleVault 0
      (.ok exampleForm)).1 = ⟨[⟨"vc-1", "", jsonMarshalBytes exampleIssuedBody, 0, 0⟩]⟩ ∧
    (IssuerPageNewCredentialFormPost (exampleBackend 500 exampleIssuedBody) exampleVault 0
      (.ok exampleForm)).2.1.reply =
      .Render "creddetails" (prefixBindings ++
        [("claims", "\x7b\n  \"id\": \"vc-1\"\n\x7d"), ("prefix", issuerPrefix)]) ∧
    (CoreAPICreateDID (exampleBackend 500 (stringToBytes "Internal Server Error"))).1 =
      ⟨.SendString "Internal Server Error", [], [("Content-Type", "application/json")]⟩ ∧
    (CoreAPIListCredentialTemplates
      (exampleBackend 500 (stringToBytes "Internal Server Error"))).1 =
      ⟨.SendString "Internal Server Error", [], [("Content-Type", "application/json")]⟩ ∧
    (CoreAPIGetCredentialTemplate (exampleBackend 404 (stringToBytes "Not Found"))
      (Ctx.forId "tpl-1")).1 =
      ⟨.SendString "Not Found", [], [("Content-Type", "application/json")]⟩ ∧
    (WalletPageSendCredential (exampleBackend 500 (stringToBytes "Internal Server Error"))
      ⟨[⟨"vc-1", "", jsonMarshalBytes exampleIssuedBody, 0, 0⟩]⟩
      ⟨fun _ => "", fun _ => "vc-1", "", "https", "wallet.example"⟩).1.reply =
      .Render "wallet_credentialsent" (prefixBindings ++
        [("prefix", verifierPrefix), ("error", "Error calling server: 500")]) := by
  refine ⟨by decide, by decide, by decide, by decide, by decide, by decide⟩

/-! ## Validation of the credential form -/

/-- C18: for a form that `c.BodyParser` has read, `IssuerPageNewCredentialFormPost`
answers the form page with the message `Enter all fields` if and only if at
least one of `firstName`, `familyName`, `email`, `target`, `roles` is the empty
string; in that case no request is sent to the signing service and the vault is
left as it was. -/
theorem new_credential_required_fields (b : Backend) (v : Vault) (now : Time)
    (newCred : NewCredentialForm) :
    ((IssuerPageNewCredentialFormPost b v now (.ok newCred)).2.1 =
        ⟨.Render "issuer_newcredential" [("Errormessage", "Enter all fields")], [], []⟩ ↔
      (newCred.FirstName = "" ∨ newCred.FamilyName = "" ∨ newCred.Email = "" ∨
        newCred.Target = "" ∨ newCred.Roles = "")) ∧
    ((newCred.FirstName = "" ∨ newCred.FamilyName = "" ∨ newCred.Email = "" ∨
        newCred.Target = "" ∨ newCred.Roles = "") →
      IssuerPageNewCredentialFormPost b v now (.ok newCred) =
        (v, ⟨.Render "issuer_newcredential" [("Errormessage", "Enter all fields")], [], []⟩,
          [])) := by
  have hperm : (newCred.FirstName = "" ∨ newCred.FamilyName = "" ∨ newCred.Email = "" ∨
      newCred.Target = "" ∨ newCred.Roles = "") ↔
      (newCred.Email = "" ∨ newCred.FirstName = "" ∨ newCred.FamilyName = "" ∨
        newCred.Roles = "" ∨ newCred.Target = "") := by
    constructor
    · rintro (h | h | h | h | h)
      · exact Or.inr (Or.inl h)
      · exact Or.inr (Or.inr (Or.inl h))
      · exact Or.inl h
      · exact Or.inr (Or.inr (Or.inr (Or.inr h)))
      · exact Or.inr (Or.inr (Or.inr (Or.inl h)))
    · rintro (h | h | h | h | h)
      · exact Or.inr (Or.inr (Or.inl h))
      · exact Or.inl h
      · exact Or.inr (Or.inl h)
      · exact Or.inr (Or.inr (Or.inr (Or.inr h)))
      · exact Or.inr (Or.inr (Or.inr (Or.inl h)))
  rw [hperm]
  by_cases hfields : newCred.Email = "" ∨ newCred.FirstName = "" ∨ newCred.FamilyName = "" ∨
      newCred.Roles = "" ∨ newCred.Target = ""
  · have hres : IssuerPageNewCredentialFormPost b v now (.ok newCred) =
        (v, ⟨.Render "issuer_newcredential" [("Errormessage", "Enter all fields")], [], []⟩,
          []) := by
      simp only [IssuerPageNewCredentialFormPost, if_pos hfields, Response.plain]
    exact ⟨⟨fun _ => hfields, fun _ => by rw [hres]⟩, fun _ => hres⟩
  · refine ⟨⟨fun h => ?_, fun h => absurd h hfields⟩, fun h => absurd h hfields⟩
    exfalso
    revert h
    simp only [IssuerPageNewCredentialFormPost, if_neg hfields]
    cases b.GetDIDForUser (b.cfg "issuer.id") with
    | error err => simp [Response.plain]
    | ok issuerDID =>
      simp only
      split
      · simp [Response.plain]
      · cases b.ParseJson (bytesToString (b.agent (issueRequest b newCred issuerDID)).body) with
        | error err => simp [Response.plain]
        | ok parsed =>
          simp only
          split
          · simp [Response.plain]
          · cases v.CredentialCreate now (parsed.String "id")
                (b.agent (issueRequest b newCred issuerDID)).body with
            | error err => simp [Response.plain]
            | ok v2 => simp [Response.plain]

/-- Witness of C18: the example form without its roles is answered with the
form page, and sends nothing; the complete example form is not. -/
theorem new_credential_required_fields_witness :
    IssuerPageNewCredentialFormPost (exampleBackend 200 exampleIssuedBody) exampleVault 0
      (.ok ⟨"Alice", "Doe", "alice@example.org", "did:key:target", ""⟩) =
      (exampleVault,
        ⟨.Render "issuer_newcredential" [("Errormessage", "Enter all fields")], [], []⟩, []) ∧
    (IssuerPageNewCredentialFormPost (exampleBackend 200 exampleIssuedBody) exampleVault 0
      (.ok exampleForm)).2.1 ≠
      ⟨.Render "issuer_newcredential" [("Errormessage", "Enter all fields")], [], []⟩ :=
  ⟨(new_credential_required_fields (exampleBackend 200 exampleIssuedBody) exampleVault 0
      ⟨"Alice", "Doe", "alice@example.org", "did:key:target", ""⟩).2 (by decide),
    fun h => absurd
      ((new_credential_required_fields (exampleBackend 200 exampleIssuedBody) exampleVault 0
        exampleForm).1.1 h) (by decide)⟩

/-! ## Process termination -/

/-- C19, refuted as stated: a request to the registered route `/stop` ends the
process with the status 0, and no response is sent, whether or not a panic is
in the air. -/
theorem stop_route_terminates_the_process :
    handle exampleWorld .stop (exampleRequest none) = .exited 0 ∧
    serve exampleWorld .stop (exampleRequest none) = (.exited 0, none) ∧
    serve exampleWorld .stop (exampleRequest (some "runtime error")) = (.exited 0, none) ∧
    (serve exampleWorld .stop (exampleRequest none)).1 ≠ .running := by
  refine ⟨by decide, by decide, by decide, by decide⟩

/-- C19, amended: for every request to every registered route other than
`/stop`, the handler that `run` registers either returns or panics, and never
ends the process; behind `recover.New` the process is still running after the
request and a response is sent: the one the handler returns, or, when a panic
is raised, the error made of the panic value. The handler of `/stop` ends the
process with the status 0. -/
theorem handlers_other_than_stop_keep_running (w : World) (route : Route) (req : Request)
    (h : route ≠ .stop) :
    (∀ code, handle w route req ≠ .exited code) ∧
    (∃ r, serve w route req = (.running, some r)) ∧
    (req.fault = none → ∃ r, handle w route req = .returned r ∧
      serve w route req = (.running, some r)) ∧
    (∀ value, req.fault = some value →
      handle w route req = .panicked value ∧
      serve w route req = (.running, some (Response.plain (.Err value)))) ∧
    serve w .stop req = (.exited 0, none) := by
  have hcall : ∀ r : Response, (∀ code, req.call r ≠ .exited code) ∧
      (∃ r2, recoverNew (req.call r) = .returned r2) ∧
      (req.fault = none → req.call r = .returned r) ∧
      (∀ value, req.fault = some value → req.call r = .panicked value) := by
    intro r
    cases hf : req.fault with
    | none => simp [Request.call, hf, recoverNew]
    | some value => simp [Request.call, hf, recoverNew]
  have hcsrf : ∀ r : Response, (∀ code, req.csrfHandler (req.call r) ≠ .exited code) ∧
      (∃ r2, recoverNew (req.csrfHandler (req.call r)) = .returned r2) ∧
      (req.fault = none → ∃ r2, req.csrfHandler (req.call r) = .returned r2) ∧
      (∀ value, req.fault = some value → req.csrfHandler (req.call r) = .panicked value) := by
    intro r
    cases hc : req.csrf with
    | none =>
      simp only [Request.csrfHandler, hc]
      exact ⟨(hcall r).1, (hcall r).2.1, fun hf => ⟨r, (hcall r).2.2.1 hf⟩, (hcall r).2.2.2⟩
    | some err =>
      simp only [Request.csrfHandler, hc]
      exact ⟨(hcall _).1, (hcall _).2.1, fun hf => ⟨_, (hcall _).2.2.1 hf⟩, (hcall _).2.2.2⟩
  have key : ∀ o : Outcome, (∀ code, o ≠ .exited code) →
      (∃ r2, recoverNew o = .returned r2) →
      (req.fault = none → ∃ r2, o = .returned r2) →
      (∀ value, req.fault = some value → o = .panicked value) →
      (∀ code, o ≠ .exited code) ∧
      (∃ r, (match recoverNew o with
        | .returned r => (Process.running, some r)
        | .panicked _ => (.exited 2, none)
        | .exited code => (.exited code, none)) = (.running, some r)) ∧
      (req.fault = none → ∃ r, o = .returned r ∧
        (match recoverNew o with
        | .returned r => (Process.running, some r)
        | .panicked _ => (.exited 2, none)
        | .exited code => (.exited code, none)) = (.running, some r)) ∧
      (∀ value, req.fault = some value → o = .panicked value ∧
        (match recoverNew o with
        | .returned r => (Process.running, some r)
        | .panicked _ => (.exited 2, none)
        | .exited code => (.exited code, none)) =
          (.running, some (Response.plain (.Err value)))) := by
    intro o h1 h2 h3 h4
    refine ⟨h1, ?_, ?_, ?_⟩
    · obtain ⟨r2, hr2⟩ := h2
      exact ⟨r2, by rw [hr2]⟩
    · intro hf
      obtain ⟨r2, hr2⟩ := h3 hf
      exact ⟨r2, hr2, by rw [hr2]; rfl⟩
    · intro value hf
      refine ⟨h4 value hf, ?_⟩
      rw [h4 value hf]
      rfl
  have hplain : ∀ r : Response, _ := fun r =>
    key (req.call r) (hcall r).1 (hcall r).2.1 (fun hf => ⟨r, (hcall r).2.2.1 hf⟩)
      (hcall r).2.2.2
  have hguard : ∀ r : Response, _ := fun r =>
    key (req.csrfHandler (req.call r)) (hcsrf r).1 (hcsrf r).2.1 (hcsrf r).2.2.1 (hcsrf r).2.2.2
  have hstop : serve w .stop req = (.exited 0, none) := rfl
  cases route with
  | stop => exact absurd rfl h
  | issuerNewCredentialDisplay =>
    obtain ⟨a, b, c, d⟩ := hguard (IssuerPageNewCredentialFormDisplay req)
    exact ⟨a, b, c, d, hstop⟩
  | issuerNewCredentialPost =>
    obtain ⟨a, b, c, d⟩ := hguard (IssuerPageNewCredentialFormPost w.b w.v w.now req.form).2.1
    exact ⟨a, b, c, d, hstop⟩
  | _ =>
    obtain ⟨a, b, c, d⟩ := hplain _
    exact ⟨a, b, c, d, hstop⟩

/-- Witness of the amended C19: a panic while the handler of the poll route
runs, and a poll without panic. -/
theorem handlers_other_than_stop_keep_running_witness :
    serve exampleWorld .verifierPoll (exampleRequest (some "runtime error")) =
      (.running, some (Response.plain (.Err "runtime error"))) ∧
    serve exampleWorld .verifierPoll (exampleRequest none) =
      (.running, some (Response.plain (.SendString "expired"))) ∧
    ∃ r, serve exampleWorld .issuerNewCredentialPost (exampleRequest none) =
      (.running, some r) :=
  ⟨((handlers_other_than_stop_keep_running exampleWorld .verifierPoll
      (exampleRequest (some "runtime error")) (by decide)).2.2.2.1 "runtime error" rfl).2,
    by decide,
    (handlers_other_than_stop_keep_running exampleWorld .issuerNewCredentialPost
      (exampleRequest none) (by decide)).2.1⟩

/-! ## The lifetime of a reservation and its comment -/

/-- C21, the code at the failing input: each start handler is called at
instant 0 on the freshly started server. The comment of each says that the entry
"will expire in 2 minutes"; the entry written by `IssuerPageDisplayQRURL` and by
`VerifierPageDisplayQR` expires after 40 seconds and the one written by
`VerifierPageDisplayQRSIOP` after 200 seconds, and none after `2 * Minute`. -/
theorem start_handlers_do_not_reserve_two_minutes :
    (IssuerPageDisplayQRURL exampleEnv exampleServer 0 (Ctx.forState "id-1" "")
      exampleRnd).1.storage.db exampleToken = some ⟨"pending", 40 * Second⟩ ∧
    (VerifierPageDisplayQR exampleEnv exampleServer 0 (Ctx.forState "id-1" "")
      exampleRnd).1.storage.db exampleToken = some ⟨"pending", 40 * Second⟩ ∧
    (VerifierPageDisplayQRSIOP exampleEnv exampleServer 0 (Ctx.forState "id-1" "")
      exampleRnd exampleRnd).1.storage.db exampleToken = some ⟨"pending", 200 * Second⟩ ∧
    40 * Second ≠ 2 * Minute ∧ 200 * Second ≠ 2 * Minute ∧ 2 * Minute = 120 * Second ∧
    (IssuerPageDisplayQRURL exampleEnv exampleServer 0 (Ctx.forState "id-1" "")
      exampleRnd).1.storage.Get (41 * Second) exampleToken = ("", false) ∧
    (VerifierPageDisplayQRSIOP exampleEnv exampleServer 0 (Ctx.forState "id-1" "")
      exampleRnd exampleRnd).1.storage.Get (121 * Second) exampleToken = ("pending", true) := by
  refine ⟨by decide, by decide, by decide, by decide, by decide, by decide, by decide,
    by decide⟩

/-! ## The roles of a new credential -/

theorem splitChars_ne_nil (sep : Char) : ∀ l : List Char, splitChars sep l ≠ []
  | [] => by simp [splitChars]
  | ch :: rest => by
    unfold splitChars
    split
    · simp
    · split <;> simp

/-- Splitting gives one piece more than there are separators. -/
theorem splitChars_length (sep : Char) : ∀ l : List Char,
    (splitChars sep l).length = l.count sep + 1
  | [] => by simp [splitChars]
  | ch :: rest => by
    have ih := splitChars_length sep rest
    have hne := splitChars_ne_nil sep rest
    unfold splitChars
    by_cases h : ch = sep
    · subst h
      simp [ih]
    · have h2 : ¬ (ch == sep) = true := by simpa using h
      simp only [if_neg h, List.count_cons, h2, if_false, Nat.add_zero]
      cases hs : splitChars sep rest with
      | nil => exact absurd hs hne
      | cons seg segs =>
        rw [hs] at ih
        simpa using ih

/-- Joining the pieces with the separator gives the sequence back. -/
theorem splitChars_intercalate (sep : Char) : ∀ l : List Char,
    List.intercalate [sep] (splitChars sep l) = l
  | [] => by simp [splitChars, List.intercalate]
  | ch :: rest => by
    have ih := splitChars_intercalate sep rest
    have hne := splitChars_ne_nil sep rest
    unfold splitChars
    by_cases h : ch = sep
    · subst h
      simp only [if_true]
      cases hs : splitChars ch rest with
      | nil => exact absurd hs hne
      | cons seg segs =>
        rw [hs] at ih
        simp only [List.intercalate] at ih ⊢
        cases segs with
        | nil =>
          simp only [List.intersperse] at ih ⊢
          rw [← ih]
          simp
        | cons seg2 segs2 =>
          simp only [List.intersperse] at ih ⊢
          rw [← ih]
          simp
    · simp only [if_neg h]
      cases hs : splitChars sep rest with
      | nil => exact absurd hs hne
      | cons seg segs =>
        rw [hs] at ih
        cases segs with
        | nil =>
          simp only [List.intercalate, List.intersperse] at ih ⊢
          rw [← ih]
          simp
        | cons seg2 segs2 =>
          simp only [List.intercalate, List.intersperse] at ih ⊢
          rw [← ih]
          simp

/-- No piece contains the separator. -/
theorem splitChars_no_sep (sep : Char) : ∀ (l : List Char), ∀ seg ∈ splitChars sep l,
    sep ∉ seg
  | [], seg, hseg => by
    simp only [splitChars, List.mem_singleton] at hseg
    subst hseg
    simp
  | ch :: rest, seg, hseg => by
    have ih := splitChars_no_sep sep rest
    have hne := splitChars_ne_nil sep rest
    unfold splitChars at hseg
    by_cases h : ch = sep
    · simp only [if_pos h, List.mem_cons] at hseg
      rcases hseg with hseg | hseg
      · subst hseg; simp
      · exact ih seg hseg
    · simp only [if_neg h] at hseg
      cases hs : splitChars sep rest with
      | nil => exact absurd hs hne
      | cons seg1 segs =>
        rw [hs] at hseg ih
        simp only [List.mem_cons] at hseg
        rcases hseg with hseg | hseg
        · subst hseg
          have h1 := ih seg1 (List.mem_cons_self _ _)
          simp only [List.mem_cons, not_or]
          exact ⟨fun hh => h hh.symm, h1⟩
        · exact ih seg (List.mem_cons_of_mem _ hseg)

theorem intercalate_cons_eq (sep : List Char) (a : List Char) : ∀ l : List (List Char),
    List.intercalate sep (a :: l) = a ++ (l.map fun x => sep ++ x).flatten
  | [] => by simp [List.intercalate, List.intersperse]
  | x :: xs => by
    have ih := intercalate_cons_eq sep x xs
    simp only [List.intercalate, List.intersperse, List.flatten_cons, List.map_cons] at ih ⊢
    rw [ih]
    simp

theorem intercalate_go_data (sep : String) : ∀ (l : List String) (acc : String),
    (String.intercalate.go acc sep l).data =
      acc.data ++ (l.map fun x => sep.data ++ x.data).flatten
  | [], acc => by simp [String.intercalate.go]
  | x :: xs, acc => by
    simp only [String.intercalate.go, intercalate_go_data sep xs, String.data_append,
      List.map_cons, List.flatten_cons, List.append_assoc]

/-- The characters of `String.intercalate`. -/
theorem intercalate_data (sep : String) (l : List String) :
    (String.intercalate sep l).data = List.intercalate sep.data (l.map String.data) := by
  cases l with
  | nil => simp [String.intercalate, List.intercalate]
  | cons a rest =>
    simp only [String.intercalate, intercalate_go_data, List.map_cons, intercalate_cons_eq,
      List.map_map]
    rfl

/-- Splitting a string at every comma and joining the pieces with commas gives
the string back. -/
theorem intercalate_Split (s : String) : String.intercalate "," (Split s ',') = s := by
  apply String.ext
  rw [intercalate_data]
  simp only [Split, List.map_map]
  have h : (String.data ∘ String.mk) = id := by
    funext x; rfl
  rw [h, List.map_id]
  exact splitChars_intercalate ',' s.data

theorem Split_length (s : String) : (Split s ',').length = s.data.count ',' + 1 := by
  simp only [Split, List.length_map, splitChars_length]

theorem Split_no_comma (s : String) : ∀ name ∈ Split s ',', ',' ∉ name.data := by
  intro name hname
  simp only [Split, List.mem_map] at hname
  obtain ⟨seg, hseg, rfl⟩ := hname
  exact splitChars_no_sep ',' s.data seg hseg

/-- Once the form is complete and the issuer DID is known, the handler sends
exactly the request `issueRequest`, whatever the signing service answers. -/
theorem new_credential_calls (b : Backend) (v : Vault) (now : Time)
    (newCred : NewCredentialForm) (issuerDID : String)
    (hfields : ¬ (newCred.Email = "" ∨ newCred.FirstName = "" ∨ newCred.FamilyName = "" ∨
      newCred.Roles = "" ∨ newCred.Target = ""))
    (hdid : b.GetDIDForUser (b.cfg "issuer.id") = .ok issuerDID) :
    (IssuerPageNewCredentialFormPost b v now (.ok newCred)).2.2 =
      [issueRequest b newCred issuerDID] := by
  simp only [IssuerPageNewCredentialFormPost, if_neg hfields, hdid]
  split
  · rfl
  · cases b.ParseJson (bytesToString (b.agent (issueRequest b newCred issuerDID)).body) with
    | error err => rfl
    | ok parsed =>
      simp only
      split
      · rfl
      · cases v.CredentialCreate now (parsed.String "id")
            (b.agent (issueRequest b newCred issuerDID)).body with
        | error err => rfl
        | ok v2 => rfl

/-- C30: for every accepted form (all five fields filled in, issuer DID
known), the request sent to the signing service carries a credential subject
with exactly one role; its target is the form's target and its names are the
pieces of the form's roles string between its commas, in order and untrimmed:
there is one name more than there are commas, no name contains a comma, and
joining the names with commas gives back the roles string. -/
theorem role_construction (b : Backend) (v : Vault) (now : Time)
    (newCred : NewCredentialForm) (issuerDID : String)
    (hfields : ¬ (newCred.Email = "" ∨ newCred.FirstName = "" ∨ newCred.FamilyName = "" ∨
      newCred.Roles = "" ∨ newCred.Target = ""))
    (hdid : b.GetDIDForUser (b.cfg "issuer.id") = .ok issuerDID) :
    ∃ (config : IssueConfig) (names : List String),
      (IssuerPageNewCredentialFormPost b v now (.ok newCred)).2.2 =
        [⟨"POST", b.ssiKit.signatoryUrl ++ "/v1/credentials/issue",
          .issue "PacketDeliveryService" config
            ⟨newCred.FirstName, newCred.FamilyName, newCred.Email,
              [⟨newCred.Target, names⟩]⟩⟩] ∧
      names = Split newCred.Roles ',' ∧
      names.length = newCred.Roles.data.count ',' + 1 ∧
      (∀ name ∈ names, ',' ∉ name.data) ∧
      String.intercalate "," names = newCred.Roles := by
  refine ⟨⟨issuerDID, "did:key:z6Mkfdio1n9SKoZUtKdr9GTCZsRPbwHN8f7rbJghJRGdCt88", "LD_PROOF"⟩,
    Split newCred.Roles ',', ?_, rfl, Split_length _, Split_no_comma _, intercalate_Split _⟩
  rw [new_credential_calls b v now newCred issuerDID hfields hdid]
  rfl

/-- Witness of C30: the roles `buyer,seller` of the example form, and the
roles ` a,,b ` with an empty name and untrimmed blanks. -/
theorem role_construction_witness :
    (∃ (config : IssueConfig) (names : List String),
      (IssuerPageNewCredentialFormPost (exampleBackend 200 exampleIssuedBody) exampleVault 0
        (.ok exampleForm)).2.2 =
        [⟨"POST", (exampleBackend 200 exampleIssuedBody).ssiKit.signatoryUrl ++
            "/v1/credentials/issue",
          .issue "PacketDeliveryService" config
            ⟨exampleForm.FirstName, exampleForm.FamilyName, exampleForm.Email,
              [⟨exampleForm.Target, names⟩]⟩⟩] ∧
      names = Split exampleForm.Roles ',' ∧
      names.length = exampleForm.Roles.data.count ',' + 1 ∧
      (∀ name ∈ names, ',' ∉ name.data) ∧
      String.intercalate "," names = exampleForm.Roles) ∧
    Split "buyer,seller" ',' = ["buyer", "seller"] ∧
    Split " a,,b " ',' = [" a", "", "b "] :=
  ⟨role_construction (exampleBackend 200 exampleIssuedBody) exampleVault 0 exampleForm
      "did:key:issuer" (by decide) rfl,
    by decide, by decide⟩

/-! ## Edge accessors -/

/-- C22: `CredentialEdges.AccountOrErr` and `DIDEdges.UserOrErr` return the
user with no error if and only if the edge was loaded and is not nil, a
`NotFoundError` with the label of the user if and only if the edge was loaded
and is nil, and a `NotLoadedError` that names the edge (`account`, resp. `user`)
if and only if the edge was not loaded; one of the three always holds, and no
two of them together. -/
theorem edge_accessors_three_way (user : UserPackage) (ce : CredentialEdges) (de : DIDEdges)
    (u : User) :
    (ce.AccountOrErr user = .ok u ↔ ce.loadedTypes = true ∧ ce.Account = some u) ∧
    (ce.AccountOrErr user = .error (.NotFoundError user.Label) ↔
      ce.loadedTypes = true ∧ ce.Account = none) ∧
    (ce.AccountOrErr user = .error (.NotLoadedError "account") ↔ ce.loadedTypes = false) ∧
    (de.UserOrErr user = .ok u ↔ de.loadedTypes = true ∧ de.User = some u) ∧
    (de.UserOrErr user = .error (.NotFoundError user.Label) ↔
      de.loadedTypes = true ∧ de.User = none) ∧
    (de.UserOrErr user = .error (.NotLoadedError "user") ↔ de.loadedTypes = false) ∧
    ((∃ account, ce.AccountOrErr user = .ok account) ∨
      ce.AccountOrErr user = .error (.NotFoundError user.Label) ∨
      ce.AccountOrErr user = .error (.NotLoadedError "account")) ∧
    ((∃ owner, de.UserOrErr user = .ok owner) ∨
      de.UserOrErr user = .error (.NotFoundError user.Label) ∨
      de.UserOrErr user = .error (.NotLoadedError "user")) ∧
    ¬ (ce.AccountOrErr user = .error (.NotFoundError user.Label) ∧
      ce.AccountOrErr user = .error (.NotLoadedError "account")) ∧
    ¬ (de.UserOrErr user = .error (.NotFoundError user.Label) ∧
      de.UserOrErr user = .error (.NotLoadedError "user")) := by
  obtain ⟨account, cl⟩ := ce
  obtain ⟨owner, dl⟩ := de
  cases cl <;> cases dl <;> cases account <;> cases owner <;>
    simp [CredentialEdges.AccountOrErr, DIDEdges.UserOrErr, eq_comm]

/-- The accessors on the three kinds of edge, for the example user. -/
theorem edge_accessors_examples :
    CredentialEdges.AccountOrErr exampleUserPackage ⟨some exampleUser, true⟩ =
      .ok exampleUser ∧
    CredentialEdges.AccountOrErr exampleUserPackage ⟨none, true⟩ =
      .error (.NotFoundError "user") ∧
    CredentialEdges.AccountOrErr exampleUserPackage ⟨some exampleUser, false⟩ =
      .error (.NotLoadedError "account") ∧
    DIDEdges.UserOrErr exampleUserPackage ⟨some exampleUser, true⟩ = .ok exampleUser ∧
    DIDEdges.UserOrErr exampleUserPackage ⟨none, true⟩ = .error (.NotFoundError "user") ∧
    DIDEdges.UserOrErr exampleUserPackage ⟨none, false⟩ = .error (.NotLoadedError "user") := by
  refine ⟨rfl, rfl, rfl, rfl, rfl, rfl⟩

/-! ## Row decoding -/

/-- One column of `Credential` is decoded as specified by `Credential.fieldTable`. -/
theorem Credential_assignColumn_eq_spec (c : Credential) (column : String) (value : ScanValue) :
    c.assignColumn column value = assignColumnSpec Credential.fieldTable c column value := by
  by_cases h1 : column = "id"
  · subst h1
    cases value <;> simp [Credential.assignColumn, assignColumnSpec, Credential.fieldTable,
      List.lookup, decodeColumnSpec, String.append_assoc]
  by_cases h2 : column = "type"
  · subst h2
    cases value <;> simp [Credential.assignColumn, assignColumnSpec, Credential.fieldTable,
      List.lookup, decodeColumnSpec, String.append_assoc]
  by_cases h3 : column = "raw"
  · subst h3
    cases value with
    | Bytes value =>
      cases value with
      | none =>
        simp [Credential.assignColumn, assignColumnSpec, Credential.fieldTable, List.lookup,
          decodeColumnSpec, String.append_assoc]
      | some bytes =>
        by_cases hlen : bytes.length > 0
        · rcases hj : jsonUnmarshalBytes bytes c.Raw with ⟨decoded, _ | err⟩ <;>
            simp [Credential.assignColumn, assignColumnSpec, Credential.fieldTable, List.lookup,
              decodeColumnSpec, String.append_assoc, hlen, hj]
        · simp [Credential.assignColumn, assignColumnSpec, Credential.fieldTable, List.lookup,
            decodeColumnSpec, String.append_assoc, hlen]
    | _ => simp [Credential.assignColumn, assignColumnSpec, Credential.fieldTable,
        List.lookup, decodeColumnSpec, String.append_assoc]
  by_cases h4 : column = "created_at"
  · subst h4
    cases value <;> simp [Credential.assignColumn, assignColumnSpec, Credential.fieldTable,
      List.lookup, decodeColumnSpec, String.append_assoc]
  by_cases h5 : column = "updated_at"
  · subst h5
    cases value <;> simp [Credential.assignColumn, assignColumnSpec, Credential.fieldTable,
      List.lookup, decodeColumnSpec, String.append_assoc]
  by_cases h6 : column = "natural_person_credentials"
  · subst h6
    cases value <;> simp [Credential.assignColumn, assignColumnSpec, Credential.fieldTable,
      List.lookup, decodeColumnSpec, String.append_assoc]
  by_cases h7 : column = "user_credentials"
  · subst h7
    cases value <;> simp [Credential.assignColumn, assignColumnSpec, Credential.fieldTable,
      List.lookup, decodeColumnSpec, String.append_assoc]
  have b1 : (column == "id") = false := by simpa using h1
  have b2 : (column == "type") = false := by simpa using h2
  have b3 : (column == "raw") = false := by simpa using h3
  have b4 : (column == "created_at") = false := by simpa using h4
  have b5 : (column == "updated_at") = false := by simpa using h5
  have b6 : (column == "natural_person_credentials") = false := by simpa using h6
  have b7 : (column == "user_credentials") = false := by simpa using h7
  simp only [Credential.assignColumn, assignColumnSpec, Credential.fieldTable, List.lookup,
    h1, h2, h3, h4, h5, h6, h7, b1, b2, b3, b4, b5, b6, b7, if_false]

/-- One column of `DID` is decoded as specified by `DID.fieldTable`. -/
theorem DID_assignColumn_eq_spec (d : DID) (column : String) (value : ScanValue) :
    d.assignColumn column value = assignColumnSpec DID.fieldTable d column value := by
  by_cases h1 : column = "id"
  · subst h1
    cases value <;> simp [DID.assignColumn, assignColumnSpec, DID.fieldTable,
      List.lookup, decodeColumnSpec, String.append_assoc]
  by_cases h2 : column = "method"
  · subst h2
    cases value <;> simp [DID.assignColumn, assignColumnSpec, DID.fieldTable,
      List.lookup, decodeColumnSpec, String.append_assoc]
  by_cases h3 : column = "created_at"
  · subst h3
    cases value <;> simp [DID.assignColumn, assignColumnSpec, DID.fieldTable,
      List.lookup, decodeColumnSpec, String.append_assoc]
  by_cases h4 : column = "updated_at"
  · subst h4
    cases value <;> simp [DID.assignColumn, assignColumnSpec, DID.fieldTable,
      List.lookup, decodeColumnSpec, String.append_assoc]
  by_cases h5 : column = "user_dids"
  · subst h5
    cases value <;> simp [DID.assignColumn, assignColumnSpec, DID.fieldTable,
      List.lookup, decodeColumnSpec, String.append_assoc]
  have b1 : (column == "id") = false := by simpa using h1
  have b2 : (column == "method") = false := by simpa using h2
  have b3 : (column == "created_at") = false := by simpa using h3
  have b4 : (column == "updated_at") = false := by simpa using h4
  have b5 : (column == "user_dids") = false := by simpa using h5
  simp only [DID.assignColumn, assignColumnSpec, DID.fieldTable, List.lookup,
    h1, h2, h3, h4, h5, b1, b2, b3, b4, b5, if_false]

/-- One column of `PublicKey` is decoded as specified by `PublicKey.fieldTable`. -/
theorem PublicKey_assignColumn_eq_spec (pk : PublicKey) (column : String)
    (value : ScanValue) :
    pk.assignColumn column value = assignColumnSpec PublicKey.fieldTable pk column value := by
  by_cases h1 : column = "id"
  · subst h1
    cases value <;> simp [PublicKey.assignColumn, assignColumnSpec, PublicKey.fieldTable,
      List.lookup, decodeColumnSpec, String.append_assoc]
  by_cases h2 : column = "kty"
  · subst h2
    cases value <;> simp [PublicKey.assignColumn, assignColumnSpec, PublicKey.fieldTable,
      List.lookup, decodeColumnSpec, String.append_assoc]
  by_cases h3 : column = "alg"
  · subst h3
    cases value <;> simp [PublicKey.assignColumn, assignColumnSpec, PublicKey.fieldTable,
      List.lookup, decodeColumnSpec, String.append_assoc]
  by_cases h4 : column = "jwk"
  · subst h4
    cases value with
    | Bytes value =>
      cases value with
      | none =>
        simp [PublicKey.assignColumn, assignColumnSpec, PublicKey.fieldTable, List.lookup,
          decodeColumnSpec, String.append_assoc]
      | some bytes =>
        by_cases hlen : bytes.length > 0
        · rcases hj : jsonUnmarshalBytes bytes pk.Jwk with ⟨decoded, _ | err⟩ <;>
            simp [PublicKey.assignColumn, assignColumnSpec, PublicKey.fieldTable, List.lookup,
              decodeColumnSpec, String.append_assoc, hlen, hj]
        · simp [PublicKey.assignColumn, assignColumnSpec, PublicKey.fieldTable, List.lookup,
            decodeColumnSpec, String.append_assoc, hlen]
    | _ => simp [PublicKey.assignColumn, assignColumnSpec, PublicKey.fieldTable,
        List.lookup, decodeColumnSpec, String.append_assoc]
  by_cases h5 : column = "created_at"
  · subst h5
    cases value <;> simp [PublicKey.assignColumn, assignColumnSpec, PublicKey.fieldTable,
      List.lookup, decodeColumnSpec, String.append_assoc]
  by_cases h6 : column = "updated_at"
  · subst h6
    cases value <;> simp [PublicKey.assignColumn, assignColumnSpec, PublicKey.fieldTable,
      List.lookup, decodeColumnSpec, String.append_assoc]
  have b1 : (column == "id") = false := by simpa using h1
  have b2 : (column == "kty") = false := by simpa using h2
  have b3 : (column == "alg") = false := by simpa using h3
  have b4 : (column == "jwk") = false := by simpa using h4
  have b5 : (column == "created_at") = false := by simpa using h5
  have b6 : (column == "updated_at") = false := by simpa using h6
  simp only [PublicKey.assignColumn, assignColumnSpec, PublicKey.fieldTable, List.lookup,
    h1, h2, h3, h4, h5, h6, b1, b2, b3, b4, b5, b6, if_false]

/-- What `json.Unmarshal` rejects it leaves unwritten, unless the text is an
array: an error is returned with the field as it was when the text is not one
JSON value, is a string that is not base64 text, or is an object, a number or a
boolean. -/
theorem jsonUnmarshalBytes_frame (data field : List Byte)
    (herr : (jsonUnmarshalBytes data field).2 ≠ none)
    (harr : (data.dropWhile isSpace).head? ≠ some 91) :
    (jsonUnmarshalBytes data field).1 = field := by
  unfold jsonUnmarshalBytes at herr ⊢
  cases hv : checkValid data with
  | some err => rfl
  | none =>
    rw [hv] at herr
    simp only at herr ⊢
    cases hd : data.dropWhile isSpace with
    | nil => rfl
    | cons c rest =>
      rw [hd] at herr harr
      simp only at herr ⊢
      by_cases h1 : c.val = 110
      · simp [h1] at herr
      · by_cases h2 : c.val = 34
        · simp only [h1, h2, if_false, if_true] at herr ⊢
          cases hb : StdDecode (unquoteBytes rest) with
          | error off => rfl
          | ok b => simp [hb] at herr
        · by_cases h3 : c.val = 91
          · exact absurd (congrArg some (Fin.ext h3)) harr
          · simp only [h1, h2, h3, if_false]
            split <;> [rfl; (split <;> rfl)]

/-- A column whose value is not the bytes of a JSON column changes nothing when
it fails. -/
theorem assignColumnSpec_frame {E : Type} (table : List (String × FieldSetter E)) (e : E)
    (column : String) (value : ScanValue) (err : String)
    (hv : ∀ bytes, value ≠ .Bytes (some bytes))
    (h : (assignColumnSpec table e column value).2 = some err) :
    (assignColumnSpec table e column value).1 = e := by
  unfold assignColumnSpec at h ⊢
  cases hl : table.lookup column with
  | none => rfl
  | some setter =>
    rw [hl] at h
    simp only at h ⊢
    cases setter with
    | text set =>
      cases value with
      | NullString Valid str => cases Valid <;> simp [decodeColumnSpec] at h
      | NullTime Valid t => simp [decodeColumnSpec]
      | Bytes o => cases o <;> simp [decodeColumnSpec]
      | Other t => simp [decodeColumnSpec]
    | time set =>
      cases value with
      | NullString Valid str => simp [decodeColumnSpec]
      | NullTime Valid t => cases Valid <;> simp [decodeColumnSpec] at h
      | Bytes o => cases o <;> simp [decodeColumnSpec]
      | Other t => simp [decodeColumnSpec]
    | json get set =>
      cases value with
      | NullString Valid str => simp [decodeColumnSpec]
      | NullTime Valid t => simp [decodeColumnSpec]
      | Bytes o =>
        cases o with
        | none => simp [decodeColumnSpec] at h
        | some b => exact absurd rfl (hv b)
      | Other t => simp [decodeColumnSpec]

/-- The column `raw` with bytes in it: the field is what `json.Unmarshal`
leaves in it, and its error is returned under the name of the field. -/
theorem Credential_assignColumn_json (c : Credential) (bytes : List Byte)
    (hlen : bytes.length > 0) :
    c.assignColumn "raw" (.Bytes (some bytes)) =
      ({ c with Raw := (jsonUnmarshalBytes bytes c.Raw).1 },
        (jsonUnmarshalBytes bytes c.Raw).2.map fun err => "unmarshal field raw: " ++ err) := by
  rcases hj : jsonUnmarshalBytes bytes c.Raw with ⟨decoded, _ | err⟩ <;>
    simp [Credential.assignColumn, hlen, hj]

/-- The column `jwk` with bytes in it: the field is what `json.Unmarshal`
leaves in it, and its error is returned under the name of the field. -/
theorem PublicKey_assignColumn_json (pk : PublicKey) (bytes : List Byte)
    (hlen : bytes.length > 0) :
    pk.assignColumn "jwk" (.Bytes (some bytes)) =
      ({ pk with Jwk := (jsonUnmarshalBytes bytes pk.Jwk).1 },
        (jsonUnmarshalBytes bytes pk.Jwk).2.map fun err => "unmarshal field jwk: " ++ err) := by
  rcases hj : jsonUnmarshalBytes bytes pk.Jwk with ⟨decoded, _ | err⟩ <;>
    simp [PublicKey.assignColumn, hlen, hj]

/-- C29, refuted as stated: the column `raw` of a credential (resp. `jwk` of a
public key) is scanned into a `*[]byte`, the expected type, and holds the
non-empty bytes `not json`; `json.Unmarshal` rejects them, so `assignValues`
returns an error and the field keeps the bytes `1, 2, 3` it had. -/
theorem rejected_json_column_is_not_assigned :
    ((⟨"c1", "t", [1, 2, 3], 0, 0, none, none⟩ : Credential).assignValues ["raw"]
      [.Bytes (some (stringToBytes "not json"))]).1.Raw = [1, 2, 3] ∧
    ((⟨"c1", "t", [1, 2, 3], 0, 0, none, none⟩ : Credential).assignValues ["raw"]
      [.Bytes (some (stringToBytes "not json"))]).2 =
      some "unmarshal field raw: invalid character 'o' in literal null (expecting 'u')" ∧
    ((⟨"k1", "EC", "ES256", [1, 2, 3], 0, 0⟩ : PublicKey).assignValues ["jwk"]
      [.Bytes (some (stringToBytes "not json"))]).1.Jwk = [1, 2, 3] ∧
    ((⟨"k1", "EC", "ES256", [1, 2, 3], 0, 0⟩ : PublicKey).assignValues ["jwk"]
      [.Bytes (some (stringToBytes "not json"))]).2 =
      some "unmarshal field jwk: invalid character 'o' in literal null (expecting 'u')" := by
  refine ⟨by decide, by decide, by decide, by decide⟩

/-- The call `json.Unmarshal` on texts other than the one `json.Marshal` writes:
an array of numbers and a string between blanks are accepted; an array with an
element that is not a number is rejected after the elements before it have been
written, and the slice has then the length of the array; an object is rejected
and nothing is written. -/
theorem jsonUnmarshalBytes_test_vectors :
    jsonUnmarshalBytes (stringToBytes "[7,8]") [1, 2, 3] = ([7, 8], none) ∧
    jsonUnmarshalBytes (stringToBytes " \"AQID\" ") [9] = ([1, 2, 3], none) ∧
    jsonUnmarshalBytes (stringToBytes "\"AQI=\"") [9] = ([1, 2], none) ∧
    jsonUnmarshalBytes (stringToBytes "[7,\"x\"]") [1, 2, 3] =
      ([7, 2], some "json: cannot unmarshal string into Go value of type uint8") ∧
    jsonUnmarshalBytes (stringToBytes "[7, 8, 9, 300]") [1, 2, 3] =
      ([7, 8, 9, 0], some "json: cannot unmarshal number 300 into Go value of type uint8") ∧
    jsonUnmarshalBytes (stringToBytes "[null]") [1, 2, 3] = ([1], none) ∧
    jsonUnmarshalBytes (stringToBytes "\x7b\"a\": 1\x7d") [1, 2, 3] =
      ([1, 2, 3], some "json: cannot unmarshal object into Go value of type []uint8") ∧
    jsonUnmarshalBytes (stringToBytes "\"A\"") [1, 2, 3] =
      ([1, 2, 3], some "illegal base64 data at input byte 0") ∧
    jsonUnmarshalBytes (stringToBytes "null") [1, 2, 3] = ([], none) := by
  refine ⟨by decide, by decide, by decide, by decide, by decide, by decide, by decide,
    by decide, by decide⟩

/-- C29, amended: `assignValues` of `Credential`, `DID` and `PublicKey` fails
with the mismatch error and changes no field when fewer values than columns are
supplied; otherwise it decodes the columns in order, stopping at the first
error, and each column is decoded as `assignColumnSpec` says: a column that
names a field and whose value has the expected type overwrites the field when
the value is not NULL; for `raw` and `jwk`, a nil or empty value leaves the
field unchanged and any other value is handed to `json.Unmarshal`, which
decodes it into the field; NULL values and columns that name no field leave the
entity unchanged; a value of another type fails with an error that names the
field and changes nothing; a `raw` or `jwk` that `json.Unmarshal` rejects fails
with an error that names the field, and the field is unchanged unless the value
is a JSON array. -/
theorem row_decoding (c : Credential) (d : DID) (pk : PublicKey) (column : String)
    (value : ScanValue) (columns : List String) (values : List ScanValue) :
    (values.length < columns.length →
      c.assignValues columns values =
        (c, some ("mismatch number of scan values: " ++ toString values.length ++ " != " ++
          toString columns.length)) ∧
      d.assignValues columns values =
        (d, some ("mismatch number of scan values: " ++ toString values.length ++ " != " ++
          toString columns.length)) ∧
      pk.assignValues columns values =
        (pk, some ("mismatch number of scan values: " ++ toString values.length ++ " != " ++
          toString columns.length))) ∧
    (¬ values.length < columns.length →
      c.assignValues (column :: columns) (value :: values) =
        (match assignColumnSpec Credential.fieldTable c column value with
          | (c2, some err) => (c2, some err)
          | (c2, none) => c2.assignValues columns values) ∧
      d.assignValues (column :: columns) (value :: values) =
        (match assignColumnSpec DID.fieldTable d column value with
          | (d2, some err) => (d2, some err)
          | (d2, none) => d2.assignValues columns values) ∧
      pk.assignValues (column :: columns) (value :: values) =
        (match assignColumnSpec PublicKey.fieldTable pk column value with
          | (pk2, some err) => (pk2, some err)
          | (pk2, none) => pk2.assignValues columns values)) ∧
    c.assignValues [] values = (c, none) ∧ d.assignValues [] values = (d, none) ∧
    pk.assignValues [] values = (pk, none) ∧
    (∀ (bytes : List Byte) (err : String), (bytes.dropWhile isSpace).head? ≠ some 91 →
      ((c.assignValues ["raw"] [.Bytes (some bytes)]).2 = some err →
        (c.assignValues ["raw"] [.Bytes (some bytes)]).1 = c) ∧
      ((pk.assignValues ["jwk"] [.Bytes (some bytes)]).2 = some err →
        (pk.assignValues ["jwk"] [.Bytes (some bytes)]).1 = pk)) ∧
    (∀ (column : String) (value : ScanValue) (err : String),
      (∀ bytes, value ≠ .Bytes (some bytes)) →
      ((c.assignValues [column] [value]).2 = some err → (c.assignValues [column] [value]).1 = c) ∧
      ((d.assignValues [column] [value]).2 = some err → (d.assignValues [column] [value]).1 = d) ∧
      ((pk.assignValues [column] [value]).2 = some err →
        (pk.assignValues [column] [value]).1 = pk)) := by
  have hone : ∀ (column : String) (value : ScanValue),
      c.assignValues [column] [value] = assignColumnSpec Credential.fieldTable c column value ∧
      d.assignValues [column] [value] = assignColumnSpec DID.fieldTable d column value ∧
      pk.assignValues [column] [value] =
        assignColumnSpec PublicKey.fieldTable pk column value := by
    intro column value
    rw [← Credential_assignColumn_eq_spec, ← DID_assignColumn_eq_spec,
      ← PublicKey_assignColumn_eq_spec]
    simp only [Credential.assignValues, DID.assignValues, PublicKey.assignValues,
      List.length_cons, List.length_nil, Nat.lt_irrefl, if_false, Credential.assignLoop,
      DID.assignLoop, PublicKey.assignLoop]
    refine ⟨?_, ?_, ?_⟩
    · rcases c.assignColumn column value with ⟨c2, _ | err⟩ <;> rfl
    · rcases d.assignColumn column value with ⟨d2, _ | err⟩ <;> rfl
    · rcases pk.assignColumn column value with ⟨pk2, _ | err⟩ <;> rfl
  refine ⟨fun h => ?_, fun h => ?_, ?_, ?_, ?_, ?_, ?_⟩
  · simp [Credential.assignValues, DID.assignValues, PublicKey.assignValues, h]
  · have h2 : ¬ (value :: values).length < (column :: columns).length := by
      simpa using h
    rw [← Credential_assignColumn_eq_spec, ← DID_assignColumn_eq_spec,
      ← PublicKey_assignColumn_eq_spec]
    simp only [Credential.assignValues, DID.assignValues, PublicKey.assignValues, if_neg h,
      if_neg h2, Credential.assignLoop, DID.assignLoop, PublicKey.assignLoop]
    exact ⟨trivial, trivial, trivial⟩
  · simp [Credential.assignValues, Credential.assignLoop]
  · simp [DID.assignValues, DID.assignLoop]
  · simp [PublicKey.assignValues, PublicKey.assignLoop]
  · intro bytes err harr
    rw [(hone "raw" (.Bytes (some bytes))).1, (hone "jwk" (.Bytes (some bytes))).2.2,
      ← Credential_assignColumn_eq_spec, ← PublicKey_assignColumn_eq_spec]
    refine ⟨?_, ?_⟩
    · by_cases hlen : bytes.length > 0
      · rw [Credential_assignColumn_json c bytes hlen]
        intro h
        have hne : (jsonUnmarshalBytes bytes c.Raw).2 ≠ none := by
          intro h0
          rw [h0] at h
          simp at h
        simp only [jsonUnmarshalBytes_frame bytes c.Raw hne harr]
      · intro _
        simp [Credential.assignColumn, hlen]
    · by_cases hlen : bytes.length > 0
      · rw [PublicKey_assignColumn_json pk bytes hlen]
        intro h
        have hne : (jsonUnmarshalBytes bytes pk.Jwk).2 ≠ none := by
          intro h0
          rw [h0] at h
          simp at h
        simp only [jsonUnmarshalBytes_frame bytes pk.Jwk hne harr]
      · intro _
        simp [PublicKey.assignColumn, hlen]
  · intro column value err hv
    rw [(hone column value).1, (hone column value).2.1, (hone column value).2.2]
    exact ⟨assignColumnSpec_frame _ c column value err hv,
      assignColumnSpec_frame _ d column value err hv,
      assignColumnSpec_frame _ pk column value err hv⟩

/-! ## The update specification of a `User` update -/

/-- The statements of one edge add to `_spec` what the edge plan says, and
change nothing else. -/
theorem fillEdge_eq_plan (table column targetID : String) (cleared : Bool)
    (removed added : List String) (_spec : UpdateSpec) :
    fillEdge table column targetID cleared removed added _spec =
      { _spec with
        EdgesClear := _spec.EdgesClear ++
          (edgePlanSpec table column targetID cleared removed added).1,
        EdgesAdd := _spec.EdgesAdd ++
          (edgePlanSpec table column targetID cleared removed added).2 } := by
  cases cleared <;> cases removed <;> cases added <;> simp [fillEdge, edgePlanSpec]

/-- The statements for the predicates and fields leave the node and the edges of
`_spec` as they are. -/
theorem fillFields_frame (user : UserPackage) (m : UserMutation) (_spec : UpdateSpec) :
    (fillFields user m _spec).Node = _spec.Node ∧
    (fillFields user m _spec).EdgesClear = _spec.EdgesClear ∧
    (fillFields user m _spec).EdgesAdd = _spec.EdgesAdd := by
  unfold fillFields
  cases m.name <;> cases m.displayname <;> cases m.type_ <;> cases m.password <;>
    cases m.updated_at <;> cases m.displaynameCleared <;>
    by_cases hp : m.predicates.length > 0 <;> simp [hp]

/-- The edges and the node of the `_spec` that `fillSpec` makes. -/
theorem fillSpec_edges (user : UserPackage) (m : UserMutation) (_spec : UpdateSpec) :
    (fillSpec user m _spec).Node = _spec.Node ∧
    (fillSpec user m _spec).EdgesClear = _spec.EdgesClear ++ (mutationPlanSpec user m).1 ∧
    (fillSpec user m _spec).EdgesAdd = _spec.EdgesAdd ++ (mutationPlanSpec user m).2 := by
  obtain ⟨h1, h2, h3⟩ := fillFields_frame user m _spec
  simp only [fillSpec, fillEdge_eq_plan, mutationPlanSpec, h1, h2, h3, List.append_assoc]
  exact ⟨trivial, trivial, trivial⟩

/-- The update that `UserUpdate.sqlSave` hands to the SQL layer. -/
theorem UserUpdate_sqlSave_executed (user : UserPackage) (drv : Driver) (uu : UserUpdate) :
    (uu.sqlSave user drv).2 = [fillSpec user uu.mutation (UserUpdate.initialSpec user)] := by
  unfold UserUpdate.sqlSave
  simp only
  split <;> rfl

/-- Every update that `UserUpdateOne.sqlSave` hands to the SQL layer is made by
`fillSpec` from a `_spec` without edges. -/
theorem UserUpdateOne_sqlSave_executed (user : UserPackage) (drv : Driver)
    (uuo : UserUpdateOne) :
    ∀ spec ∈ (uuo.sqlSave user drv).2,
      ∃ spec0 : UpdateSpec, spec0.EdgesClear = [] ∧ spec0.EdgesAdd = [] ∧
        spec = fillSpec user uuo.mutation spec0 ∧
        (uuo.sqlSave user drv).1 =
          (match drv.UpdateNode spec with
            | .error err => (none, some (updateError user err))
            | .ok node => (some node, none)) := by
  intro spec hspec
  unfold UserUpdateOne.sqlSave at hspec ⊢
  cases hid : uuo.mutation.id with
  | none => simp [hid] at hspec
  | some id =>
    simp only [hid] at hspec ⊢
    split at hspec
    · simp at hspec
    · rename_i columns hcols
      split at hspec
      · rename_i err herr
        simp only [List.mem_singleton] at hspec
        subst hspec
        refine ⟨_, rfl, rfl, rfl, ?_⟩
        simp only [herr]
      · rename_i node hnode
        simp only [List.mem_singleton] at hspec
        subst hspec
        refine ⟨_, rfl, rfl, rfl, ?_⟩
        simp only [hnode]

/-- C28: in the update that `sqlSave` of `UserUpdate` and of `UserUpdateOne`
builds, the `Clear` and `Add` entries are those of the edge plan
`mutationPlanSpec`, edge by edge in the order `keys`, `dids`, `credentials`; for
each edge the plan has at most one `Clear` entry and at most one `Add` entry; a
cleared edge has the `Clear` entry without target nodes, whatever identifiers
were removed; an edge that was not cleared has a `Clear` entry exactly when the
list of removed identifiers is not empty, and it targets them in order; the
`Add` entry exists if and only if the list of added identifiers is not empty,
and it targets them in order. -/
theorem edge_update_plan (user : UserPackage) (drv : Driver) (uu : UserUpdate)
    (uuo : UserUpdateOne) (table column targetID : String) (cleared : Bool)
    (removed added : List String) :
    (∀ spec ∈ (uu.sqlSave user drv).2,
      spec.EdgesClear = (mutationPlanSpec user uu.mutation).1 ∧
      spec.EdgesAdd = (mutationPlanSpec user uu.mutation).2) ∧
    (uu.sqlSave user drv).2.length = 1 ∧
    (∀ spec ∈ (uuo.sqlSave user drv).2,
      spec.EdgesClear = (mutationPlanSpec user uuo.mutation).1 ∧
      spec.EdgesAdd = (mutationPlanSpec user uuo.mutation).2) ∧
    (fillEdge table column targetID cleared removed added
        (UserUpdate.initialSpec user)).EdgesClear =
      (edgePlanSpec table column targetID cleared removed added).1 ∧
    (fillEdge table column targetID cleared removed added
        (UserUpdate.initialSpec user)).EdgesAdd =
      (edgePlanSpec table column targetID cleared removed added).2 ∧
    (edgePlanSpec table column targetID cleared removed added).1.length ≤ 1 ∧
    (edgePlanSpec table column targetID cleared removed added).2.length ≤ 1 ∧
    (cleared = true →
      (edgePlanSpec table column targetID cleared removed added).1 =
        [o2mEdge table column targetID []]) ∧
    (cleared = false → removed ≠ [] →
      (edgePlanSpec table column targetID cleared removed added).1 =
        [o2mEdge table column targetID removed]) ∧
    (cleared = false → removed = [] →
      (edgePlanSpec table column targetID cleared removed added).1 = []) ∧
    ((edgePlanSpec table column targetID cleared removed added).2 ≠ [] ↔ added ≠ []) ∧
    (added ≠ [] →
      (edgePlanSpec table column targetID cleared removed added).2 =
        [o2mEdge table column targetID added]) ∧
    (o2mEdge table column targetID removed).TargetNodes = removed := by
  refine ⟨?_, ?_, ?_, ?_, ?_, ?_, ?_, ?_, ?_, ?_, ?_, ?_, rfl⟩
  · intro spec hspec
    rw [UserUpdate_sqlSave_executed, List.mem_singleton] at hspec
    subst hspec
    obtain ⟨_, h2, h3⟩ := fillSpec_edges user uu.mutation (UserUpdate.initialSpec user)
    rw [h2, h3]
    simp [UserUpdate.initialSpec]
  · rw [UserUpdate_sqlSave_executed]
    rfl
  · intro spec hspec
    obtain ⟨spec0, hc, ha, hs, _⟩ := UserUpdateOne_sqlSave_executed user drv uuo spec hspec
    obtain ⟨_, h2, h3⟩ := fillSpec_edges user uuo.mutation spec0
    rw [hs, h2, h3, hc, ha]
    simp
  · rw [fillEdge_eq_plan]
    simp [UserUpdate.initialSpec]
  · rw [fillEdge_eq_plan]
    simp [UserUpdate.initialSpec]
  · cases cleared <;> cases removed <;> simp [edgePlanSpec]
  · cases added <;> simp [edgePlanSpec]
  · intro h; subst h; simp [edgePlanSpec]
  · intro h hr; subst h; simp [edgePlanSpec, hr]
  · intro h hr; subst h; simp [edgePlanSpec, hr]
  · cases added <;> simp [edgePlanSpec]
  · intro h; simp [edgePlanSpec, h]

/-- Witness of C28: the update built for `exampleMutation`. -/
theorem edge_update_plan_witness :
    (UserUpdate.sqlSave exampleUserPackage exampleDriver ⟨[], exampleMutation⟩).2.map
        (fun spec => (spec.EdgesClear, spec.EdgesAdd)) =
      [([o2mEdge "private_keys" "user_keys" "id" ["k1", "k2"], o2mEdge "dids" "user_dids" "id" []],
        [o2mEdge "private_keys" "user_keys" "id" ["k3"],
          o2mEdge "credentials" "user_credentials" "id" ["c1", "c2"]])] ∧
    (edgePlanSpec "dids" "user_dids" "id" true ["d1"] []).1 = [o2mEdge "dids" "user_dids" "id" []] ∧
    (edgePlanSpec "private_keys" "user_keys" "id" false ["k1", "k2"] ["k3"]).1 =
      [o2mEdge "private_keys" "user_keys" "id" ["k1", "k2"]] :=
  ⟨by decide,
    (edge_update_plan exampleUserPackage exampleDriver ⟨[], exampleMutation⟩
      ⟨[], [], exampleMutation⟩ "dids" "user_dids" "id" true ["d1"] []).2.2.2.2.2.2.2.1 rfl,
    (edge_update_plan exampleUserPackage exampleDriver ⟨[], exampleMutation⟩
      ⟨[], [], exampleMutation⟩ "private_keys" "user_keys" "id" false ["k1", "k2"]
      ["k3"]).2.2.2.2.2.2.2.2.1 rfl (by decide)⟩

/-! ## Errors of the SQL layer -/

/-- C26: when the update of the SQL layer fails with `err`, `UserUpdate.sqlSave`
and `UserUpdateOne.sqlSave` return a `NotFoundError` with the label of the user
if `err` is a not-found error, otherwise a `ConstraintError` that wraps `err`
and carries its message if `err` is a constraint violation, otherwise `err`
itself; the affected count is then 0, resp. the node nil; and when the update
succeeds, the error is nil and the count, resp. the node, is the one of the
update. -/
theorem storage_error_mapping (user : UserPackage) (drv : Driver) (uu : UserUpdate)
    (uuo : UserUpdateOne) (err : SqlError) :
    (drv.UpdateNodes (fillSpec user uu.mutation (UserUpdate.initialSpec user)) = .error err →
      (err.isNotFound = true →
        (uu.sqlSave user drv).1 = (0, some (.NotFoundError user.Label))) ∧
      (err.isNotFound = false → err.isConstraint = true →
        (uu.sqlSave user drv).1 = (0, some (.ConstraintError err.msg err))) ∧
      (err.isNotFound = false → err.isConstraint = false →
        (uu.sqlSave user drv).1 = (0, some (.Sql err)))) ∧
    (∀ n, drv.UpdateNodes (fillSpec user uu.mutation (UserUpdate.initialSpec user)) = .ok n →
      (uu.sqlSave user drv).1 = (n, none)) ∧
    (∀ spec ∈ (uuo.sqlSave user drv).2,
      (drv.UpdateNode spec = .error err →
        (err.isNotFound = true →
          (uuo.sqlSave user drv).1 = (none, some (.NotFoundError user.Label))) ∧
        (err.isNotFound = false → err.isConstraint = true →
          (uuo.sqlSave user drv).1 = (none, some (.ConstraintError err.msg err))) ∧
        (err.isNotFound = false → err.isConstraint = false →
          (uuo.sqlSave user drv).1 = (none, some (.Sql err)))) ∧
      (∀ node, drv.UpdateNode spec = .ok node →
        (uuo.sqlSave user drv).1 = (some node, none))) := by
  refine ⟨fun h => ?_, fun n h => ?_, fun spec hspec => ?_⟩
  · simp only [UserUpdate.sqlSave, h, updateError]
    refine ⟨fun h1 => ?_, fun h1 h2 => ?_, fun h1 h2 => ?_⟩ <;> simp [*]
  · simp only [UserUpdate.sqlSave, h]
  · obtain ⟨spec0, _, _, _, hres⟩ := UserUpdateOne_sqlSave_executed user drv uuo spec hspec
    rw [hres]
    refine ⟨fun h => ?_, fun node h => ?_⟩
    · simp only [h, updateError]
      refine ⟨fun h1 => ?_, fun h1 h2 => ?_, fun h1 h2 => ?_⟩ <;> simp [*]
    · simp only [h]

/-- Witness of C26: a constraint violation of the SQL layer. -/
theorem storage_error_mapping_witness :
    (UserUpdate.sqlSave exampleUserPackage (failingDriver ⟨false, true, "UNIQUE constraint failed"⟩)
      ⟨[], exampleMutation⟩).1 =
      (0, some (.ConstraintError "UNIQUE constraint failed"
        ⟨false, true, "UNIQUE constraint failed"⟩)) ∧
    (UserUpdate.sqlSave exampleUserPackage exampleDriver ⟨[], exampleMutation⟩).1 = (1, none) :=
  ⟨((storage_error_mapping exampleUserPackage
      (failingDriver ⟨false, true, "UNIQUE constraint failed"⟩) ⟨[], exampleMutation⟩
      ⟨[], [], exampleMutation⟩ ⟨false, true, "UNIQUE constraint failed"⟩).1 rfl).2.1 rfl rfl,
    (storage_error_mapping exampleUserPackage exampleDriver ⟨[], exampleMutation⟩
      ⟨[], [], exampleMutation⟩ ⟨false, false, ""⟩).2.1 1 rfl⟩

/-! ## Validation before the update -/

/-- The body of `check` calls the validators that `verdictsSpec` lists, up to
the first failure, and returns the error of that failure. -/
theorem checkMutation_eq_spec (user : UserPackage) (m : UserMutation) :
    checkMutation user m =
      ((firstFailure (verdictsSpec user m)).map fun fe => validatorFailed fe.1 fe.2,
        calledUntilFailure (verdictsSpec user m)) := by
  unfold checkMutation verdictsSpec
  cases m.name with
  | none =>
    cases m.type_ with
    | none =>
      cases m.password with
      | none => rfl
      | some p => cases hp : user.PasswordValidator p <;>
          simp [hp, firstFailure, calledUntilFailure, validatorFailed]
    | some t =>
      cases ht : user.TypeValidator t with
      | some e => simp [ht, firstFailure, calledUntilFailure, validatorFailed]
      | none =>
        cases m.password with
        | none => simp [ht, firstFailure, calledUntilFailure]
        | some p => cases hp : user.PasswordValidator p <;>
            simp [ht, hp, firstFailure, calledUntilFailure, validatorFailed]
  | some n =>
    cases hn : user.NameValidator n with
    | some e => simp [hn, firstFailure, calledUntilFailure, validatorFailed]
    | none =>
      cases m.type_ with
      | none =>
        cases m.password with
        | none => simp [hn, firstFailure, calledUntilFailure]
        | some p => cases hp : user.PasswordValidator p <;>
            simp [hn, hp, firstFailure, calledUntilFailure, validatorFailed]
      | some t =>
        cases ht : user.TypeValidator t with
        | some e => simp [hn, ht, firstFailure, calledUntilFailure, validatorFailed]
        | none =>
          cases m.password with
          | none => simp [hn, ht, firstFailure, calledUntilFailure]
          | some p => cases hp : user.PasswordValidator p <;>
              simp [hn, ht, hp, firstFailure, calledUntilFailure, validatorFailed]

/-- The fields that are validated are among the fields with a verdict, in their
order. -/
theorem calledUntilFailure_prefix : ∀ l : List (String × Option String),
    calledUntilFailure l <+: l.map Prod.fst
  | [] => by simp [calledUntilFailure]
  | (field, some err) :: rest => by
    simp only [calledUntilFailure, List.map_cons]
    exact ⟨rest.map Prod.fst, rfl⟩
  | (field, none) :: rest => by
    simp only [calledUntilFailure, List.map_cons]
    obtain ⟨t, ht⟩ := calledUntilFailure_prefix rest
    exact ⟨t, by simp [ht]⟩

/-- C24: for a `UserUpdate` and a `UserUpdateOne` without hooks, `Save` calls
the validators of `name`, `type` and `password` only for the fields set in the
mutation, in this order and up to the first failure; when a validator fails,
`Save` returns the `ValidationError` named after the first failing field, with
the count 0, resp. the node nil, and hands no update to the SQL layer; when
none fails, `Save` returns what `sqlSave` returns. -/
theorem validation_before_write (user : UserPackage) (drv : Driver) (uu : UserUpdate)
    (uuo : UserUpdateOne) (hu : uu.hooks = []) (ho : uuo.hooks = []) :
    (uu.Save user drv).validated = calledUntilFailure (verdictsSpec user uu.mutation) ∧
    (uuo.Save user drv).validated = calledUntilFailure (verdictsSpec user uuo.mutation) ∧
    (uu.Save user drv).validated <+: (verdictsSpec user uu.mutation).map Prod.fst ∧
    (uuo.Save user drv).validated <+: (verdictsSpec user uuo.mutation).map Prod.fst ∧
    (∀ field err, firstFailure (verdictsSpec user uu.mutation) = some (field, err) →
      uu.Save user drv =
        ⟨0, some (.ValidationError field
            ("ent: validator failed for field \"User." ++ field ++ "\": " ++ err)),
          calledUntilFailure (verdictsSpec user uu.mutation), []⟩) ∧
    (∀ field err, firstFailure (verdictsSpec user uuo.mutation) = some (field, err) →
      uuo.Save user drv =
        ⟨none, some (.ValidationError field
            ("ent: validator failed for field \"User." ++ field ++ "\": " ++ err)),
          calledUntilFailure (verdictsSpec user uuo.mutation), []⟩) ∧
    (firstFailure (verdictsSpec user uu.mutation) = none →
      uu.Save user drv =
        ⟨(uu.sqlSave user drv).1.1, (uu.sqlSave user drv).1.2,
          calledUntilFailure (verdictsSpec user uu.mutation), (uu.sqlSave user drv).2⟩) ∧
    (firstFailure (verdictsSpec user uuo.mutation) = none →
      uuo.Save user drv =
        ⟨(uuo.sqlSave user drv).1.1, (uuo.sqlSave user drv).1.2,
          calledUntilFailure (verdictsSpec user uuo.mutation), (uuo.sqlSave user drv).2⟩) := by
  have hsu : uu.Save user drv =
      match firstFailure (verdictsSpec user uu.mutation) with
      | some fe => ⟨0, some (validatorFailed fe.1 fe.2),
          calledUntilFailure (verdictsSpec user uu.mutation), []⟩
      | none => ⟨(uu.sqlSave user drv).1.1, (uu.sqlSave user drv).1.2,
          calledUntilFailure (verdictsSpec user uu.mutation), (uu.sqlSave user drv).2⟩ := by
    simp only [UserUpdate.Save, hu, List.length_nil, if_true, UserUpdate.check,
      checkMutation_eq_spec]
    cases firstFailure (verdictsSpec user uu.mutation) <;> rfl
  have hso : uuo.Save user drv =
      match firstFailure (verdictsSpec user uuo.mutation) with
      | some fe => ⟨none, some (validatorFailed fe.1 fe.2),
          calledUntilFailure (verdictsSpec user uuo.mutation), []⟩
      | none => ⟨(uuo.sqlSave user drv).1.1, (uuo.sqlSave user drv).1.2,
          calledUntilFailure (verdictsSpec user uuo.mutation), (uuo.sqlSave user drv).2⟩ := by
    simp only [UserUpdateOne.Save, ho, List.length_nil, if_true, UserUpdateOne.check,
      checkMutation_eq_spec]
    cases firstFailure (verdictsSpec user uuo.mutation) <;> rfl
  have hvu : (uu.Save user drv).validated =
      calledUntilFailure (verdictsSpec user uu.mutation) := by
    rw [hsu]; cases firstFailure (verdictsSpec user uu.mutation) <;> rfl
  have hvo : (uuo.Save user drv).validated =
      calledUntilFailure (verdictsSpec user uuo.mutation) := by
    rw [hso]; cases firstFailure (verdictsSpec user uuo.mutation) <;> rfl
  refine ⟨hvu, hvo, ?_, ?_, ?_, ?_, ?_, ?_⟩
  · rw [hvu]; exact calledUntilFailure_prefix _
  · rw [hvo]; exact calledUntilFailure_prefix _
  · intro field err h
    rw [hsu, h]
    rfl
  · intro field err h
    rw [hso, h]
    rfl
  · intro h
    rw [hsu, h]
  · intro h
    rw [hso, h]

/-- Witness of C24: the example mutation with a valid name, an empty type and
no password: the validators of `name` and `type` are called, the one of `type`
fails, and nothing is handed to the SQL layer. -/
theorem validation_before_write_witness :
    UserUpdate.Save exampleUserPackage exampleDriver
      ⟨[], { exampleMutation with type_ := some "" }⟩ =
      ⟨0, some (.ValidationError "type"
          ("ent: validator failed for field \"User." ++ "type" ++ "\": " ++
            "value is less than the required length")),
        calledUntilFailure (verdictsSpec exampleUserPackage
          { exampleMutation with type_ := some "" }), []⟩ ∧
    calledUntilFailure (verdictsSpec exampleUserPackage
      { exampleMutation with type_ := some "" }) = ["name", "type"] :=
  ⟨(validation_before_write exampleUserPackage exampleDriver
      ⟨[], { exampleMutation with type_ := some "" }⟩
      ⟨[], [], exampleMutation⟩ rfl rfl).2.2.2.2.1 "type"
      "value is less than the required length" (by decide),
    by decide⟩

/-! ## The selection of columns -/

theorem selectLoop_of_valid (user : UserPackage) : ∀ (fields columns : List String),
    (∀ f ∈ fields, user.ValidColumn f = true) →
    selectLoop user fields columns =
      .ok (columns ++ fields.filter fun f => decide (f ≠ user.FieldID))
  | [], columns, _ => by simp [selectLoop]
  | f :: fields, columns, h => by
    have hf : user.ValidColumn f = true := h f (List.mem_cons_self _ _)
    have hrest : ∀ g ∈ fields, user.ValidColumn g = true :=
      fun g hg => h g (List.mem_cons_of_mem _ hg)
    by_cases hid : f = user.FieldID
    · subst hid
      simp [selectLoop, hf, selectLoop_of_valid user fields columns hrest]
    · simp [selectLoop, hf, hid, selectLoop_of_valid user fields (columns ++ [f]) hrest]

theorem selectLoop_of_invalid (user : UserPackage) (f : String) (post : List String)
    (hf : user.ValidColumn f = false) : ∀ (pre columns : List String),
    (∀ g ∈ pre, user.ValidColumn g = true) →
    selectLoop user (pre ++ f :: post) columns =
      .error (.ValidationError f ("ent: invalid field \"" ++ f ++ "\" for query"))
  | [], columns, _ => by simp [selectLoop, hf]
  | g :: pre, columns, h => by
    have hg : user.ValidColumn g = true := h g (List.mem_cons_self _ _)
    have hrest : ∀ x ∈ pre, user.ValidColumn x = true :=
      fun x hx => h x (List.mem_cons_of_mem _ hx)
    by_cases hid : g = user.FieldID
    · subst hid
      simp [selectLoop, hg, selectLoop_of_invalid user f post hf pre columns hrest]
    · simp [selectLoop, hg, hid,
        selectLoop_of_invalid user f post hf pre (columns ++ [g]) hrest]

/-- `Save` of a `UserUpdateOne` without hooks whose mutation passes `check`. -/
theorem UserUpdateOne_Save_of_checked (user : UserPackage) (drv : Driver)
    (uuo : UserUpdateOne) (ho : uuo.hooks = [])
    (hcheck : (checkMutation user uuo.mutation).1 = none) :
    uuo.Save user drv =
      ⟨(uuo.sqlSave user drv).1.1, (uuo.sqlSave user drv).1.2,
        (checkMutation user uuo.mutation).2, (uuo.sqlSave user drv).2⟩ := by
  simp only [UserUpdateOne.Save, ho, List.length_nil, if_true, UserUpdateOne.check]
  cases hc : checkMutation user uuo.mutation with
  | mk e calls =>
    rw [hc] at hcheck
    simp only at hcheck
    subst hcheck
    rfl

/-- The columns of a `UserUpdateOne` without hooks, whose mutation has its
identifier and passes `check`. -/
theorem Save_columns_of_checked (user : UserPackage) (drv : Driver) (uuo : UserUpdateOne)
    (id : String) (ho : uuo.hooks = [])
    (hcheck : (checkMutation user uuo.mutation).1 = none)
    (hid : uuo.mutation.id = some id) :
    (uuo.fields = [] →
      ∃ spec, (uuo.Save user drv).executed = [spec] ∧ spec.Node.Columns = user.Columns) ∧
    (∀ field fields, (∀ f ∈ field :: fields, user.ValidColumn f = true) →
      ∃ spec, ((uuo.Select field fields).Save user drv).executed = [spec] ∧
        spec.Node.Columns =
          user.FieldID :: (field :: fields).filter fun f => decide (f ≠ user.FieldID)) ∧
    (∀ field fields pre f post, field :: fields = pre ++ f :: post →
      (∀ g ∈ pre, user.ValidColumn g = true) → user.ValidColumn f = false →
      (uuo.Select field fields).Save user drv =
        ⟨none, some (.ValidationError f ("ent: invalid field \"" ++ f ++ "\" for query")),
          (checkMutation user uuo.mutation).2, []⟩) := by
  refine ⟨fun hf => ?_, fun field fields hvalid => ?_, fun field fields pre f post hsplit hpre hf => ?_⟩
  · rw [UserUpdateOne_Save_of_checked user drv uuo ho hcheck]
    simp only [UserUpdateOne.sqlSave, hid, hf, List.length_nil, gt_iff_lt, Nat.lt_irrefl,
      if_false]
    split
    · refine ⟨_, rfl, ?_⟩
      exact (congrArg NodeSpec.Columns (fillSpec_edges user uuo.mutation _).1).trans rfl
    · refine ⟨_, rfl, ?_⟩
      exact (congrArg NodeSpec.Columns (fillSpec_edges user uuo.mutation _).1).trans rfl
  · rw [UserUpdateOne_Save_of_checked user drv (uuo.Select field fields) ho hcheck]
    have hsel := selectLoop_of_valid user (field :: fields) [user.FieldID] hvalid
    simp only [UserUpdateOne.sqlSave, UserUpdateOne.Select, hid, List.singleton_append,
      List.length_cons, gt_iff_lt, Nat.zero_lt_succ, if_true, hsel]
    split
    · refine ⟨_, rfl, ?_⟩
      exact (congrArg NodeSpec.Columns (fillSpec_edges user uuo.mutation _).1).trans rfl
    · refine ⟨_, rfl, ?_⟩
      exact (congrArg NodeSpec.Columns (fillSpec_edges user uuo.mutation _).1).trans rfl
  · rw [UserUpdateOne_Save_of_checked user drv (uuo.Select field fields) ho hcheck]
    have hsel := selectLoop_of_invalid user f post hf pre [user.FieldID] hpre
    rw [← hsplit] at hsel
    simp only [UserUpdateOne.sqlSave, UserUpdateOne.Select, hid, List.singleton_append,
      List.length_cons, gt_iff_lt, Nat.zero_lt_succ, if_true, hsel]

/-- C23, refuted as stated: the selected column `bogus` is not a valid column,
but the name set in the mutation is empty, so `Save` fails in `check`, before
the selection is looked at, with the `ValidationError` named `name`, not
`bogus`; and on a mutation without identifier, `Save` fails with the
`ValidationError` named `id` although the only selected column, `name`, is
valid. -/
theorem invalid_selection_reported_under_another_name :
    exampleUserPackage.ValidColumn "bogus" = false ∧
    (UserUpdateOne.Select ⟨[], [], { exampleMutation with name := some "" }⟩ "bogus" []).Save
        exampleUserPackage exampleDriver =
      ⟨none, some (.ValidationError "name"
          "ent: validator failed for field \"User.name\": value is less than the required length"),
        ["name"], []⟩ ∧
    exampleUserPackage.ValidColumn "name" = true ∧
    (UserUpdateOne.Select ⟨[], [], { exampleMutation with id := none }⟩ "name" []).Save
        exampleUserPackage exampleDriver =
      ⟨none, some (.ValidationError "id" "ent: missing \"User.id\" for update"),
        ["name"], []⟩ := by
  refine ⟨by decide, by decide, by decide, by decide⟩

/-- C23, amended: for a `UserUpdateOne` without hooks, `Save` first runs
`check`, and when a validator fails it returns that `ValidationError` (named
`name`, `type` or `password`) whatever was selected; otherwise, when the
mutation has no identifier, it fails with the `ValidationError` named `id`; in
both cases no update is handed to the SQL layer. Otherwise: with no `Select`
call, the update handed to the SQL layer returns all the columns
`user.Columns`; after `Select(field, fields...)` with only valid columns, it
returns the identifier column followed by the selected columns other than the
identifier column, in the order given; and when a selected column is not
valid, `Save` fails with the `ValidationError` named after the first such
column and hands no update to the SQL layer. -/
theorem select_columns_after_check (user : UserPackage) (drv : Driver) (uuo : UserUpdateOne)
    (ho : uuo.hooks = []) :
    (∀ err, (checkMutation user uuo.mutation).1 = some err →
      uuo.Save user drv = ⟨none, some err, (checkMutation user uuo.mutation).2, []⟩) ∧
    ((checkMutation user uuo.mutation).1 = none → uuo.mutation.id = none →
      uuo.Save user drv =
        ⟨none, some (.ValidationError "id" "ent: missing \"User.id\" for update"),
          (checkMutation user uuo.mutation).2, []⟩) ∧
    (∀ id, (checkMutation user uuo.mutation).1 = none → uuo.mutation.id = some id →
      (uuo.fields = [] →
        ∃ spec, (uuo.Save user drv).executed = [spec] ∧ spec.Node.Columns = user.Columns) ∧
      (∀ field fields, (∀ f ∈ field :: fields, user.ValidColumn f = true) →
        ∃ spec, ((uuo.Select field fields).Save user drv).executed = [spec] ∧
          spec.Node.Columns =
            user.FieldID :: (field :: fields).filter fun f => decide (f ≠ user.FieldID)) ∧
      (∀ field fields pre f post, field :: fields = pre ++ f :: post →
        (∀ g ∈ pre, user.ValidColumn g = true) → user.ValidColumn f = false →
        (uuo.Select field fields).Save user drv =
          ⟨none, some (.ValidationError f ("ent: invalid field \"" ++ f ++ "\" for query")),
            (checkMutation user uuo.mutation).2, []⟩)) := by
  refine ⟨fun err herr => ?_, fun hcheck hid => ?_, fun id hcheck hid => ?_⟩
  · simp only [UserUpdateOne.Save, ho, List.length_nil, if_true, UserUpdateOne.check]
    cases hc : checkMutation user uuo.mutation with
    | mk e calls =>
      rw [hc] at herr
      simp only at herr
      subst herr
      rfl
  · rw [UserUpdateOne_Save_of_checked user drv uuo ho hcheck]
    simp only [UserUpdateOne.sqlSave, hid]
  · exact Save_columns_of_checked user drv uuo id ho hcheck hid

/-- Witness of C23: on the example mutation, `Select("name", "id", "type")`
returns the columns `id`, `name`, `type`, and `Select("name", "bogus", "nope")`
fails with the error named `bogus`; with an empty name, `Save` fails with the
error named `name`. -/
theorem select_columns_after_check_witness :
    (∃ spec, ((UserUpdateOne.Select ⟨[], [], exampleMutation⟩ "name" ["id", "type"]).Save
        exampleUserPackage exampleDriver).executed = [spec] ∧
      spec.Node.Columns =
        exampleUserPackage.FieldID ::
          ("name" :: ["id", "type"]).filter fun f => decide (f ≠ exampleUserPackage.FieldID)) ∧
    (UserUpdateOne.Select ⟨[], [], exampleMutation⟩ "name" ["bogus", "nope"]).Save
        exampleUserPackage exampleDriver =
      ⟨none, some (.ValidationError "bogus" ("ent: invalid field \"" ++ "bogus" ++ "\" for query")),
        (checkMutation exampleUserPackage exampleMutation).2, []⟩ ∧
    ((UserUpdateOne.Select ⟨[], [], exampleMutation⟩ "name" ["id", "type"]).Save
        exampleUserPackage exampleDriver).executed.map (fun spec => spec.Node.Columns) =
      [["id", "name", "type"]] ∧
    UserUpdateOne.Save exampleUserPackage exampleDriver
        ⟨["bogus"], [], { exampleMutation with name := some "" }⟩ =
      ⟨none, some (.ValidationError "name"
          "ent: validator failed for field \"User.name\": value is less than the required length"),
        (checkMutation exampleUserPackage { exampleMutation with name := some "" }).2, []⟩ :=
  ⟨((select_columns_after_check exampleUserPackage exampleDriver ⟨[], [], exampleMutation⟩
      rfl).2.2 "u1" (by decide) rfl).2.1 "name" ["id", "type"] (by decide),
    ((select_columns_after_check exampleUserPackage exampleDriver ⟨[], [], exampleMutation⟩
      rfl).2.2 "u1" (by decide) rfl).2.2 "name" ["bogus", "nope"] ["name"] "bogus" ["nope"] rfl
      (by decide) (by decide),
    by decide,
    (select_columns_after_check exampleUserPackage exampleDriver
      ⟨["bogus"], [], { exampleMutation with name := some "" }⟩ rfl).1 _ (by decide)⟩

/-! ## Hooks -/

theorem wrapHooks_append : ∀ (l1 l2 : List (Option Hook)) (base : Mutator),
    wrapHooks (l1 ++ l2) base = (wrapHooks l1 base).bind fun m => wrapHooks l2 m
  | [], l2, base => by simp [wrapHooks]
  | none :: l1, l2, base => by simp [wrapHooks]
  | some hook :: l1, l2, base => by
    simp only [List.cons_append, wrapHooks]
    exact wrapHooks_append l1 l2 (hook base)

/-- For hooks without a nil entry, the loop of `Save` builds the mutator
`h0(h1(...hn(base)...))`. -/
theorem wrapHooks_eq_chainSpec : ∀ (hooks : List Hook) (base : Mutator),
    wrapHooks (hooks.map some).reverse base = some (chainSpec hooks base)
  | [], base => by simp [wrapHooks, chainSpec]
  | hook :: hooks, base => by
    simp only [List.map_cons, List.reverse_cons, wrapHooks_append,
      wrapHooks_eq_chainSpec hooks base, Option.some_bind, wrapHooks, chainSpec,
      List.foldr_cons]

/-- The loop of `Save` stops at a nil hook. -/
theorem wrapHooks_of_nil : ∀ (l : List (Option Hook)) (base : Mutator),
    none ∈ l → wrapHooks l base = none
  | [], _, h => by simp at h
  | none :: _, _, _ => by simp [wrapHooks]
  | some hook :: rest, base, h => by
    simp only [wrapHooks]
    apply wrapHooks_of_nil rest (hook base)
    simpa using h

/-- C27: for a `UserUpdate` and a `UserUpdateOne` whose hook list `h0, ..., hn`
is not empty and has no nil entry, `Save` runs the mutator
`h0(h1(...hn(base)...))`, in which `h0` is outermost, on the mutation of the
builder, and returns the error of that run, or else the count, resp. the node,
and the error that the run has left; and when some hook of the list is nil,
`Save` returns the error `uninitialized hook` with the count 0, resp. the node
nil, and neither a mutator nor a validator has run nor has an update been
handed to the SQL layer. -/
theorem hook_chaining (user : UserPackage) (drv : Driver) (uu : UserUpdate)
    (uuo : UserUpdateOne) (hook : Hook) (hooks : List Hook) :
    (uu.hooks = (hook :: hooks).map some →
      uu.Save user drv =
        (match chainSpec (hook :: hooks) (UserUpdate.mutateFunc user drv) (.user uu.mutation)
            ⟨0, none, none, uu.mutation, [], []⟩ with
          | ((_, some err), st) => ⟨0, some err, st.validated, st.executed⟩
          | ((_, none), st) => ⟨st.affected, st.err, st.validated, st.executed⟩)) ∧
    (uuo.hooks = (hook :: hooks).map some →
      uuo.Save user drv =
        (match chainSpec (hook :: hooks) (UserUpdateOne.mutateFunc user drv uuo.fields)
            (.user uuo.mutation) ⟨0, none, none, uuo.mutation, [], []⟩ with
          | ((_, some err), st) => ⟨none, some err, st.validated, st.executed⟩
          | ((.user nv, none), st) => ⟨nv, st.err, st.validated, st.executed⟩
          | ((v, none), st) =>
            ⟨none, some (.Errorf ("unexpected node type " ++ v.goType ++
              " returned from UserMutation")), st.validated, st.executed⟩)) ∧
    (∀ base : Mutator, chainSpec (hook :: hooks) base = hook (chainSpec hooks base)) ∧
    (none ∈ uu.hooks →
      uu.Save user drv =
        ⟨0, some (.Errorf "ent: uninitialized hook (forgotten import ent/runtime?)"), [], []⟩) ∧
    (none ∈ uuo.hooks →
      uuo.Save user drv =
        ⟨none, some (.Errorf "ent: uninitialized hook (forgotten import ent/runtime?)"),
          [], []⟩) := by
  refine ⟨fun h => ?_, fun h => ?_, fun _ => rfl, fun h => ?_, fun h => ?_⟩
  · have hlen : ¬ uu.hooks.length = 0 := by simp [h]
    simp only [UserUpdate.Save, if_neg hlen]
    rw [h, wrapHooks_eq_chainSpec]
  · have hlen : ¬ uuo.hooks.length = 0 := by simp [h]
    simp only [UserUpdateOne.Save, if_neg hlen]
    rw [h, wrapHooks_eq_chainSpec]
  · have hlen : ¬ uu.hooks.length = 0 := by
      intro h0
      rw [List.length_eq_zero.mp h0] at h
      simp at h
    simp only [UserUpdate.Save, if_neg hlen]
    rw [wrapHooks_of_nil uu.hooks.reverse _ (by simpa using h)]
  · have hlen : ¬ uuo.hooks.length = 0 := by
      intro h0
      rw [List.length_eq_zero.mp h0] at h
      simp at h
    simp only [UserUpdateOne.Save, if_neg hlen]
    rw [wrapHooks_of_nil uuo.hooks.reverse _ (by simpa using h)]

/-- Witness of C27: with the hooks `h0`, `h1` that record their names, `Save`
runs `h0` first, then `h1`, then the base mutator, which validates `name` and
updates; with a nil hook in the list, nothing runs. -/
theorem hook_chaining_witness :
    UserUpdate.Save exampleUserPackage exampleDriver
        ⟨[some (tracingHook "h0"), some (tracingHook "h1")], exampleMutation⟩ =
      (match chainSpec [tracingHook "h0", tracingHook "h1"]
          (UserUpdate.mutateFunc exampleUserPackage exampleDriver) (.user exampleMutation)
          ⟨0, none, none, exampleMutation, [], []⟩ with
        | ((_, some err), st) => ⟨0, some err, st.validated, st.executed⟩
        | ((_, none), st) => ⟨st.affected, st.err, st.validated, st.executed⟩) ∧
    (UserUpdate.Save exampleUserPackage exampleDriver
        ⟨[some (tracingHook "h0"), some (tracingHook "h1")], exampleMutation⟩).validated =
      ["h0", "h1", "name"] ∧
    (UserUpdate.Save exampleUserPackage exampleDriver
        ⟨[some (tracingHook "h0"), some (tracingHook "h1")], exampleMutation⟩).affected = 1 ∧
    UserUpdate.Save exampleUserPackage exampleDriver
        ⟨[some (tracingHook "h0"), none, some (tracingHook "h1")], exampleMutation⟩ =
      ⟨0, some (.Errorf "ent: uninitialized hook (forgotten import ent/runtime?)"), [], []⟩ :=
  ⟨(hook_chaining exampleUserPackage exampleDriver
      ⟨[some (tracingHook "h0"), some (tracingHook "h1")], exampleMutation⟩
      ⟨[], [], exampleMutation⟩ (tracingHook "h0") [tracingHook "h1"]).1 rfl,
    by decide, by decide,
    (hook_chaining exampleUserPackage exampleDriver
      ⟨[some (tracingHook "h0"), none, some (tracingHook "h1")], exampleMutation⟩
      ⟨[], [], exampleMutation⟩ (tracingHook "h0") []).2.2.2.1 (by simp)⟩

/-! ## Row decoding, at concrete rows -/

/-- Witness of C29: one value for the two columns `id`, `raw` is a mismatch
that changes nothing; the row `id = "c2"` is decoded by the table of the
fields; a NULL method and a time for the column `kty` change nothing; and the
object that `json.Unmarshal` rejects leaves the field `Raw` as it was. -/
theorem row_decoding_witness :
    ([ScanValue.NullString true "x"].length < ["id", "raw"].length ∧
      (⟨"c1", "t", [1, 2, 3], 0, 0, none, none⟩ : Credential).assignValues ["id", "raw"]
          [.NullString true "x"] =
        (⟨"c1", "t", [1, 2, 3], 0, 0, none, none⟩,
          some "mismatch number of scan values: 1 != 2")) ∧
    (¬ ([] : List ScanValue).length < ([] : List String).length ∧
      (⟨"c1", "t", [1, 2, 3], 0, 0, none, none⟩ : Credential).assignValues ["id"]
          [.NullString true "c2"] =
        (⟨"c2", "t", [1, 2, 3], 0, 0, none, none⟩, none) ∧
      (⟨"d1", "key", 0, 0, none⟩ : DID).assignValues ["method"] [.NullString false "web"] =
        (⟨"d1", "key", 0, 0, none⟩, none) ∧
      (⟨"k1", "EC", "ES256", [1, 2, 3], 0, 0⟩ : PublicKey).assignValues ["kty"]
          [.NullTime true 5] =
        (⟨"k1", "EC", "ES256", [1, 2, 3], 0, 0⟩,
          some "unexpected type *sql.NullTime for field kty")) ∧
    ((⟨"c1", "t", [1, 2, 3], 0, 0, none, none⟩ : Credential).assignValues ["raw"]
        [.Bytes (some (stringToBytes "\x7b\"a\": 1\x7d"))]).1 =
      ⟨"c1", "t", [1, 2, 3], 0, 0, none, none⟩ ∧
    (⟨"c1", "t", [1, 2, 3], 0, 0, none, none⟩ : Credential).assignValues ["raw"]
        [.Bytes (some (stringToBytes "[7,\"x\"]"))] =
      (⟨"c1", "t", [7, 2], 0, 0, none, none⟩,
        some "unmarshal field raw: json: cannot unmarshal string into Go value of type uint8") :=
  ⟨⟨by decide,
      ((row_decoding ⟨"c1", "t", [1, 2, 3], 0, 0, none, none⟩ ⟨"d1", "key", 0, 0, none⟩
        ⟨"k1", "EC", "ES256", [1, 2, 3], 0, 0⟩ "id" (.NullString true "c2") ["id", "raw"]
        [.NullString true "x"]).1 (by decide)).1⟩,
    ⟨by decide,
      ((row_decoding ⟨"c1", "t", [1, 2, 3], 0, 0, none, none⟩ ⟨"d1", "key", 0, 0, none⟩
        ⟨"k1", "EC", "ES256", [1, 2, 3], 0, 0⟩ "id" (.NullString true "c2") [] []).2.1
        (by decide)).1,
      ((row_decoding ⟨"c1", "t", [1, 2, 3], 0, 0, none, none⟩ ⟨"d1", "key", 0, 0, none⟩
        ⟨"k1", "EC", "ES256", [1, 2, 3], 0, 0⟩ "method" (.NullString false "web") [] []).2.1
        (by decide)).2.1,
      ((row_decoding ⟨"c1", "t", [1, 2, 3], 0, 0, none, none⟩ ⟨"d1", "key", 0, 0, none⟩
        ⟨"k1", "EC", "ES256", [1, 2, 3], 0, 0⟩ "kty" (.NullTime true 5) [] []).2.1
        (by decide)).2.2⟩,
    ((row_decoding ⟨"c1", "t", [1, 2, 3], 0, 0, none, none⟩ ⟨"d1", "key", 0, 0, none⟩
      ⟨"k1", "EC", "ES256", [1, 2, 3], 0, 0⟩ "id" (.NullString true "c2") [] []).2.2.2.2.2.1
      (stringToBytes "\x7b\"a\": 1\x7d")
      "unmarshal field raw: json: cannot unmarshal object into Go value of type []uint8"
      (by decide)).1 (by decide),
    by decide⟩

end VCBackend
